import Mathlib

/-!
# NodeDataFlowEditor: model / view / presenter synchronisation, scene management and tags

A shallow embedding of the signal primitive, the data models, the views, the presenters,
the scene manager, the tag registry and the taggable objects of the node editor, followed by
the properties proved about them.

Conventions of the embedding

* `std::string` and `QString` are both `String`; the conversions between them are the identity.
* A `double` is a `Double` below: NaN, an infinity, or a finite dyadic value; a difference of
  two of them is rounded to the nearest binary64 value.
* A signal is the list of its slots; a slot is a closure of the source, named by a constructor.
* Calls into the rendering toolkit (`update()`, `setPos`, `prepareGeometryChange`, pens, timers)
  do not touch the state embedded here and are left out. The selection of the toolkit's items
  and the toolkit's delivery of a pointer press to them are embedded for the pointer-press
  handler of the scene only.
* The tag registry, which is global in the source, is passed to and returned by the functions
  that use it; a tag type is a `Tag`, a `std::bitset<32>` the number of its bits.
* A function that throws returns `none`; so does a `noexcept` function that an exception would
  leave, where the program is terminated.
-/

namespace NodeEditor

/-! ## Floating point values as seen by the comparisons of the program -/

/-- An IEEE-754 binary64 value: NaN, plus or minus infinity, or the finite value
`mant * 2 ^ exp`. -/
inductive Double
  | nan
  | inf (negative : Bool)
  | finite (mant : Int) (exp : Int)
  deriving DecidableEq, Repr

namespace Double

/-- The literal `0.` -/
def zero : Double := .finite 0 0

/-- The literal `1.0` -/
def one : Double := .finite 1 0

/-- Numerator of a finite value over the common denominator `2 ^ (-k)`, for `k ≤ exp`. -/
def scaled (mant exp k : Int) : Int := mant * 2 ^ (exp - k).toNat

/-- The builtin `a == b` on `double`: false as soon as one side is NaN, otherwise
comparison of the values. -/
def eq : Double → Double → Bool
  | .nan, _ => false
  | _, .nan => false
  | .inf s, .inf t => s == t
  | .inf _, .finite _ _ => false
  | .finite _ _, .inf _ => false
  | .finite m e, .finite n f => scaled m e (min e f) == scaled n f (min e f)

/-- Mantissa of the `double` nearest to `1e-6`, which is `epsMant * 2 ^ epsExp`. -/
def epsMant : Int := 4722366482869645

/-- Exponent of the `double` nearest to `1e-6`. -/
def epsExp : Int := -72

/-- Number of binary digits of `n`, by halving at most `fuel` times. -/
def bitLengthAux : Nat → Nat → Nat
  | 0, _ => 0
  | fuel + 1, n => if n = 0 then 0 else bitLengthAux fuel (n / 2) + 1

/-- Number of binary digits of `n`: the least `b` with `n < 2 ^ b`. -/
def bitLength (n : Nat) : Nat := bitLengthAux n n

/-- The binary64 value nearest to `mant * 2 ^ exp`, as every arithmetic operation on `double`
delivers it: round to nearest, ties to the even mantissa, a mantissa of at most 53 bits over an
exponent of at least `-1074`, and an infinity from `2 ^ 1024` on. -/
def round (mant exp : Int) : Double :=
  let n := mant.natAbs
  let q := max exp (max (exp + bitLength n - 53) (-1074))
  let shift := (q - exp).toNat
  let quot := n / 2 ^ shift
  let rem := n % 2 ^ shift
  let r := if 2 ^ shift < 2 * rem || (2 * rem == 2 ^ shift && quot % 2 == 1) then quot + 1 else quot
  if 1024 < q + bitLength r then .inf (decide (mant < 0))
  else .finite (if mant < 0 then -(r : Int) else r) q

/-- The builtin `a - b` on `double`: NaN from a NaN operand and from the difference of equal
infinities, an infinity from an infinite operand otherwise, and the rounded difference of
finite operands. -/
def sub : Double → Double → Double
  | .nan, _ => .nan
  | _, .nan => .nan
  | .inf s, .inf t => if s == t then .nan else .inf s
  | .inf s, .finite _ _ => .inf s
  | .finite _ _, .inf t => .inf (!t)
  | .finite m e, .finite n f => round (scaled m e (min e f) - scaled n f (min e f)) (min e f)

/-- The function `std::abs` on `double`. -/
def abs : Double → Double
  | .nan => .nan
  | .inf _ => .inf false
  | .finite m e => .finite m.natAbs e

/-- The builtin `a < b` on `double`: false as soon as one side is NaN, otherwise comparison of
the values. -/
def lt : Double → Double → Bool
  | .nan, _ => false
  | _, .nan => false
  | .inf s, .inf t => s && !t
  | .inf s, .finite _ _ => s
  | .finite _ _, .inf t => !t
  | .finite m e, .finite n f => decide (scaled m e (min e f) < scaled n f (min e f))

/-- The constant `epsilon = 1e-6` of the tolerant comparisons. -/
def epsilon : Double := .finite epsMant epsExp

/-- The test `std::abs(a - b) < epsilon` with `epsilon = 1e-6`, on the difference as the
subtraction delivers it. -/
def absDiffLtEps (a b : Double) : Bool := lt (abs (sub a b)) epsilon

end Double

/-! ## `GraphicsProperties.hpp` and `ConnectionInfo.hpp` -/

/-- Source: `struct SPos`, a 2D position. -/
structure SPos where
  x : Double := Double.zero
  y : Double := Double.zero
  deriving DecidableEq, Repr

/-- Source: `SPos::operator==`, tolerance `1e-6` on each coordinate. -/
def SPos.eq (a other : SPos) : Bool :=
  Double.absDiffLtEps a.x other.x && Double.absDiffLtEps a.y other.y

/-- Source: `struct SPoint`, a 2D point. -/
structure SPoint where
  x : Double := Double.zero
  y : Double := Double.zero
  deriving DecidableEq, Repr

/-- Source: `SPoint::operator==`, tolerance `1e-6` on each coordinate. -/
def SPoint.eq (a other : SPoint) : Bool :=
  Double.absDiffLtEps a.x other.x && Double.absDiffLtEps a.y other.y

/-- Source: `struct SRect`, a rectangle given by corner and size. -/
structure SRect where
  x : Double := Double.zero
  y : Double := Double.zero
  width : Double := Double.zero
  height : Double := Double.zero
  deriving DecidableEq, Repr

/-- Source: `SRect::operator==`, tolerance `1e-6` on each of the four members. -/
def SRect.eq (a other : SRect) : Bool :=
  Double.absDiffLtEps a.x other.x && Double.absDiffLtEps a.y other.y &&
    Double.absDiffLtEps a.width other.width && Double.absDiffLtEps a.height other.height

/-- Source: `SPort::Orientation`. -/
inductive Orientation
  | Input
  | Parameter
  | Output
  deriving DecidableEq, Repr

/-- Source: `struct SPort`, the identity triple of a port. -/
structure SPort where
  name : String := ""
  nodeName : String := ""
  input : Bool := true
  deriving DecidableEq, Repr

/-- Source: `SPort::operator==`, structural. -/
def SPort.eq (a other : SPort) : Bool :=
  a.name == other.name && a.nodeName == other.nodeName && a.input == other.input

/-! ## `Signal.hpp` -/

/-- Source: `class Signal`. `m_slots` keeps one entry per `connect`, `none` once the slot is
disconnected. -/
structure Signal (Slot : Type) where
  m_slots : List (Option Slot) := []
  m_blocked : Bool := false
  deriving DecidableEq, Repr

namespace Signal

variable {Slot : Type}

/-- Source: `Signal::connect`; returns the id and the signal afterwards. -/
def connect (s : Signal Slot) (slot : Slot) : Nat × Signal Slot :=
  let s1 : Signal Slot := { s with m_slots := s.m_slots ++ [some slot] }
  (s1.m_slots.length - 1, s1)

/-- Source: `Signal::disconnect`. -/
def disconnect (s : Signal Slot) (id : Nat) : Signal Slot :=
  if id < s.m_slots.length then { s with m_slots := s.m_slots.set id none } else s

/-- Source: `Signal::disconnectAll`. -/
def disconnectAll (s : Signal Slot) : Signal Slot :=
  { s with m_slots := s.m_slots.map fun _ => none }

/-- Source: `Signal::blockSignals`. -/
def blockSignals (s : Signal Slot) (block : Bool) : Signal Slot :=
  { s with m_blocked := block }

/-- Source: `Signal::notify`: the slots it invokes, in invocation order (none when blocked,
otherwise every entry that is not null). -/
def notify (s : Signal Slot) : List Slot :=
  if s.m_blocked then [] else s.m_slots.filterMap id

end Signal

/-! ## `AbstractItemModel` -/

/-- The mirrored properties of a generic item; property `p` has the setter `set_p`, the getter
`p()` and the signal `p_changed`. -/
inductive ItemProperty
  | rotation
  | scale
  | pos
  | rect
  | enable
  | visible
  | active
  | select
  | pressed
  | double_clicked
  | moving
  deriving DecidableEq, Repr

/-- A property of a generic item together with a value of its type: the argument of the call
`set_p(v)` and of the notification `p_changed.notify(v)`. -/
inductive ItemChange
  | rotation (r : Double)
  | scale (s : Double)
  | pos (p : SPos)
  | rect (r : SRect)
  | enable (b : Bool)
  | visible (b : Bool)
  | active (b : Bool)
  | select (b : Bool)
  | pressed (b : Bool)
  | double_clicked (b : Bool)
  | moving (b : Bool)
  deriving DecidableEq, Repr

/-- The property a call or notification is about. -/
def ItemChange.property : ItemChange → ItemProperty
  | .rotation _ => .rotation
  | .scale _ => .scale
  | .pos _ => .pos
  | .rect _ => .rect
  | .enable _ => .enable
  | .visible _ => .visible
  | .active _ => .active
  | .select _ => .select
  | .pressed _ => .pressed
  | .double_clicked _ => .double_clicked
  | .moving _ => .moving

/-- The comparison `stored == v` a setter of the property makes: `operator==` of the type. -/
def ItemChange.eq : ItemChange → ItemChange → Bool
  | .rotation a, .rotation b => Double.eq a b
  | .scale a, .scale b => Double.eq a b
  | .pos a, .pos b => SPos.eq a b
  | .rect a, .rect b => SRect.eq a b
  | .enable a, .enable b => a == b
  | .visible a, .visible b => a == b
  | .active a, .active b => a == b
  | .select a, .select b => a == b
  | .pressed a, .pressed b => a == b
  | .double_clicked a, .double_clicked b => a == b
  | .moving a, .moving b => a == b
  | _, _ => false

/-- Source: the data members of `struct AbstractItemModel`, with their initialisers. -/
structure AbstractItemModel where
  rotation_ : Double := Double.zero
  scale_ : Double := Double.one
  pos_ : SPos := {}
  rect_ : SRect := {}
  enable_ : Bool := true
  visible_ : Bool := true
  active_ : Bool := false
  select_ : Bool := false
  hovered_ : Bool := false
  pressed_ : Bool := false
  double_clicked_ : Bool := false
  moving_ : Bool := false
  deriving DecidableEq, Repr

namespace AbstractItemModel

/-- Source: `AbstractItemModel::set_rotation`. Returns the model as it stands when the setter
notifies, and the notifications made, in order. -/
def set_rotation (m : AbstractItemModel) (r : Double) : AbstractItemModel × List ItemChange :=
  if Double.eq m.rotation_ r then (m, [])
  else
    let m1 := { m with rotation_ := r }
    (m1, [.rotation m1.rotation_])

/-- Source: `AbstractItemModel::set_scale`. Returns the model as it stands when the setter
notifies, and the notifications made, in order. -/
def set_scale (m : AbstractItemModel) (s : Double) : AbstractItemModel × List ItemChange :=
  if Double.eq m.scale_ s then (m, [])
  else
    let m1 := { m with scale_ := s }
    (m1, [.scale m1.scale_])

/-- Source: `AbstractItemModel::set_pos`. Returns the model as it stands when the setter
notifies, and the notifications made, in order. -/
def set_pos (m : AbstractItemModel) (p : SPos) : AbstractItemModel × List ItemChange :=
  if SPos.eq m.pos_ p then (m, [])
  else
    let m1 := { m with pos_ := p }
    (m1, [.pos m1.pos_])

/-- Source: `AbstractItemModel::set_rect`. Returns the model as it stands when the setter
notifies, and the notifications made, in order. -/
def set_rect (m : AbstractItemModel) (r : SRect) : AbstractItemModel × List ItemChange :=
  if SRect.eq m.rect_ r then (m, [])
  else
    let m1 := { m with rect_ := r }
    (m1, [.rect m1.rect_])

/-- Source: `AbstractItemModel::set_enable`. Returns the model as it stands when the setter
notifies, and the notifications made, in order. -/
def set_enable (m : AbstractItemModel) (b : Bool) : AbstractItemModel × List ItemChange :=
  if m.enable_ == b then (m, [])
  else
    let m1 := { m with enable_ := b }
    (m1, [.enable m1.enable_])

/-- Source: `AbstractItemModel::set_visible`. Returns the model as it stands when the setter
notifies, and the notifications made, in order. -/
def set_visible (m : AbstractItemModel) (b : Bool) : AbstractItemModel × List ItemChange :=
  if m.visible_ == b then (m, [])
  else
    let m1 := { m with visible_ := b }
    (m1, [.visible m1.visible_])

/-- Source: `AbstractItemModel::set_active`. Returns the model as it stands when the setter
notifies, and the notifications made, in order. -/
def set_active (m : AbstractItemModel) (b : Bool) : AbstractItemModel × List ItemChange :=
  if m.active_ == b then (m, [])
  else
    let m1 := { m with active_ := b }
    (m1, [.active m1.active_])

/-- Source: `AbstractItemModel::set_select`. Returns the model as it stands when the setter
notifies, and the notifications made, in order. -/
def set_select (m : AbstractItemModel) (b : Bool) : AbstractItemModel × List ItemChange :=
  if m.select_ == b then (m, [])
  else
    let m1 := { m with select_ := b }
    (m1, [.select m1.select_])

/-- Source: `AbstractItemModel::set_pressed`. Returns the model as it stands when the setter
notifies, and the notifications made, in order. -/
def set_pressed (m : AbstractItemModel) (b : Bool) : AbstractItemModel × List ItemChange :=
  if m.pressed_ == b then (m, [])
  else
    let m1 := { m with pressed_ := b }
    (m1, [.pressed m1.pressed_])

/-- Source: `AbstractItemModel::set_double_clicked`. Returns the model as it stands when the setter
notifies, and the notifications made, in order. -/
def set_double_clicked (m : AbstractItemModel) (b : Bool) : AbstractItemModel × List ItemChange :=
  if m.double_clicked_ == b then (m, [])
  else
    let m1 := { m with double_clicked_ := b }
    (m1, [.double_clicked m1.double_clicked_])

/-- Source: `AbstractItemModel::set_moving`. Returns the model as it stands when the setter
notifies, and the notifications made, in order. -/
def set_moving (m : AbstractItemModel) (b : Bool) : AbstractItemModel × List ItemChange :=
  if m.moving_ == b then (m, [])
  else
    let m1 := { m with moving_ := b }
    (m1, [.moving m1.moving_])

/-- A call of one of the eleven setters. -/
def set (m : AbstractItemModel) : ItemChange → AbstractItemModel × List ItemChange
  | .rotation r => m.set_rotation r
  | .scale s => m.set_scale s
  | .pos p => m.set_pos p
  | .rect r => m.set_rect r
  | .enable b => m.set_enable b
  | .visible b => m.set_visible b
  | .active b => m.set_active b
  | .select b => m.set_select b
  | .pressed b => m.set_pressed b
  | .double_clicked b => m.set_double_clicked b
  | .moving b => m.set_moving b

/-- Source: the getters `rotation()`, ..., `moving()`, by property. -/
def get (m : AbstractItemModel) : ItemProperty → ItemChange
  | .rotation => .rotation m.rotation_
  | .scale => .scale m.scale_
  | .pos => .pos m.pos_
  | .rect => .rect m.rect_
  | .enable => .enable m.enable_
  | .visible => .visible m.visible_
  | .active => .active m.active_
  | .select => .select m.select_
  | .pressed => .pressed m.pressed_
  | .double_clicked => .double_clicked m.double_clicked_
  | .moving => .moving m.moving_

end AbstractItemModel

/-! ## `AbstractPathModel` -/

/-- The properties of a path item; property `p` has the setter `set_p`, the getter `p()` and
the signal `p_changed`. -/
inductive PathProperty
  | pos
  | rect
  | visible
  | select
  | pressed
  deriving DecidableEq, Repr

/-- A property of a path item together with a value of its type: the argument of the call
`set_p(v)` and of the notification `p_changed.notify(v)`. -/
inductive PathChange
  | pos (p : SPos)
  | rect (r : SRect)
  | visible (b : Bool)
  | select (b : Bool)
  | pressed (b : Bool)
  deriving DecidableEq, Repr

/-- The property a call or notification is about. -/
def PathChange.property : PathChange → PathProperty
  | .pos _ => .pos
  | .rect _ => .rect
  | .visible _ => .visible
  | .select _ => .select
  | .pressed _ => .pressed

/-- The comparison `stored == v` a setter of the property makes: `operator==` of the type. -/
def PathChange.eq : PathChange → PathChange → Bool
  | .pos a, .pos b => SPos.eq a b
  | .rect a, .rect b => SRect.eq a b
  | .visible a, .visible b => a == b
  | .select a, .select b => a == b
  | .pressed a, .pressed b => a == b
  | _, _ => false

/-- Source: the data members of `struct AbstractPathModel`, with their initialisers. -/
structure AbstractPathModel where
  scenePos_ : SPos := {}
  rect_ : SRect := {}
  visible_ : Bool := true
  select_ : Bool := false
  pressed_ : Bool := false
  deriving DecidableEq, Repr

namespace AbstractPathModel

/-- Source: `AbstractPathModel::set_pos`. Returns the model as it stands when the setter
notifies, and the notifications made, in order. -/
def set_pos (m : AbstractPathModel) (p : SPos) : AbstractPathModel × List PathChange :=
  if SPos.eq m.scenePos_ p then (m, [])
  else
    let m1 := { m with scenePos_ := p }
    (m1, [.pos m1.scenePos_])

/-- Source: `AbstractPathModel::set_rect`. Returns the model as it stands when the setter
notifies, and the notifications made, in order. -/
def set_rect (m : AbstractPathModel) (r : SRect) : AbstractPathModel × List PathChange :=
  if SRect.eq m.rect_ r then (m, [])
  else
    let m1 := { m with rect_ := r }
    (m1, [.rect m1.rect_])

/-- Source: `AbstractPathModel::set_visible`. Returns the model as it stands when the setter
notifies, and the notifications made, in order. -/
def set_visible (m : AbstractPathModel) (b : Bool) : AbstractPathModel × List PathChange :=
  if m.visible_ == b then (m, [])
  else
    let m1 := { m with visible_ := b }
    (m1, [.visible m1.visible_])

/-- Source: `AbstractPathModel::set_select`. Returns the model as it stands when the setter
notifies, and the notifications made, in order. -/
def set_select (m : AbstractPathModel) (b : Bool) : AbstractPathModel × List PathChange :=
  if m.select_ == b then (m, [])
  else
    let m1 := { m with select_ := b }
    (m1, [.select m1.select_])

/-- Source: `AbstractPathModel::set_pressed`. Returns the model as it stands when the setter
notifies, and the notifications made, in order. -/
def set_pressed (m : AbstractPathModel) (b : Bool) : AbstractPathModel × List PathChange :=
  if m.pressed_ == b then (m, [])
  else
    let m1 := { m with pressed_ := b }
    (m1, [.pressed m1.pressed_])

/-- A call of one of the setters. -/
def set (m : AbstractPathModel) : PathChange → AbstractPathModel × List PathChange
  | .pos p => m.set_pos p
  | .rect r => m.set_rect r
  | .visible b => m.set_visible b
  | .select b => m.set_select b
  | .pressed b => m.set_pressed b

/-- Source: the getters of `AbstractPathModel`, by property. -/
def get (m : AbstractPathModel) : PathProperty → PathChange
  | .pos => .pos m.scenePos_
  | .rect => .rect m.rect_
  | .visible => .visible m.visible_
  | .select => .select m.select_
  | .pressed => .pressed m.pressed_

end AbstractPathModel

/-! ## `ConnectionPathModel` -/

/-- The properties of a connection: those inherited from `AbstractPathModel` and its own. -/
inductive ConnectionProperty
  | path (p : PathProperty)
  | compatible
  | active
  | input
  | output
  | endPoint
  deriving DecidableEq, Repr

/-- A property of a connection together with a value of its type: the argument of the call
`set_p(v)` and of the notification `p_changed.notify(v)`. -/
inductive ConnectionChange
  | path (c : PathChange)
  | compatible (b : Bool)
  | active (b : Bool)
  | input (b : SPort)
  | output (b : SPort)
  | endPoint (b : SPoint)
  deriving DecidableEq, Repr

/-- The property a call or notification is about. -/
def ConnectionChange.property : ConnectionChange → ConnectionProperty
  | .path c => .path c.property
  | .compatible _ => .compatible
  | .active _ => .active
  | .input _ => .input
  | .output _ => .output
  | .endPoint _ => .endPoint

/-- The comparison `stored == v` a setter of the property makes: `operator==` of the type. -/
def ConnectionChange.eq : ConnectionChange → ConnectionChange → Bool
  | .path a, .path b => a.eq b
  | .compatible a, .compatible b => a == b
  | .active a, .active b => a == b
  | .input a, .input b => SPort.eq a b
  | .output a, .output b => SPort.eq a b
  | .endPoint a, .endPoint b => SPoint.eq a b
  | _, _ => false

/-- Source: the data members of `struct ConnectionPathModel`, with their initialisers. -/
structure ConnectionPathModel extends AbstractPathModel where
  endPoint_ : SPoint := {}
  inputPort_ : SPort := {}
  outputPort_ : SPort := {}
  active_ : Bool := false
  compatible_ : Bool := false
  deriving DecidableEq, Repr

namespace ConnectionPathModel

/-- Source: `ConnectionPathModel::set_compatible`. Returns the model as it stands when the setter
notifies, and the notifications made, in order. -/
def set_compatible (m : ConnectionPathModel) (b : Bool) : ConnectionPathModel × List ConnectionChange :=
  if m.compatible_ == b then (m, [])
  else
    let m1 := { m with compatible_ := b }
    (m1, [.compatible m1.compatible_])

/-- Source: `ConnectionPathModel::set_active`. Returns the model as it stands when the setter
notifies, and the notifications made, in order. -/
def set_active (m : ConnectionPathModel) (b : Bool) : ConnectionPathModel × List ConnectionChange :=
  if m.active_ == b then (m, [])
  else
    let m1 := { m with active_ := b }
    (m1, [.active m1.active_])

/-- Source: `ConnectionPathModel::set_input`. Returns the model as it stands when the setter
notifies, and the notifications made, in order. -/
def set_input (m : ConnectionPathModel) (b : SPort) : ConnectionPathModel × List ConnectionChange :=
  if SPort.eq m.inputPort_ b then (m, [])
  else
    let m1 := { m with inputPort_ := b }
    (m1, [.input m1.inputPort_])

/-- Source: `ConnectionPathModel::set_output`. Returns the model as it stands when the setter
notifies, and the notifications made, in order. -/
def set_output (m : ConnectionPathModel) (b : SPort) : ConnectionPathModel × List ConnectionChange :=
  if SPort.eq m.outputPort_ b then (m, [])
  else
    let m1 := { m with outputPort_ := b }
    (m1, [.output m1.outputPort_])

/-- Source: `ConnectionPathModel::set_endPoint`. Returns the model as it stands when the setter
notifies, and the notifications made, in order. -/
def set_endPoint (m : ConnectionPathModel) (b : SPoint) : ConnectionPathModel × List ConnectionChange :=
  if SPoint.eq m.endPoint_ b then (m, [])
  else
    let m1 := { m with endPoint_ := b }
    (m1, [.endPoint m1.endPoint_])

/-- A call of one of the setters, inherited ones included. -/
def set (m : ConnectionPathModel) : ConnectionChange → ConnectionPathModel × List ConnectionChange
  | .path c =>
    let r := m.toAbstractPathModel.set c
    ({ m with toAbstractPathModel := r.1 }, r.2.map .path)
  | .compatible b => m.set_compatible b
  | .active b => m.set_active b
  | .input b => m.set_input b
  | .output b => m.set_output b
  | .endPoint b => m.set_endPoint b

/-- Source: the getters of `ConnectionPathModel`, inherited ones included, by property. -/
def get (m : ConnectionPathModel) : ConnectionProperty → ConnectionChange
  | .path p => .path (m.toAbstractPathModel.get p)
  | .compatible => .compatible m.compatible_
  | .active => .active m.active_
  | .input => .input m.inputPort_
  | .output => .output m.outputPort_
  | .endPoint => .endPoint m.endPoint_

end ConnectionPathModel

/-! ## `PortItemModel` -/

/-- The properties of a port: those inherited from `AbstractItemModel` and its own. -/
inductive PortProperty
  | item (p : ItemProperty)
  | name
  | module_name
  | display_name
  | orientation
  deriving DecidableEq, Repr

/-- A property of a port together with a value of its type: the argument of the call
`set_p(v)` and of the notification `p_changed.notify(v)`. -/
inductive PortChange
  | item (c : ItemChange)
  | name (t : String)
  | module_name (t : String)
  | display_name (t : String)
  | orientation (t : Orientation)
  deriving DecidableEq, Repr

/-- The property a call or notification is about. -/
def PortChange.property : PortChange → PortProperty
  | .item c => .item c.property
  | .name _ => .name
  | .module_name _ => .module_name
  | .display_name _ => .display_name
  | .orientation _ => .orientation

/-- The comparison `stored == v` a setter of the property makes: `operator==` of the type. -/
def PortChange.eq : PortChange → PortChange → Bool
  | .item a, .item b => a.eq b
  | .name a, .name b => a == b
  | .module_name a, .module_name b => a == b
  | .display_name a, .display_name b => a == b
  | .orientation a, .orientation b => a == b
  | _, _ => false

/-- Source: the data members of `struct PortItemModel`. `orientation_` has no initialiser in
the source; the scene creates port models with `std::make_shared<PortItemModel>()`, which
zero-initialises it, that is `Orientation::Input`. -/
structure PortItemModel extends AbstractItemModel where
  name_ : String := ""
  moduleName_ : String := ""
  displayName_ : String := ""
  orientation_ : Orientation := Orientation.Input
  deriving DecidableEq, Repr

namespace PortItemModel

/-- Source: `PortItemModel::set_name`. Returns the model as it stands when the setter
notifies, and the notifications made, in order. -/
def set_name (m : PortItemModel) (t : String) : PortItemModel × List PortChange :=
  if m.name_ == t then (m, [])
  else
    let m1 := { m with name_ := t }
    (m1, [.name m1.name_])

/-- Source: `PortItemModel::set_module_name`. Returns the model as it stands when the setter
notifies, and the notifications made, in order. -/
def set_module_name (m : PortItemModel) (t : String) : PortItemModel × List PortChange :=
  if m.moduleName_ == t then (m, [])
  else
    let m1 := { m with moduleName_ := t }
    (m1, [.module_name m1.moduleName_])

/-- Source: `PortItemModel::set_display_name`. Returns the model as it stands when the setter
notifies, and the notifications made, in order. -/
def set_display_name (m : PortItemModel) (t : String) : PortItemModel × List PortChange :=
  if m.displayName_ == t then (m, [])
  else
    let m1 := { m with displayName_ := t }
    (m1, [.display_name m1.displayName_])

/-- Source: `PortItemModel::set_orientation`. Returns the model as it stands when the setter
notifies, and the notifications made, in order. -/
def set_orientation (m : PortItemModel) (t : Orientation) : PortItemModel × List PortChange :=
  if m.orientation_ == t then (m, [])
  else
    let m1 := { m with orientation_ := t }
    (m1, [.orientation m1.orientation_])

/-- A call of one of the setters, inherited ones included. -/
def set (m : PortItemModel) : PortChange → PortItemModel × List PortChange
  | .item c =>
    let r := m.toAbstractItemModel.set c
    ({ m with toAbstractItemModel := r.1 }, r.2.map .item)
  | .name t => m.set_name t
  | .module_name t => m.set_module_name t
  | .display_name t => m.set_display_name t
  | .orientation t => m.set_orientation t

/-- Source: the getters of `PortItemModel`, inherited ones included, by property. -/
def get (m : PortItemModel) : PortProperty → PortChange
  | .item p => .item (m.toAbstractItemModel.get p)
  | .name => .name m.name_
  | .module_name => .module_name m.moduleName_
  | .display_name => .display_name m.displayName_
  | .orientation => .orientation m.orientation_

end PortItemModel

/-! ## `NodeItemModel` -/

/-- The properties of a node: those inherited from `AbstractItemModel` and its own. -/
inductive NodeProperty
  | item (p : ItemProperty)
  | text
  deriving DecidableEq, Repr

/-- A property of a node together with a value of its type: the argument of the call
`set_p(v)` and of the notification `p_changed.notify(v)`. -/
inductive NodeChange
  | item (c : ItemChange)
  | text (t : String)
  deriving DecidableEq, Repr

/-- The property a call or notification is about. -/
def NodeChange.property : NodeChange → NodeProperty
  | .item c => .item c.property
  | .text _ => .text

/-- The comparison `stored == v` a setter of the property makes: `operator==` of the type. -/
def NodeChange.eq : NodeChange → NodeChange → Bool
  | .item a, .item b => a.eq b
  | .text a, .text b => a == b
  | _, _ => false

/-- Source: the data members of `struct NodeItemModel`. -/
structure NodeItemModel extends AbstractItemModel where
  text_ : String := ""
  deriving DecidableEq, Repr

namespace NodeItemModel

/-- Source: `NodeItemModel::set_text`. Returns the model as it stands when the setter
notifies, and the notifications made, in order. -/
def set_text (m : NodeItemModel) (t : String) : NodeItemModel × List NodeChange :=
  if m.text_ == t then (m, [])
  else
    let m1 := { m with text_ := t }
    (m1, [.text m1.text_])

/-- A call of one of the setters, inherited ones included. -/
def set (m : NodeItemModel) : NodeChange → NodeItemModel × List NodeChange
  | .item c =>
    let r := m.toAbstractItemModel.set c
    ({ m with toAbstractItemModel := r.1 }, r.2.map .item)
  | .text t => m.set_text t

/-- Source: the getters of `NodeItemModel`, inherited ones included, by property. -/
def get (m : NodeItemModel) : NodeProperty → NodeChange
  | .item p => .item (m.toAbstractItemModel.get p)
  | .text => .text m.text_

end NodeItemModel

/-! ## `EditableArrowItemModel` -/

/-- The properties of an editable label: those inherited from `AbstractItemModel` and its own. -/
inductive EditableArrowProperty
  | item (p : ItemProperty)
  | text
  deriving DecidableEq, Repr

/-- A property of an editable label together with a value of its type: the argument of the call
`set_p(v)` and of the notification `p_changed.notify(v)`. -/
inductive EditableArrowChange
  | item (c : ItemChange)
  | text (t : String)
  deriving DecidableEq, Repr

/-- The property a call or notification is about. -/
def EditableArrowChange.property : EditableArrowChange → EditableArrowProperty
  | .item c => .item c.property
  | .text _ => .text

/-- The comparison `stored == v` a setter of the property makes: `operator==` of the type. -/
def EditableArrowChange.eq : EditableArrowChange → EditableArrowChange → Bool
  | .item a, .item b => a.eq b
  | .text a, .text b => a == b
  | _, _ => false

/-- Source: the data members of `struct EditableArrowItemModel`. -/
structure EditableArrowItemModel extends AbstractItemModel where
  text_ : String := ""
  deriving DecidableEq, Repr

namespace EditableArrowItemModel

/-- Source: `EditableArrowItemModel::set_text`. Returns the model as it stands when the setter
notifies, and the notifications made, in order. -/
def set_text (m : EditableArrowItemModel) (t : String) : EditableArrowItemModel × List EditableArrowChange :=
  if m.text_ == t then (m, [])
  else
    let m1 := { m with text_ := t }
    (m1, [.text m1.text_])

/-- A call of one of the setters, inherited ones included. -/
def set (m : EditableArrowItemModel) : EditableArrowChange → EditableArrowItemModel × List EditableArrowChange
  | .item c =>
    let r := m.toAbstractItemModel.set c
    ({ m with toAbstractItemModel := r.1 }, r.2.map .item)
  | .text t => m.set_text t

/-- Source: the getters of `EditableArrowItemModel`, inherited ones included, by property. -/
def get (m : EditableArrowItemModel) : EditableArrowProperty → EditableArrowChange
  | .item p => .item (m.toAbstractItemModel.get p)
  | .text => .text m.text_

end EditableArrowItemModel

/-! ## `AbstractItemView` -/

/-- What a view setter does after it has stored the value, in order: notify the signal of a
property, or invoke the optional callback of a property if one is installed. Both receive the
data member by reference. -/
inductive ItemEffect
  | notify (p : ItemProperty)
  | callback (p : ItemProperty)
  deriving DecidableEq, Repr

/-- Source: the data members of `class AbstractItemView` that mirror the model, with their
initialisers, and for each optional callback `onPChanged` whether one is installed. -/
structure AbstractItemView where
  rotation_ : Double := Double.zero
  scale_ : Double := Double.one
  pos_ : SPos := {}
  rect_ : SRect := {}
  enable_ : Bool := true
  visible_ : Bool := true
  active_ : Bool := false
  select_ : Bool := false
  hovered_ : Bool := false
  pressed_ : Bool := false
  double_clicked_ : Bool := false
  moving_ : Bool := false
  onChanged : List ItemProperty := []
  deriving DecidableEq, Repr

namespace AbstractItemView

/-- Source: `AbstractItemView::set_rotation`. Returns the view after the store and what the
setter does next. -/
def set_rotation (view : AbstractItemView) (r : Double) : AbstractItemView × List ItemEffect :=
  if Double.eq view.rotation_ r then (view, [])
  else ({ view with rotation_ := r }, [.notify .rotation, .callback .rotation])

/-- Source: `AbstractItemView::set_scale`. Returns the view after the store and what the
setter does next. -/
def set_scale (view : AbstractItemView) (s : Double) : AbstractItemView × List ItemEffect :=
  if Double.eq view.scale_ s then (view, [])
  else ({ view with scale_ := s }, [.notify .scale, .callback .scale])

/-- Source: `AbstractItemView::set_pos`. Returns the view after the store and what the
setter does next. -/
def set_pos (view : AbstractItemView) (p : SPos) : AbstractItemView × List ItemEffect :=
  if SPos.eq view.pos_ p then (view, [])
  else ({ view with pos_ := p }, [.notify .pos, .callback .pos])

/-- Source: `AbstractItemView::set_rect`. Returns the view after the store and what the
setter does next. -/
def set_rect (view : AbstractItemView) (r : SRect) : AbstractItemView × List ItemEffect :=
  if SRect.eq view.rect_ r then (view, [])
  else ({ view with rect_ := r }, [.notify .rect, .callback .rect])

/-- Source: `AbstractItemView::set_enable`. Returns the view after the store and what the
setter does next. -/
def set_enable (view : AbstractItemView) (e : Bool) : AbstractItemView × List ItemEffect :=
  if view.enable_ == e then (view, [])
  else ({ view with enable_ := e }, [.notify .enable, .callback .enable])

/-- Source: `AbstractItemView::set_visible`. Returns the view after the store and what the
setter does next. -/
def set_visible (view : AbstractItemView) (b : Bool) : AbstractItemView × List ItemEffect :=
  if view.visible_ == b then (view, [])
  else ({ view with visible_ := b }, [.notify .visible, .callback .visible])

/-- Source: `AbstractItemView::set_active`. Returns the view after the store and what the
setter does next. -/
def set_active (view : AbstractItemView) (a : Bool) : AbstractItemView × List ItemEffect :=
  if view.active_ == a then (view, [])
  else ({ view with active_ := a }, [.notify .active, .callback .active])

/-- Source: `AbstractItemView::set_select`. Returns the view after the store and what the
setter does next. -/
def set_select (view : AbstractItemView) (s : Bool) : AbstractItemView × List ItemEffect :=
  if view.select_ == s then (view, [])
  else ({ view with select_ := s }, [.notify .select, .callback .select])

/-- Source: `AbstractItemView::set_pressed`. Returns the view after the store and what the
setter does next. -/
def set_pressed (view : AbstractItemView) (s : Bool) : AbstractItemView × List ItemEffect :=
  if view.pressed_ == s then (view, [])
  else ({ view with pressed_ := s }, [.notify .pressed, .callback .pressed])

/-- Source: `AbstractItemView::set_double_clicked`. Returns the view after the store and what the
setter does next. -/
def set_double_clicked (view : AbstractItemView) (s : Bool) : AbstractItemView × List ItemEffect :=
  if view.double_clicked_ == s then (view, [])
  else ({ view with double_clicked_ := s }, [.notify .double_clicked, .callback .double_clicked])

/-- Source: `AbstractItemView::set_moving`. Returns the view after the store and what the
setter does next. -/
def set_moving (view : AbstractItemView) (s : Bool) : AbstractItemView × List ItemEffect :=
  if view.moving_ == s then (view, [])
  else ({ view with moving_ := s }, [.notify .moving, .callback .moving])

/-- A call of one of the eleven setters of the mirrored properties. -/
def set (view : AbstractItemView) : ItemChange → AbstractItemView × List ItemEffect
  | .rotation x => view.set_rotation x
  | .scale x => view.set_scale x
  | .pos x => view.set_pos x
  | .rect x => view.set_rect x
  | .enable x => view.set_enable x
  | .visible x => view.set_visible x
  | .active x => view.set_active x
  | .select x => view.set_select x
  | .pressed x => view.set_pressed x
  | .double_clicked x => view.set_double_clicked x
  | .moving x => view.set_moving x

/-- The data members of the mirrored properties, by property. -/
def get (view : AbstractItemView) : ItemProperty → ItemChange
  | .rotation => .rotation view.rotation_
  | .scale => .scale view.scale_
  | .pos => .pos view.pos_
  | .rect => .rect view.rect_
  | .enable => .enable view.enable_
  | .visible => .visible view.visible_
  | .active => .active view.active_
  | .select => .select view.select_
  | .pressed => .pressed view.pressed_
  | .double_clicked => .double_clicked view.double_clicked_
  | .moving => .moving view.moving_

end AbstractItemView

/-! ## `AbstractItemPresenter` and the objects it binds -/

/-- The two objects a presenter binds. -/
inductive Side
  | model
  | view
  deriving DecidableEq, Repr

/-- The closures connected to the signals of a generic item.
* `toView`: `[wv](x) { if (auto pv = wv.lock()) pv->set_p(x); }`, connected to `p_changed` of the
  model by the presenter;
* `toModel`: `[wm](x) { if (auto pm = wm.lock()) pm->set_p(x); }`, connected to `p_changed` of
  the view by the presenter;
* `other`: a slot connected by another party, which does not call into the model or the view. -/
inductive ItemSlot
  | toView
  | toModel
  | other (tag : Nat)
  deriving DecidableEq, Repr

/-- What an execution records: each `notify` call with the value of the data member at that
moment, each callback invoked, each foreign slot invoked. -/
inductive ItemEvent
  | notified (side : Side) (c : ItemChange)
  | callback (c : ItemChange)
  | other (tag : Nat) (c : ItemChange)
  deriving DecidableEq, Repr

/-- A generic item model and a generic item view, both alive, with the slot lists of their
eleven mirrored signals, and the record of what has been executed. -/
structure ItemBinding where
  model : AbstractItemModel := {}
  modelSignals : ItemProperty → Signal ItemSlot := fun _ => {}
  view : AbstractItemView := {}
  viewSignals : ItemProperty → Signal ItemSlot := fun _ => {}
  log : List ItemEvent := []

namespace ItemBinding

/-- The signal `p_changed` of one side. -/
def signal (w : ItemBinding) : Side → ItemProperty → Signal ItemSlot
  | .model, p => w.modelSignals p
  | .view, p => w.viewSignals p

/-- The data member of a property on one side. -/
def get (w : ItemBinding) : Side → ItemProperty → ItemChange
  | .model, p => w.model.get p
  | .view, p => w.view.get p

/-- The statement `side->p_changed.connect(slot)`. -/
def connect (w : ItemBinding) (side : Side) (p : ItemProperty) (slot : ItemSlot) : ItemBinding :=
  match side with
  | .model => { w with modelSignals := Function.update w.modelSignals p ((w.modelSignals p).connect slot).2 }
  | .view => { w with viewSignals := Function.update w.viewSignals p ((w.viewSignals p).connect slot).2 }

/-- The statement `side->p_changed.disconnectAll()`. -/
def disconnectAll (w : ItemBinding) (side : Side) (p : ItemProperty) : ItemBinding :=
  match side with
  | .model => { w with modelSignals := Function.update w.modelSignals p (w.modelSignals p).disconnectAll }
  | .view => { w with viewSignals := Function.update w.viewSignals p (w.viewSignals p).disconnectAll }

end ItemBinding

/-- The eleven mirrored properties in the order in which the constructor and the destructor of
`AbstractItemPresenter` go through them. -/
def ItemProperty.all : List ItemProperty :=
  [.rotation, .scale, .pos, .rect, .enable, .visible, .active, .select, .pressed,
    .double_clicked, .moving]

/-- Source: `AbstractItemPresenter::AbstractItemPresenter`: first the eleven model-to-view
relays, then the eleven view-to-model relays. -/
def AbstractItemPresenter.construct (w : ItemBinding) : ItemBinding :=
  let w1 := ItemProperty.all.foldl (fun w p => w.connect .model p .toView) w
  ItemProperty.all.foldl (fun w p => w.connect .view p .toModel) w1

/-- Source: `AbstractItemPresenter::~AbstractItemPresenter`: `disconnectAll()` on the eleven
signals of the model, then on the eleven signals of the view. -/
def AbstractItemPresenter.destruct (w : ItemBinding) : ItemBinding :=
  let w1 := ItemProperty.all.foldl (fun w p => w.disconnectAll .model p) w
  ItemProperty.all.foldl (fun w p => w.disconnectAll .view p) w1

/-! ## Execution of calls, notifications and slots -/

/-- Runs a stack of pending statements: `step` executes the first one and returns the
statements it calls, which run before the rest. `none` when the fuel runs out before the stack
is empty. -/
def run {W T : Type} (step : T → W → W × List T) : Nat → List T → W → Option W
  | _, [], w => some w
  | 0, _ :: _, _ => none
  | n + 1, t :: ts, w => run step n ((step t w).2 ++ ts) (step t w).1

/-- The statements executed on a bound generic item. -/
inductive ItemTask
  | call (side : Side) (c : ItemChange)
  | notify (side : Side) (p : ItemProperty)
  | invoke (slot : ItemSlot) (side : Side) (p : ItemProperty)
  | callback (p : ItemProperty)
  deriving DecidableEq, Repr

/-- One statement on a bound generic item.
* `call side c`: the setter of `c.property` on that side, with the value of `c`;
* `notify side p`: `Signal::notify` on `p_changed` of that side, the argument being a reference
  to the data member;
* `invoke slot side p`: the slot is called with the data member `p` of `side` as it is now;
* `callback p`: `if (onPChanged) onPChanged(p_)` on the view. -/
def ItemTask.step : ItemTask → ItemBinding → ItemBinding × List ItemTask
  | .call .model c, w =>
    let r := w.model.set c
    ({ w with model := r.1 }, r.2.map fun n => .notify .model n.property)
  | .call .view c, w =>
    let r := w.view.set c
    ({ w with view := r.1 },
      r.2.map fun e => match e with
        | .notify p => .notify .view p
        | .callback p => .callback p)
  | .notify side p, w =>
    ({ w with log := w.log ++ [.notified side (w.get side p)] },
      (w.signal side p).notify.map fun slot => .invoke slot side p)
  | .invoke .toView side p, w => (w, [.call .view (w.get side p)])
  | .invoke .toModel side p, w => (w, [.call .model (w.get side p)])
  | .invoke (.other tag) side p, w => ({ w with log := w.log ++ [.other tag (w.get side p)] }, [])
  | .callback p, w =>
    if p ∈ w.view.onChanged then ({ w with log := w.log ++ [.callback (w.view.get p)] }, [])
    else (w, [])

/-- The call `model.set_p(v)` or `view.set_p(v)` on the bound pair, run to completion. -/
def ItemBinding.set (fuel : Nat) (side : Side) (c : ItemChange) (w : ItemBinding) :
    Option ItemBinding :=
  run ItemTask.step fuel [.call side c] w

/-- The other side of a binding. -/
def Side.other : Side → Side
  | .model => .view
  | .view => .model

/-- What a setter of `AbstractPathView` does after it has stored the value, in order: notify
the signal of the property, or invoke its optional callback if one is installed; the argument
is the value of the data member at that point. -/
inductive PathEffect
  | notify (c : PathChange)
  | callback (c : PathChange)
  deriving DecidableEq, Repr

/-- Source: the data members of `class AbstractPathView` that mirror the model, with their
initialisers, and for each optional callback `onPChanged` whether one is installed. -/
structure AbstractPathView where
  pos_ : SPos := {}
  rect_ : SRect := {}
  visible_ : Bool := true
  select_ : Bool := false
  pressed_ : Bool := false
  onChanged : List PathProperty := []
  deriving DecidableEq, Repr

namespace AbstractPathView

/-- Source: `AbstractPathView::set_pos`; the guard compares the coordinates with `==` on
`double`, not with `SPos::operator==`. -/
def set_pos (view : AbstractPathView) (p : SPos) : AbstractPathView × List PathEffect :=
  if Double.eq view.pos_.x p.x && Double.eq view.pos_.y p.y then (view, [])
  else
    let v1 := { view with pos_ := p }
    (v1, [.notify (.pos v1.pos_), .callback (.pos v1.pos_)])

/-- Source: `AbstractPathView::set_rect`. -/
def set_rect (view : AbstractPathView) (r : SRect) : AbstractPathView × List PathEffect :=
  if SRect.eq view.rect_ r then (view, [])
  else
    let v1 := { view with rect_ := r }
    (v1, [.notify (.rect v1.rect_), .callback (.rect v1.rect_)])

/-- Source: `AbstractPathView::set_visible`. -/
def set_visible (view : AbstractPathView) (b : Bool) : AbstractPathView × List PathEffect :=
  if view.visible_ == b then (view, [])
  else
    let v1 := { view with visible_ := b }
    (v1, [.notify (.visible v1.visible_), .callback (.visible v1.visible_)])

/-- Source: `AbstractPathView::set_select`. -/
def set_select (view : AbstractPathView) (s : Bool) : AbstractPathView × List PathEffect :=
  if view.select_ == s then (view, [])
  else
    let v1 := { view with select_ := s }
    (v1, [.notify (.select v1.select_), .callback (.select v1.select_)])

/-- Source: `AbstractPathView::set_pressed`. -/
def set_pressed (view : AbstractPathView) (s : Bool) : AbstractPathView × List PathEffect :=
  if view.pressed_ == s then (view, [])
  else
    let v1 := { view with pressed_ := s }
    (v1, [.notify (.pressed v1.pressed_), .callback (.pressed v1.pressed_)])

/-- A call of one of the five setters. -/
def set (view : AbstractPathView) : PathChange → AbstractPathView × List PathEffect
  | .pos p => view.set_pos p
  | .rect r => view.set_rect r
  | .visible b => view.set_visible b
  | .select s => view.set_select s
  | .pressed s => view.set_pressed s

end AbstractPathView

/-! ## `ConnectionPortData.hpp` and `ConnectionPathView` -/

/-- The toolkit's `QPointF`, a pair of `double`. -/
structure QPointF where
  x : Double := Double.zero
  y : Double := Double.zero
  deriving DecidableEq, Repr

/-- The toolkit's `QRectF`. -/
structure QRectF where
  x : Double := Double.zero
  y : Double := Double.zero
  width : Double := Double.zero
  height : Double := Double.zero
  deriving DecidableEq, Repr

/-- Source: `struct ConnectionPortData`. -/
structure ConnectionPortData where
  scenePos : QPointF := {}
  rect : QRectF := {}
  portName : String := ""
  moduleName : String := ""
  isInput : Bool := false
  deriving DecidableEq, Repr

/-- The argument a signal of a connection carries. -/
inductive Value
  | pos (p : SPos)
  | rect (r : SRect)
  | bool (b : Bool)
  | port (p : SPort)
  | point (p : SPoint)
  deriving DecidableEq, Repr

/-- The argument of a call or notification of a path property. -/
def PathChange.value : PathChange → Value
  | .pos p => .pos p
  | .rect r => .rect r
  | .visible b => .bool b
  | .select b => .bool b
  | .pressed b => .bool b

/-- The call `set_p(v)` of a path property, for an argument of the type of the property. -/
def PathProperty.withValue : PathProperty → Value → Option PathChange
  | .pos, .pos p => some (.pos p)
  | .rect, .rect r => some (.rect r)
  | .visible, .bool b => some (.visible b)
  | .select, .bool b => some (.select b)
  | .pressed, .bool b => some (.pressed b)
  | _, _ => none

/-- The argument of a call or notification of a property of the connection model. -/
def ConnectionChange.value : ConnectionChange → Value
  | .path c => c.value
  | .compatible b => .bool b
  | .active b => .bool b
  | .input p => .port p
  | .output p => .port p
  | .endPoint p => .point p

/-- The call `set_p(v)` on the connection model, for an argument of the type of the
property. -/
def ConnectionProperty.withValue : ConnectionProperty → Value → Option ConnectionChange
  | .path p, v => (p.withValue v).map .path
  | .compatible, .bool b => some (.compatible b)
  | .active, .bool b => some (.active b)
  | .input, .port p => some (.input p)
  | .output, .port p => some (.output p)
  | .endPoint, .point p => some (.endPoint p)
  | _, _ => none

/-- Source: the signals declared by `ConnectionPathView` and, under `path`, those inherited
from `AbstractPathView` (`path p` is `p_changed`). -/
inductive ConnectionViewSignal
  | path (p : PathProperty)
  | inputPort_changed
  | outputPort_changed
  | endPoint_changed
  | active_changed
  | compatible_changed
  | input_changed
  | output_changed
  deriving DecidableEq, Repr

/-- Source: the member functions of `ConnectionPathView` that slots and callers invoke, and
under `path` the setters inherited from `AbstractPathView` (`path p` is `set_p`). -/
inductive ConnectionViewSetter
  | path (p : PathProperty)
  | set_inputPort
  | set_outputPort
  | set_endPoint
  | set_compatible
  | set_active
  | setIsActive
  | setIsCompatible
  | set_inputPos
  | set_outputPos
  deriving DecidableEq, Repr

/-- What a member function of `ConnectionPathView` does after its stores, in order: notify a
signal, invoke an optional callback if one is installed, or call another member function. -/
inductive ConnectionEffect
  | notify (signal : ConnectionViewSignal) (arg : Value)
  | callback (signal : ConnectionViewSignal) (arg : Value)
  | call (setter : ConnectionViewSetter) (arg : Value)
  deriving DecidableEq, Repr

/-- An effect of an inherited setter, seen on the connection view. -/
def PathEffect.lift : PathEffect → ConnectionEffect
  | .notify c => .notify (.path c.property) c.value
  | .callback c => .callback (.path c.property) c.value

/-- Source: the data members of `class ConnectionPathView` (those of the base class included)
that the setters read and write, and for each optional callback whether one is installed. -/
structure ConnectionPathView extends AbstractPathView where
  m_inputPort : ConnectionPortData := {}
  m_outputPort : ConnectionPortData := {}
  m_endPoint : QPointF := {}
  active_ : Bool := false
  compatible_ : Bool := false
  onViewChanged : List ConnectionViewSignal := []
  deriving DecidableEq, Repr

namespace ConnectionPathView

/-- Source: `ConnectionPathView::addPort`. -/
def addPort (view : ConnectionPathView) (port : ConnectionPortData) : ConnectionPathView :=
  if port.isInput then { view with m_inputPort := port } else { view with m_outputPort := port }

/-- Source: the constructor `ConnectionPathView(port1, port2)`, which delegates to
`ConnectionPathView(port1)` and then adds the second port. -/
def create (port1 port2 : ConnectionPortData) : ConnectionPathView :=
  (({} : ConnectionPathView).addPort port1).addPort port2

/-- Source: `ConnectionPathView::set_inputPort`. -/
def set_inputPort (view : ConnectionPathView) (p : SPort) :
    ConnectionPathView × List ConnectionEffect :=
  if view.m_inputPort.portName == p.name && view.m_inputPort.moduleName == p.nodeName &&
      view.m_inputPort.isInput == p.input then (view, [])
  else
    let v1 := { view with
      m_inputPort := { view.m_inputPort with
        portName := p.name, moduleName := p.nodeName, isInput := p.input } }
    let inP : SPort :=
      ⟨v1.m_inputPort.portName, v1.m_inputPort.moduleName, v1.m_inputPort.isInput⟩
    (v1, [.notify .inputPort_changed (.port inP), .callback .inputPort_changed (.port inP)])

/-- Source: `ConnectionPathView::set_outputPort`. -/
def set_outputPort (view : ConnectionPathView) (p : SPort) :
    ConnectionPathView × List ConnectionEffect :=
  if view.m_outputPort.portName == p.name && view.m_outputPort.moduleName == p.nodeName &&
      view.m_outputPort.isInput == p.input then (view, [])
  else
    let v1 := { view with
      m_outputPort := { view.m_outputPort with
        portName := p.name, moduleName := p.nodeName, isInput := p.input } }
    let outP : SPort :=
      ⟨v1.m_outputPort.portName, v1.m_outputPort.moduleName, v1.m_outputPort.isInput⟩
    (v1, [.notify .outputPort_changed (.port outP), .callback .outputPort_changed (.port outP)])

/-- Source: `ConnectionPathView::set_inputPos`. -/
def set_inputPos (view : ConnectionPathView) (p : SPos) :
    ConnectionPathView × List ConnectionEffect :=
  ({ view with m_inputPort := { view.m_inputPort with scenePos := ⟨p.x, p.y⟩ } }, [])

/-- Source: `ConnectionPathView::set_outputPos`. -/
def set_outputPos (view : ConnectionPathView) (p : SPos) :
    ConnectionPathView × List ConnectionEffect :=
  ({ view with m_outputPort := { view.m_outputPort with scenePos := ⟨p.x, p.y⟩ } }, [])

/-- Source: `ConnectionPathView::set_endPoint`. -/
def set_endPoint (view : ConnectionPathView) (p : SPoint) :
    ConnectionPathView × List ConnectionEffect :=
  if Double.eq view.m_endPoint.x p.x && Double.eq view.m_endPoint.y p.y then (view, [])
  else
    let v1 := { view with m_endPoint := ⟨p.x, p.y⟩ }
    let endP : SPoint := ⟨v1.m_endPoint.x, v1.m_endPoint.y⟩
    (v1, [.notify .endPoint_changed (.point endP), .callback .endPoint_changed (.point endP)])

/-- Source: `ConnectionPathView::set_compatible`. -/
def set_compatible (view : ConnectionPathView) (e : Bool) :
    ConnectionPathView × List ConnectionEffect :=
  if view.compatible_ == e then (view, [])
  else
    let v1 := { view with compatible_ := e }
    (v1, [.call .setIsCompatible (.bool e), .notify .compatible_changed (.bool v1.compatible_),
      .callback .compatible_changed (.bool v1.compatible_)])

/-- Source: `ConnectionPathView::set_active`. -/
def set_active (view : ConnectionPathView) (a : Bool) :
    ConnectionPathView × List ConnectionEffect :=
  if view.active_ == a then (view, [])
  else
    let v1 := { view with active_ := a }
    (v1, [.notify .active_changed (.bool v1.active_),
      .callback .active_changed (.bool v1.active_)])

/-- Source: `ConnectionPathView::setIsCompatible`. -/
def setIsCompatible (view : ConnectionPathView) (newIsCompatible : Bool) :
    ConnectionPathView × List ConnectionEffect :=
  if view.compatible_ == newIsCompatible then (view, [])
  else
    let v1 := { view with compatible_ := newIsCompatible }
    (v1, [.call .set_compatible (.bool newIsCompatible)])

/-- Source: `ConnectionPathView::setIsActive`. -/
def setIsActive (view : ConnectionPathView) (newIsActive : Bool) :
    ConnectionPathView × List ConnectionEffect :=
  if view.active_ == newIsActive then (view, [])
  else
    let v1 := { view with active_ := newIsActive }
    (v1, [.call .set_active (.bool newIsActive)])

/-- A call of a member function with an argument; an argument of another type than the
parameter is not a call the source can make and does nothing. -/
def call (view : ConnectionPathView) : ConnectionViewSetter → Value →
    ConnectionPathView × List ConnectionEffect
  | .path p, v =>
    match p.withValue v with
    | some c =>
      let r := view.toAbstractPathView.set c
      ({ view with toAbstractPathView := r.1 }, r.2.map PathEffect.lift)
    | none => (view, [])
  | .set_inputPort, .port p => view.set_inputPort p
  | .set_outputPort, .port p => view.set_outputPort p
  | .set_endPoint, .point p => view.set_endPoint p
  | .set_compatible, .bool e => view.set_compatible e
  | .set_active, .bool a => view.set_active a
  | .setIsActive, .bool b => view.setIsActive b
  | .setIsCompatible, .bool b => view.setIsCompatible b
  | .set_inputPos, .pos p => view.set_inputPos p
  | .set_outputPos, .pos p => view.set_outputPos p
  | _, _ => (view, [])

/-- Whether the optional callback for a signal is installed. -/
def hasCallback (view : ConnectionPathView) : ConnectionViewSignal → Bool
  | .path p => decide (p ∈ view.onChanged)
  | s => decide (s ∈ view.onViewChanged)

/-- Source: `ConnectionPathView::inputPort()` as the port identity it carries. -/
def inputIdentity (view : ConnectionPathView) : SPort :=
  ⟨view.m_inputPort.portName, view.m_inputPort.moduleName, view.m_inputPort.isInput⟩

/-- Source: `ConnectionPathView::outputPort()` as the port identity it carries. -/
def outputIdentity (view : ConnectionPathView) : SPort :=
  ⟨view.m_outputPort.portName, view.m_outputPort.moduleName, view.m_outputPort.isInput⟩

end ConnectionPathView

/-! ## `AbstractPathPresenter`, `ConnectionPathPresenter` and the objects they bind -/

/-- The closures connected to the signals of a connection model or view by its presenter.
* `toView f`: `[wv](x) { if (auto pv = wv.lock()) pv->f(x); }`, connected to a model signal;
* `toModel p`: `[wm](x) { if (auto pv = wm.lock()) pv->set_p(x); }`, connected to a view
  signal. -/
inductive ConnectionSlot
  | toView (setter : ConnectionViewSetter)
  | toModel (p : ConnectionProperty)
  deriving DecidableEq, Repr

/-- What an execution records: each `notify` call on a model signal or on a view signal with
its argument, and each callback invoked. -/
inductive ConnectionEvent
  | modelNotified (p : ConnectionProperty) (arg : Value)
  | viewNotified (signal : ConnectionViewSignal) (arg : Value)
  | callback (signal : ConnectionViewSignal) (arg : Value)
  deriving DecidableEq, Repr

/-- A connection model and a connection view, both alive (their creator may hold them beyond
the life of a presenter), with the slot lists of their signals, and the record of what has been
executed. The signal of the model for property `p` is `p_changed`. -/
structure ConnectionBinding where
  model : ConnectionPathModel := {}
  modelSignals : ConnectionProperty → Signal ConnectionSlot := fun _ => {}
  view : ConnectionPathView := {}
  viewSignals : ConnectionViewSignal → Signal ConnectionSlot := fun _ => {}
  log : List ConnectionEvent := []

namespace ConnectionBinding

/-- The statement `m->p_changed.connect(slot)`. -/
def connectModel (w : ConnectionBinding) (p : ConnectionProperty) (slot : ConnectionSlot) :
    ConnectionBinding :=
  { w with modelSignals := Function.update w.modelSignals p ((w.modelSignals p).connect slot).2 }

/-- The statement `v->signal.connect(slot)`. -/
def connectView (w : ConnectionBinding) (signal : ConnectionViewSignal)
    (slot : ConnectionSlot) : ConnectionBinding :=
  { w with
    viewSignals := Function.update w.viewSignals signal ((w.viewSignals signal).connect slot).2 }

/-- The statement `m->p_changed.disconnectAll()`. -/
def disconnectAllModel (w : ConnectionBinding) (p : ConnectionProperty) : ConnectionBinding :=
  { w with modelSignals := Function.update w.modelSignals p (w.modelSignals p).disconnectAll }

end ConnectionBinding

/-- The five path properties in the order in which `AbstractPathPresenter` goes through
them. -/
def PathProperty.all : List PathProperty := [.pos, .rect, .visible, .select, .pressed]

/-- Source: `AbstractPathPresenter::AbstractPathPresenter`: the five model-to-view relays,
then the five view-to-model relays. -/
def AbstractPathPresenter.construct (w : ConnectionBinding) : ConnectionBinding :=
  let w1 := PathProperty.all.foldl (fun w p => w.connectModel (.path p) (.toView (.path p))) w
  PathProperty.all.foldl (fun w p => w.connectView (.path p) (.toModel (.path p))) w1

/-- Source: `AbstractPathPresenter::~AbstractPathPresenter`: `disconnectAll()` on the five
signals of the model; the body has no statement for the view. -/
def AbstractPathPresenter.destruct (w : ConnectionBinding) : ConnectionBinding :=
  PathProperty.all.foldl (fun w p => w.disconnectAllModel (.path p)) w

/-- Source: `ConnectionPathPresenter::ConnectionPathPresenter`: the base class constructor,
then five relays on model signals and five on view signals. -/
def ConnectionPathPresenter.construct (w : ConnectionBinding) : ConnectionBinding :=
  let w := AbstractPathPresenter.construct w
  let w := w.connectModel .active (.toView .set_active)
  let w := w.connectModel .input (.toView .set_inputPort)
  let w := w.connectModel .output (.toView .set_outputPort)
  let w := w.connectModel .endPoint (.toView .set_endPoint)
  let w := w.connectModel .compatible (.toView .set_compatible)
  let w := w.connectView .active_changed (.toModel .active)
  let w := w.connectView .input_changed (.toModel .input)
  let w := w.connectView .output_changed (.toModel .output)
  let w := w.connectView .endPoint_changed (.toModel .endPoint)
  w.connectView .compatible_changed (.toModel .compatible)

/-- Source: `ConnectionPathPresenter::~ConnectionPathPresenter`, defaulted: only the base class
destructor runs. -/
def ConnectionPathPresenter.destruct (w : ConnectionBinding) : ConnectionBinding :=
  AbstractPathPresenter.destruct w

/-- The statements executed on a bound connection. -/
inductive ConnectionTask
  | callModel (p : ConnectionProperty) (arg : Value)
  | callView (setter : ConnectionViewSetter) (arg : Value)
  | notifyModel (p : ConnectionProperty) (arg : Value)
  | notifyView (signal : ConnectionViewSignal) (arg : Value)
  | invoke (slot : ConnectionSlot) (arg : Value)
  | callback (signal : ConnectionViewSignal) (arg : Value)
  deriving DecidableEq, Repr

/-- One statement on a bound connection.
* `callModel p v`: `model.set_p(v)`;
* `callView f v`: `view.f(v)`;
* `notifyModel p v`, `notifyView s v`: `Signal::notify` on that signal;
* `invoke slot v`: the slot called with `v`;
* `callback s v`: the optional callback of the view for `s`, if installed. -/
def ConnectionTask.step : ConnectionTask → ConnectionBinding → ConnectionBinding × List ConnectionTask
  | .callModel p v, w =>
    match p.withValue v with
    | some c =>
      let r := w.model.set c
      ({ w with model := r.1 }, r.2.map fun n => .notifyModel n.property n.value)
    | none => (w, [])
  | .callView f v, w =>
    let r := w.view.call f v
    ({ w with view := r.1 },
      r.2.map fun e => match e with
        | .notify s a => .notifyView s a
        | .callback s a => .callback s a
        | .call g a => .callView g a)
  | .notifyModel p v, w =>
    ({ w with log := w.log ++ [.modelNotified p v] },
      (w.modelSignals p).notify.map fun slot => .invoke slot v)
  | .notifyView s v, w =>
    ({ w with log := w.log ++ [.viewNotified s v] },
      (w.viewSignals s).notify.map fun slot => .invoke slot v)
  | .invoke (.toView f) v, w => (w, [.callView f v])
  | .invoke (.toModel p) v, w => (w, [.callModel p v])
  | .callback s v, w =>
    if w.view.hasCallback s then ({ w with log := w.log ++ [.callback s v] }, [])
    else (w, [])

/-- A member function of the view called on the bound pair, run to completion. -/
def ConnectionBinding.callView (fuel : Nat) (setter : ConnectionViewSetter) (arg : Value)
    (w : ConnectionBinding) : Option ConnectionBinding :=
  run ConnectionTask.step fuel [.callView setter arg] w

/-- A setter of the model called on the bound pair, run to completion. -/
def ConnectionBinding.callModel (fuel : Nat) (p : ConnectionProperty) (arg : Value)
    (w : ConnectionBinding) : Option ConnectionBinding :=
  run ConnectionTask.step fuel [.callModel p arg] w

/-! ## Keyed collections -/

/-- A `std::map` or `std::unordered_map` keyed by strings: its entries, in key order. -/
abbrev StringMap (β : Type) := List (String × β)

namespace StringMap

variable {β : Type}

/-- The lookup `m.find(key)`: the mapped value, `none` for `end()`. -/
def find (m : StringMap β) (key : String) : Option β :=
  (List.find? (fun e => e.1 == key) m).map fun e => e.2

/-- The assignment `m[key] = value`: replaces the value of an existing key, inserts
otherwise. Keys are ordered as strings are, lexicographically on their characters. -/
def insert : StringMap β → String → β → StringMap β
  | [], key, value => [(key, value)]
  | e :: rest, key, value =>
    if key.data < e.1.data then (key, value) :: e :: rest
    else if key = e.1 then (key, value) :: rest
    else e :: insert rest key value

/-- The call `m.erase(key)`, or `m.erase(it)` for the iterator of `key`. -/
def erase (m : StringMap β) (key : String) : StringMap β :=
  m.filter fun e => e.1 != key

/-- The mapped values in iteration order. -/
def values (m : StringMap β) : List β :=
  m.map fun e => e.2

end StringMap

/-! ## The presenters held by the scene

Every object created by `std::make_shared` gets an address `addr`; two `shared_ptr` compare equal
when they hold the same address. The slot lists of the objects are embedded with the presenters
above and play no part in the registries of the scene; the item list of the toolkit's scene
(`addItem`, `removeItem`) is not embedded. -/

/-- Source: the data members of `PortItemView` holding its identity, and the position and
bounding rectangle the toolkit reports for it. -/
structure PortItemView where
  m_portName : String := ""
  m_portDisplayName : String := ""
  m_moduleName : String := ""
  m_orientation : Orientation := Orientation.Input
  pos : QPointF := {}
  boundingRect : QRectF := {}
  deriving DecidableEq, Repr

/-- Source: the constructor `PortItemView(name, displayName, moduleName, orientation)`. -/
def PortItemView.create (name displayName moduleName : String) (orientation : Orientation) :
    PortItemView :=
  { m_portName := name, m_portDisplayName := displayName, m_moduleName := moduleName,
    m_orientation := orientation }

/-- Source: `class PortItemPresenter`, with its model and view. -/
structure PortItemPresenter where
  addr : Nat
  model : PortItemModel := {}
  view : PortItemView := {}
  deriving DecidableEq, Repr

/-- Source: the data members of `NodeItemView` holding its names. -/
structure NodeItemView where
  m_nodeName : String := ""
  m_displayedNodeName : String := ""
  deriving DecidableEq, Repr

/-- Source: the constructor `NodeItemView(nodeName, nodeDisplayedName)`. -/
def NodeItemView.create (nodeName nodeDisplayedName : String) : NodeItemView :=
  { m_nodeName := nodeName,
    m_displayedNodeName := if nodeDisplayedName.isEmpty then nodeName else nodeDisplayedName }

/-- Source: `class NodeItemPresenter`, with its model, its view and its three port
collections. -/
structure NodeItemPresenter where
  addr : Nat
  model : NodeItemModel := {}
  view : NodeItemView := {}
  inputPortPresenters : StringMap PortItemPresenter := []
  outputPortPresenters : StringMap PortItemPresenter := []
  parameterPortPresenters : StringMap PortItemPresenter := []
  deriving DecidableEq, Repr

namespace NodeItemPresenter

/-- Source: `NodeItemPresenter::addPortPresenter`. -/
def addPortPresenter (n : NodeItemPresenter) (presenter : PortItemPresenter) :
    NodeItemPresenter :=
  let portName := presenter.model.name_
  match presenter.model.orientation_ with
  | .Input => { n with inputPortPresenters := n.inputPortPresenters.insert portName presenter }
  | .Output => { n with outputPortPresenters := n.outputPortPresenters.insert portName presenter }
  | .Parameter =>
    { n with parameterPortPresenters := n.parameterPortPresenters.insert portName presenter }

/-- Source: `NodeItemPresenter::removePortPresenter`. -/
def removePortPresenter (n : NodeItemPresenter) (presenter : PortItemPresenter) :
    NodeItemPresenter :=
  let portName := presenter.model.name_
  match presenter.model.orientation_ with
  | .Input => { n with inputPortPresenters := n.inputPortPresenters.erase portName }
  | .Output => { n with outputPortPresenters := n.outputPortPresenters.erase portName }
  | .Parameter => { n with parameterPortPresenters := n.parameterPortPresenters.erase portName }

/-- Source: `NodeItemPresenter::getInputPort`. -/
def getInputPort (n : NodeItemPresenter) (name : String) : Option PortItemPresenter :=
  n.inputPortPresenters.find name

/-- Source: `NodeItemPresenter::getOutputPort`. -/
def getOutputPort (n : NodeItemPresenter) (name : String) : Option PortItemPresenter :=
  n.outputPortPresenters.find name

/-- Source: `NodeItemPresenter::getParameterPort`. -/
def getParameterPort (n : NodeItemPresenter) (name : String) : Option PortItemPresenter :=
  n.parameterPortPresenters.find name

/-- Source: `NodeItemPresenter::ports`. -/
def ports (n : NodeItemPresenter) : List PortItemPresenter :=
  n.inputPortPresenters.values ++ n.outputPortPresenters.values ++
    n.parameterPortPresenters.values

end NodeItemPresenter

/-- Source: `class ConnectionPathPresenter`, with its model and view. -/
structure ConnectionPathPresenter where
  addr : Nat
  model : ConnectionPathModel := {}
  view : ConnectionPathView := {}
  deriving DecidableEq, Repr

/-! ## `GraphScene.cpp` -/

/-- Source: the registries of `class NodeEditorScene`, and the next free address. -/
structure NodeEditorScene where
  m_nodes : StringMap NodeItemPresenter := []
  m_connections : List ConnectionPathPresenter := []
  nextAddr : Nat := 0
  deriving DecidableEq, Repr

namespace NodeEditorScene

/-- Source: `NodeEditorScene::nodes`. -/
def nodes (s : NodeEditorScene) : StringMap NodeItemPresenter := s.m_nodes

/-- Source: `NodeEditorScene::connections`. -/
def connections (s : NodeEditorScene) : List ConnectionPathPresenter := s.m_connections

/-- Source: `NodeEditorScene::createNode`. Returns the presenter and the scene afterwards. -/
def createNode (s : NodeEditorScene) (name : String) (pos : QPointF) :
    Option NodeItemPresenter × NodeEditorScene :=
  let model : NodeItemModel := {}
  let model := (model.set (.item (.pos ⟨pos.x, pos.y⟩))).1
  let model := (model.set_text name).1
  let view := NodeItemView.create name name
  let presenter : NodeItemPresenter := { addr := s.nextAddr, model := model, view := view }
  (some presenter,
    { s with m_nodes := s.m_nodes.insert name presenter, nextAddr := s.nextAddr + 1 })

/-- Source: `NodeEditorScene::removeConnection`. -/
def removeConnection (s : NodeEditorScene) (connectionPtr : Option ConnectionPathPresenter) :
    Bool × NodeEditorScene :=
  match connectionPtr with
  | none => (false, s)
  | some c =>
    if s.m_connections.any (fun x => x.addr == c.addr) then
      (true, { s with m_connections := s.m_connections.eraseP fun x => x.addr == c.addr })
    else (false, s)

/-- Source: `NodeEditorScene::removeNode`. -/
def removeNode (s : NodeEditorScene) (nodeId : String) : Bool × NodeEditorScene :=
  match s.m_nodes.find nodeId with
  | none => (false, s)
  | some _ =>
    let connsToRemove := s.m_connections.filter fun cp =>
      cp.model.inputPort_.nodeName == nodeId || cp.model.outputPort_.nodeName == nodeId
    let s1 := connsToRemove.foldl (fun s cid => (s.removeConnection (some cid)).2) s
    (true, { s1 with m_nodes := s1.m_nodes.erase nodeId })

/-- Source: `NodeEditorScene::createConnection(from, to)` on port presenters. -/
def createConnection (s : NodeEditorScene) (from_ to_ : Option PortItemPresenter) :
    Option ConnectionPathPresenter × NodeEditorScene :=
  match from_, to_ with
  | some from_, some to_ =>
    let viewFrom := from_.view
    let viewTo := to_.view
    let p1 : ConnectionPortData :=
      ⟨viewFrom.pos, viewFrom.boundingRect, viewFrom.m_portName, viewFrom.m_portDisplayName, true⟩
    let p2 : ConnectionPortData :=
      ⟨viewTo.pos, viewTo.boundingRect, viewTo.m_portName, viewTo.m_portDisplayName, false⟩
    let model : ConnectionPathModel := {}
    let view := ConnectionPathView.create p1 p2
    let presenter : ConnectionPathPresenter := { addr := s.nextAddr, model := model, view := view }
    (some presenter,
      { s with m_connections := s.m_connections ++ [presenter], nextAddr := s.nextAddr + 1 })
  | _, _ => (none, s)

/-- Source: `NodeEditorScene::createConnection(fromNode, fromPort, toNode, toPort)`, the
overload on names. -/
def createConnectionByName (s : NodeEditorScene) (fromNode fromPort toNode toPort : String) :
    Bool × NodeEditorScene :=
  match s.m_nodes.find fromNode with
  | none => (false, s)
  | some fromIt =>
    let fromPresenter := fromIt.getInputPort fromPort
    match s.m_nodes.find toNode with
    | none => (false, s)
    | some toIt =>
      let toPresenter := toIt.getOutputPort toPort
      (true, (s.createConnection fromPresenter toPresenter).2)

/-- The common body of `addInputPort` and `addOutputPort`, which differ in the orientation
only. -/
def addPort (s : NodeEditorScene) (nodeId portName displayName : String)
    (orientation : Orientation) : Option PortItemPresenter × NodeEditorScene :=
  match s.m_nodes.find nodeId with
  | none => (none, s)
  | some nodePresenter =>
    let nodeView := nodePresenter.view
    let portModel : PortItemModel := {}
    let portModel := (portModel.set_name portName).1
    let portModel := (portModel.set_module_name nodeId).1
    let portModel := (portModel.set_display_name displayName).1
    let portModel := (portModel.set_orientation orientation).1
    let portView := PortItemView.create portName displayName nodeView.m_nodeName orientation
    let portPresenter : PortItemPresenter :=
      { addr := s.nextAddr, model := portModel, view := portView }
    let nodePresenter := nodePresenter.addPortPresenter portPresenter
    (some portPresenter,
      { s with m_nodes := s.m_nodes.insert nodeId nodePresenter, nextAddr := s.nextAddr + 1 })

/-- Source: `NodeEditorScene::addInputPort`. -/
def addInputPort (s : NodeEditorScene) (nodeId portName displayName : String) :
    Option PortItemPresenter × NodeEditorScene :=
  s.addPort nodeId portName displayName .Input

/-- Source: `NodeEditorScene::addOutputPort`. -/
def addOutputPort (s : NodeEditorScene) (nodeId portName displayName : String) :
    Option PortItemPresenter × NodeEditorScene :=
  s.addPort nodeId portName displayName .Output

end NodeEditorScene

/-- The scene of the specification's scenario: node `"A"` created at (0, 0) with the output port
`"out"`, node `"B"` created at (100, 0) with the input port `"in"`, no connection. -/
def NodeEditorScene.scenario : NodeEditorScene :=
  let s : NodeEditorScene := {}
  let s := (s.createNode "A" ⟨.finite 0 0, .finite 0 0⟩).2
  let s := (s.addOutputPort "A" "out" "out").2
  let s := (s.createNode "B" ⟨.finite 100 0, .finite 0 0⟩).2
  (s.addInputPort "B" "in" "in").2

/-- The port presenter of a node of the scene found among its input ports, null when the node or
the port is missing. -/
def NodeEditorScene.inputPort (s : NodeEditorScene) (node port : String) :
    Option PortItemPresenter :=
  (s.nodes.find node).bind fun n => n.getInputPort port

/-- The port presenter of a node of the scene found among its output ports, null when the node or
the port is missing. -/
def NodeEditorScene.outputPort (s : NodeEditorScene) (node port : String) :
    Option PortItemPresenter :=
  (s.nodes.find node).bind fun n => n.getOutputPort port

/-- The connections whose model records the node as the owner of its input or output port: the
test of `removeNode`. -/
def ConnectionPathPresenter.recordsNode (cp : ConnectionPathPresenter) (nodeId : String) : Bool :=
  cp.model.inputPort_.nodeName == nodeId || cp.model.outputPort_.nodeName == nodeId

/-- The presenters of a scene are distinct objects: no address occurs twice among the
connections. -/
def NodeEditorScene.DistinctConnections (s : NodeEditorScene) : Prop :=
  (s.m_connections.map fun c => c.addr).Nodup

/-- A scene with two registered connections, the first of which records node `"A"` in its
model. -/
def NodeEditorScene.recorded : NodeEditorScene :=
  { NodeEditorScene.scenario with
    m_connections :=
      [{ addr := 4, model := { inputPort_ := ⟨"in", "B", true⟩, outputPort_ := ⟨"out", "A", false⟩ } },
        { addr := 5 }]
    nextAddr := 6 }

/-- The scene of the scenario after `createConnection` on the presenters of the input port
`"in"` of `"B"` and of the output port `"out"` of `"A"`. -/
def NodeEditorScene.connected : NodeEditorScene :=
  (NodeEditorScene.scenario.createConnection (NodeEditorScene.scenario.inputPort "B" "in")
    (NodeEditorScene.scenario.outputPort "A" "out")).2

/-- The invariant of the addresses in a scene: the connection presenters are distinct objects,
all allocated before the next free address. -/
def NodeEditorScene.WellFormed (s : NodeEditorScene) : Prop :=
  s.DistinctConnections ∧ ∀ c ∈ s.m_connections, c.addr < s.nextAddr

/-! ## The setter contract -/

/-- The contract of the setters of a class (`set`), stated through its getters (`get`): a call
with a value equal to the stored one, under `eq`, changes nothing and notifies nothing; any
other call makes exactly one notification, for this property with this value, on a state in
which the getter of the property returns the value and every other getter is as before. -/
def SetterContract {M P C : Type} [DecidableEq P] (set : M → C → M × List C) (get : M → P → C)
    (property : C → P) (eq : C → C → Bool) : Prop :=
  ∀ (m : M) (c : C),
    if eq (get m (property c)) c then set m c = (m, [])
    else (set m c).2 = [c] ∧
      ∀ q : P, get (set m c).1 q = if q = property c then c else get m q

/-- Source: `NodeEditorScene::removePort`. -/
def NodeEditorScene.removePort (s : NodeEditorScene) (nodeId portName : String) :
    Bool × NodeEditorScene :=
  match s.m_nodes.find nodeId with
  | none => (false, s)
  | some nodePresenter =>
    match nodePresenter.ports.find? (fun pp => pp.view.m_portName == portName) with
    | none => (false, s)
    | some portPresenter =>
      let connsToRemove := s.m_connections.filter fun cp =>
        (cp.model.inputPort_.name == portName && cp.model.inputPort_.nodeName == nodeId) ||
          (cp.model.outputPort_.name == portName && cp.model.outputPort_.nodeName == nodeId)
      let s1 := connsToRemove.foldl (fun s cid => (s.removeConnection (some cid)).2) s
      let nodePresenter := nodePresenter.removePortPresenter portPresenter
      (true, { s1 with m_nodes := s1.m_nodes.insert nodeId nodePresenter })

/-- The connections whose model records the port `portName` of the node `nodeId` as its input
or output port: the test of `removePort`. -/
def ConnectionPathPresenter.recordsPort (cp : ConnectionPathPresenter)
    (nodeId portName : String) : Bool :=
  (cp.model.inputPort_.name == portName && cp.model.inputPort_.nodeName == nodeId) ||
    (cp.model.outputPort_.name == portName && cp.model.outputPort_.nodeName == nodeId)

/-- A connection presenter is an element of `connections()`: some entry holds the same
object. -/
def NodeEditorScene.holds (s : NodeEditorScene) (c : ConnectionPathPresenter) : Bool :=
  s.connections.any fun x => x.addr == c.addr

/-- The port presenter that `addInputPort` / `addOutputPort` create for a node with the view
`nodeView`: a fresh object with the model and the view built from the arguments. -/
def NodeEditorScene.newPortPresenter (s : NodeEditorScene) (nodeView : NodeItemView)
    (nodeId portName displayName : String) (orientation : Orientation) : PortItemPresenter :=
  { addr := s.nextAddr
    model :=
      { name_ := portName
        moduleName_ := nodeId
        displayName_ := displayName
        orientation_ := orientation }
    view := PortItemView.create portName displayName nodeView.m_nodeName orientation }

/-- The presenter of node `"A"` in the scenario scene. -/
def NodeEditorScene.scenarioA : NodeItemPresenter :=
  (NodeEditorScene.scenario.nodes.find "A").getD { addr := 0 }

/-- The presenter of node `"B"` in the scenario scene. -/
def NodeEditorScene.scenarioB : NodeItemPresenter :=
  (NodeEditorScene.scenario.nodes.find "B").getD { addr := 0 }

/-- A port collection holds every presenter under the name that its model and its view carry,
and holds presenters of the orientation `o` only. -/
def PortsKeyedByName (m : StringMap PortItemPresenter) (o : Orientation) : Prop :=
  ∀ e ∈ m, e.2.model.name_ = e.1 ∧ e.2.view.m_portName = e.1 ∧ e.2.model.orientation_ = o

/-- The three port collections of a node hold every presenter under its name, the input ports in
`inputPortPresenters`, the output ports in `outputPortPresenters` and the parameter ports in
`parameterPortPresenters`: the state in which `addPortPresenter` leaves a port that is not
renamed or reoriented afterwards. -/
def NodeItemPresenter.PortsKeyedByName (n : NodeItemPresenter) : Prop :=
  NodeEditor.PortsKeyedByName n.inputPortPresenters .Input ∧
    NodeEditor.PortsKeyedByName n.outputPortPresenters .Output ∧
    NodeEditor.PortsKeyedByName n.parameterPortPresenters .Parameter

/-- The call `model()->set_name(name)` on the model of a port presenter, together with the relay
of `name_changed` to the view's `set_name` that the constructor of `PortItemPresenter` connects
(source: `PortItemView::set_name`, which stores the name unless it holds it already). -/
def PortItemPresenter.set_name (p : PortItemPresenter) (name : String) : PortItemPresenter :=
  { p with
    model := (p.model.set_name name).1
    view := if p.view.m_portName == name then p.view else { p.view with m_portName := name } }

/-- The scene after `createNode("A", (0, 0))`, `addInputPort("A", "x", "X")` and
`set_name("y")` on the model of the returned port presenter: the port is now named `"y"` in its
model and in its view, and is still held under `"x"` in the input collection of `"A"`. -/
def NodeEditorScene.renamed : NodeEditorScene :=
  let s : NodeEditorScene := {}
  let s := (s.createNode "A" ⟨.finite 0 0, .finite 0 0⟩).2
  let s := (s.addInputPort "A" "x" "X").2
  { s with
    m_nodes := s.m_nodes.map fun e =>
      (e.1, { e.2 with
        inputPortPresenters := e.2.inputPortPresenters.map fun q => (q.1, q.2.set_name "y") }) }

/-! ## Histories of calls on a signal, and the reference semantics of `notify` -/

/-- A call on a signal other than `notify`. -/
inductive SignalCall (Slot : Type)
  | connect (slot : Slot)
  | disconnect (id : Nat)
  | disconnectAll
  | blockSignals (block : Bool)
  deriving Repr

namespace Signal

variable {Slot : Type}

/-- One call on the signal `s`, by the source's member functions: the ids it returns (one for
`connect`, none otherwise) and the signal afterwards. -/
def call (s : Signal Slot) : SignalCall Slot → List Nat × Signal Slot
  | .connect slot => ([(s.connect slot).1], (s.connect slot).2)
  | .disconnect id => ([], s.disconnect id)
  | .disconnectAll => ([], s.disconnectAll)
  | .blockSignals block => ([], s.blockSignals block)

/-- The calls of a history made in order on a newly constructed signal: the ids returned by the
`connect` calls, in call order, and the signal afterwards. -/
def replay (calls : List (SignalCall Slot)) : List Nat × Signal Slot :=
  calls.foldl (fun acc c => (acc.1 ++ (acc.2.call c).1, (acc.2.call c).2)) ([], {})

/-- The entries of `m_slots` that are not null, each with its index, the first index being
`n`. -/
def liveFrom : Nat → List (Option Slot) → List (Nat × Slot)
  | _, [] => []
  | n, none :: rest => liveFrom (n + 1) rest
  | n, some slot :: rest => (n, slot) :: liveFrom (n + 1) rest

end Signal

/-! The reference semantics follows the words of the specification, on the history alone. -/

namespace SignalReference

variable {Slot : Type}

/-- The call disconnects the subscription `id`: it is `disconnect(id)` or `disconnectAll()`. -/
def disconnects : SignalCall Slot → Nat → Bool
  | .disconnect i, id => i == id
  | .disconnectAll, _ => true
  | _, _ => false

/-- The number of `connect` calls of a history. -/
def connects : List (SignalCall Slot) → Nat
  | [] => 0
  | .connect _ :: rest => connects rest + 1
  | _ :: rest => connects rest

/-- The subscriptions that are live after a history, in connection order: every `connect` call
with its id, which is `k` plus the number of `connect` calls before it, unless a later call
disconnects that id. -/
def live : List (SignalCall Slot) → Nat → List (Nat × Slot)
  | [], _ => []
  | .connect slot :: rest, k =>
    if rest.any (fun c => disconnects c k) then live rest (k + 1)
    else (k, slot) :: live rest (k + 1)
  | .disconnect _ :: rest, k => live rest k
  | .disconnectAll :: rest, k => live rest k
  | .blockSignals _ :: rest, k => live rest k

/-- The argument of the last `blockSignals` call of a history, false when there is none. -/
def blocked (calls : List (SignalCall Slot)) : Bool :=
  (calls.reverse.findSome? fun c =>
    match c with
    | .blockSignals block => some block
    | _ => none).getD false

/-- The slots that a `notify` following the history is to invoke, in invocation order: none if
the last `blockSignals` call was `blockSignals(true)`, otherwise the live subscriptions. -/
def invoked (calls : List (SignalCall Slot)) : List Slot :=
  if blocked calls then [] else (live calls 0).map fun e => e.2

end SignalReference

/-- A history on a signal of named slots: three connects, a disconnect of the second, a block
and an unblock, a disconnect with an id never returned, and a fourth connect. -/
def SignalCall.sample : List (SignalCall String) :=
  [.connect "a", .connect "b", .blockSignals true, .connect "c", .disconnect 1,
    .blockSignals false, .disconnect 7, .connect "d"]

/-! ## `TagRegistry.hpp` -/

/-- A `std::unordered_map`: its entries. No member function used by the source depends on their
order. -/
abbrev UnorderedMap (κ β : Type) := List (κ × β)

namespace UnorderedMap

variable {κ β : Type} [DecidableEq κ]

/-- The lookup `m.find(key)`: the mapped value, `none` for `end()`. -/
def find (m : UnorderedMap κ β) (key : κ) : Option β :=
  (List.find? (fun e => e.1 == key) m).map fun e => e.2

/-- The assignment `m[key] = value`: replaces the value of an existing key, inserts otherwise. -/
def insert (m : UnorderedMap κ β) (key : κ) (value : β) : UnorderedMap κ β :=
  if m.any (fun e => e.1 == key) then m.map fun e => if e.1 == key then (key, value) else e
  else m ++ [(key, value)]

/-- The call `m.erase(key)`, or `m.erase(it)` for the iterator of `key`. -/
def erase (m : UnorderedMap κ β) (key : κ) : UnorderedMap κ β :=
  m.filter fun e => e.1 != key

/-- The call `m.size()`. -/
def size (m : UnorderedMap κ β) : Nat :=
  m.length

end UnorderedMap

/-- A tag type, identified as `std::type_index` identifies it; `name` is `typeid(Tag).name()`. -/
structure Tag where
  name : String
  deriving DecidableEq, Repr

/-- Source: `constexpr size_t MaxTags = 32`. -/
def MaxTags : Nat := 32

/-- Source: the static data members of `class TagRegistry`. -/
structure TagRegistry where
  tagIndices : UnorderedMap Tag Nat := []
  indexToName : UnorderedMap Nat String := []
  deriving DecidableEq, Repr

namespace TagRegistry

/-- Source: `TagRegistry::getTagIndex<Tag>`. Returns the index, `none` where the source throws
`std::runtime_error`, and the registry afterwards. -/
def getTagIndex (r : TagRegistry) (tag : Tag) : Option Nat × TagRegistry :=
  match r.tagIndices.find tag with
  | some index => (some index, r)
  | none =>
    if r.tagIndices.size ≥ MaxTags then (none, r)
    else
      let newIndex := r.tagIndices.size
      (some newIndex,
        { tagIndices := r.tagIndices.insert tag newIndex
          indexToName := r.indexToName.insert newIndex tag.name })

/-- Source: `TagRegistry::getTagName<Tag>`. -/
def getTagName (tag : Tag) : String :=
  tag.name

/-- Source: `TagRegistry::getTagNameByIndex`. -/
def getTagNameByIndex (r : TagRegistry) (index : Nat) : String :=
  match r.indexToName.find index with
  | some name => name
  | none => ""

/-- Source: `TagRegistry::unregisterTag<Tag>`. -/
def unregisterTag (r : TagRegistry) (tag : Tag) : TagRegistry :=
  match r.tagIndices.find tag with
  | some index =>
    { tagIndices := r.tagIndices.erase tag
      indexToName := r.indexToName.erase index }
  | none => r

/-- Source: `TagRegistry::unregisterAllTags`. -/
def unregisterAllTags (_r : TagRegistry) : TagRegistry :=
  { tagIndices := []
    indexToName := [] }

/-- Source: `TagRegistry::tagCount`. -/
def tagCount (r : TagRegistry) : Nat :=
  r.tagIndices.size

/-- Successive calls of `getTagIndex` for the tags of a list: the result of each call, in call
order, and the registry afterwards. -/
def getTagIndices (r : TagRegistry) (tags : List Tag) : List (Option Nat) × TagRegistry :=
  tags.foldl
    (fun acc tag => (acc.1 ++ [(acc.2.getTagIndex tag).1], (acc.2.getTagIndex tag).2)) ([], r)

/-- Source: `TagRegistry::registerTags<Tags...>`, the fold of `getTagIndex` over the pack; `none`
where a call throws, which ends the fold. -/
def registerTags (r : TagRegistry) : List Tag → Option TagRegistry
  | [] => some r
  | tag :: rest =>
    match r.getTagIndex tag with
    | (some _, r1) => registerTags r1 rest
    | (none, _) => none

end TagRegistry

/-- A call that changes the registry. -/
inductive RegistryCall
  | getTagIndex (tag : Tag)
  | unregisterTag (tag : Tag)
  | unregisterAllTags
  deriving DecidableEq, Repr

/-- One call on the registry; a `getTagIndex` that throws leaves the registry as it is. -/
def TagRegistry.call (r : TagRegistry) : RegistryCall → TagRegistry
  | .getTagIndex tag => (r.getTagIndex tag).2
  | .unregisterTag tag => r.unregisterTag tag
  | .unregisterAllTags => r.unregisterAllTags

/-- The registry reached from the empty registry by a sequence of calls. -/
def TagRegistry.replay (calls : List RegistryCall) : TagRegistry :=
  calls.foldl TagRegistry.call {}

/-- Every index assigned in the registry is the position of a bit of the tag bitmask. -/
def TagRegistry.IndicesInRange (r : TagRegistry) : Prop :=
  ∀ e ∈ r.tagIndices, e.2 < MaxTags

/-- The 32 tag types `t0`, ..., `t31`. -/
def Tag.sample : List Tag :=
  [⟨"t0"⟩, ⟨"t1"⟩, ⟨"t2"⟩, ⟨"t3"⟩, ⟨"t4"⟩, ⟨"t5"⟩, ⟨"t6"⟩, ⟨"t7"⟩, ⟨"t8"⟩, ⟨"t9"⟩, ⟨"t10"⟩,
    ⟨"t11"⟩, ⟨"t12"⟩, ⟨"t13"⟩, ⟨"t14"⟩, ⟨"t15"⟩, ⟨"t16"⟩, ⟨"t17"⟩, ⟨"t18"⟩, ⟨"t19"⟩, ⟨"t20"⟩,
    ⟨"t21"⟩, ⟨"t22"⟩, ⟨"t23"⟩, ⟨"t24"⟩, ⟨"t25"⟩, ⟨"t26"⟩, ⟨"t27"⟩, ⟨"t28"⟩, ⟨"t29"⟩, ⟨"t30"⟩,
    ⟨"t31"⟩]

/-! ## `Taggable.hpp` -/

/-- Source: `using TagBitMask = std::bitset<MaxTags>`, as the number whose binary digit `i` is
bit `i`. -/
abbrev TagBitMask := Nat

namespace TagBitMask

/-- The call `test(pos)` of `std::bitset`; `none` where it throws `std::out_of_range`. -/
def test (m : TagBitMask) (pos : Nat) : Option Bool :=
  if pos < MaxTags then some (Nat.testBit m pos) else none

/-- The call `set(pos)` of `std::bitset`; `none` where it throws `std::out_of_range`. -/
def set (m : TagBitMask) (pos : Nat) : Option TagBitMask :=
  if pos < MaxTags then some (m ||| 2 ^ pos) else none

/-- The call `reset(pos)` of `std::bitset`; `none` where it throws `std::out_of_range`. -/
def reset (m : TagBitMask) (pos : Nat) : Option TagBitMask :=
  if pos < MaxTags then some (m ^^^ (m &&& 2 ^ pos)) else none

end TagBitMask

/-- Source: `class Taggable`, its data member. -/
structure Taggable where
  tagMask : TagBitMask := 0
  deriving DecidableEq, Repr

namespace Taggable

/-! The member functions are `noexcept`: where an exception would leave one (from `getTagIndex`
or from the bitset), the program is terminated, which is the result `none`. Each function takes
the registry, which is global in the source, and returns it as the call leaves it. -/

/-- Source: `Taggable::addTag<Tag>`. -/
def addTag (x : Taggable) (r : TagRegistry) (tag : Tag) : Option (Taggable × TagRegistry) :=
  match r.getTagIndex tag with
  | (some index, r1) =>
    match TagBitMask.set x.tagMask index with
    | some mask => some ({ tagMask := mask }, r1)
    | none => none
  | (none, _) => none

/-- Source: `Taggable::removeTag<Tag>`. -/
def removeTag (x : Taggable) (r : TagRegistry) (tag : Tag) : Option (Taggable × TagRegistry) :=
  match r.getTagIndex tag with
  | (some index, r1) =>
    match TagBitMask.reset x.tagMask index with
    | some mask => some ({ tagMask := mask }, r1)
    | none => none
  | (none, _) => none

/-- Source: `Taggable::hasTag<Tag>`. -/
def hasTag (x : Taggable) (r : TagRegistry) (tag : Tag) : Option (Bool × TagRegistry) :=
  match r.getTagIndex tag with
  | (some index, r1) =>
    match TagBitMask.test x.tagMask index with
    | some bit => some (bit, r1)
    | none => none
  | (none, _) => none

/-- Source: `Taggable::toggleTag<Tag>`. -/
def toggleTag (x : Taggable) (r : TagRegistry) (tag : Tag) : Option (Taggable × TagRegistry) :=
  match x.hasTag r tag with
  | some (has, r1) => if !has then x.addTag r1 tag else x.removeTag r1 tag
  | none => none

end Taggable

namespace Taggable

/-- Source: `Taggable::hasTags<Tags...>`, the fold `(... && hasTag<Tags>())` over the pack,
which evaluates the tags in order and stops at the first that is missing. -/
def hasTags (x : Taggable) (r : TagRegistry) : List Tag → Option (Bool × TagRegistry)
  | [] => some (true, r)
  | tag :: rest =>
    match x.hasTag r tag with
    | some (true, r1) => hasTags x r1 rest
    | some (false, r1) => some (false, r1)
    | none => none

/-- Source: `Taggable::hasAnyOfTags<Tags...>`, the fold `(... || hasTag<Tags>())` over the pack,
which evaluates the tags in order and stops at the first that is present. -/
def hasAnyOfTags (x : Taggable) (r : TagRegistry) : List Tag → Option (Bool × TagRegistry)
  | [] => some (false, r)
  | tag :: rest =>
    match x.hasTag r tag with
    | some (true, r1) => some (true, r1)
    | some (false, r1) => hasAnyOfTags x r1 rest
    | none => none

/-- Source: `Taggable::hasNoneOfTags<Tags...>`. -/
def hasNoneOfTags (x : Taggable) (r : TagRegistry) (tags : List Tag) :
    Option (Bool × TagRegistry) :=
  match x.hasAnyOfTags r tags with
  | some (any, r1) => some (!any, r1)
  | none => none

/-- Source: `Taggable::clearTags`. -/
def clearTags (_x : Taggable) (r : TagRegistry) : Taggable × TagRegistry :=
  ({ tagMask := 0 }, r.unregisterAllTags)

/-- Source: `Taggable::getTagBitMask`. -/
def getTagBitMask (x : Taggable) : TagBitMask :=
  x.tagMask

/-- Source: `Taggable::setTagBitMask`. -/
def setTagBitMask (_x : Taggable) (mask : TagBitMask) : Taggable :=
  { tagMask := mask }

/-- Source: `Taggable::copyTagsFrom`. -/
def copyTagsFrom (_x other : Taggable) : Taggable :=
  { tagMask := other.getTagBitMask }

/-- Source: `Taggable::mergeTagsFrom`. -/
def mergeTagsFrom (x other : Taggable) : Taggable :=
  { tagMask := x.tagMask ||| other.getTagBitMask }

/-- Source: `Taggable::MoveTagsFrom`; returns this object and `other` afterwards. -/
def MoveTagsFrom (_x other : Taggable) : Taggable × Taggable :=
  ({ tagMask := other.getTagBitMask }, { tagMask := 0 })

/-- Source: `Taggable::swapTagsWith`; returns this object and `other` afterwards. -/
def swapTagsWith (x other : Taggable) : Taggable × Taggable :=
  ({ tagMask := other.tagMask }, { tagMask := x.tagMask })

/-- The loop of `Taggable::tags` over the indices it visits. -/
def tagsLoop (x : Taggable) (r : TagRegistry) : List Nat → Option (List String)
  | [] => some []
  | i :: rest =>
    match TagBitMask.test x.getTagBitMask i with
    | some true => (tagsLoop x r rest).map fun result => r.getTagNameByIndex i :: result
    | some false => tagsLoop x r rest
    | none => none

/-- Source: `Taggable::tags`: the loop `for (i = 0; i < TagRegistry::tagCount(); ++i)`. -/
def tags (x : Taggable) (r : TagRegistry) : Option (List String) :=
  x.tagsLoop r (List.range r.tagCount)

end Taggable

/-! The free functions of `Taggable.hpp` on two objects. -/

/-- Source: the free function `haveAnyCommonTag`. -/
def haveAnyCommonTag (a b : Taggable) : Bool :=
  (a.getTagBitMask &&& b.getTagBitMask) != 0

/-- Source: the free function `haveSameTags`. -/
def haveSameTags (a b : Taggable) : Bool :=
  a.getTagBitMask == b.getTagBitMask

/-- Source: the free function `hasAllTagsOf`. -/
def hasAllTagsOf (a b : Taggable) : Bool :=
  (a.getTagBitMask &&& b.getTagBitMask) == b.getTagBitMask

/-- Source: the free function `copyTagsFrom`; returns the destination afterwards. -/
def copyTagsFrom (destination source : Taggable) : Taggable :=
  destination.setTagBitMask source.getTagBitMask

/-- Source: the free function `mergeTagsFrom`; returns the destination afterwards. -/
def mergeTagsFrom (destination source : Taggable) : Taggable :=
  destination.setTagBitMask (destination.getTagBitMask ||| source.getTagBitMask)

/-- Source: the free function `moveTagsFrom`; returns the destination, the source and the
registry afterwards. -/
def moveTagsFrom (destination source : Taggable) (r : TagRegistry) :
    Taggable × Taggable × TagRegistry :=
  let destination := destination.setTagBitMask source.getTagBitMask
  let cleared := source.clearTags r
  (destination, cleared.1, cleared.2)

/-- Source: the free function `swapTagsWith`; returns both objects afterwards. -/
def swapTagsWith (a b : Taggable) : Taggable × Taggable :=
  let temp := a.getTagBitMask
  let a := a.setTagBitMask b.getTagBitMask
  let b := b.setTagBitMask temp
  (a, b)

/-! ## `TagApplicator.hpp` -/

/-- Source: the static data members of `class TagApplicator`. The closure
`[](Taggable& t) { t.addTag<Tag>(); }` stored in `indexToApply` is named by its `Tag`. -/
structure TagApplicator where
  nameToIndex : UnorderedMap String Nat := []
  indexToApply : UnorderedMap Nat Tag := []
  deriving DecidableEq, Repr

namespace TagApplicator

/-- Source: `TagApplicator::registerTag<Tag>`; `none` where `getTagIndex` throws. -/
def registerTag (a : TagApplicator) (r : TagRegistry) (tag : Tag) :
    Option (TagApplicator × TagRegistry) :=
  let name := TagRegistry.getTagName tag
  match r.getTagIndex tag with
  | (some idx, r1) =>
    some ({ nameToIndex := a.nameToIndex.insert name idx
            indexToApply := a.indexToApply.insert idx tag }, r1)
  | (none, _) => none

/-- Source: `TagApplicator::apply`; returns the result, the object and the registry afterwards.
`none` where the closure's `addTag` fails, or where `indexToApply[idx]` is an empty function,
whose call throws. -/
def apply (a : TagApplicator) (r : TagRegistry) (tagName : String) (t : Taggable) :
    Option (Bool × Taggable × TagRegistry) :=
  match a.nameToIndex.find tagName with
  | none => some (false, t, r)
  | some idx =>
    match a.indexToApply.find idx with
    | some tag =>
      match t.addTag r tag with
      | some (t1, r1) => some (true, t1, r1)
      | none => none
    | none => none

end TagApplicator

/-- A call on the applicator or on the registry. -/
inductive ApplicatorCall
  | registerTag (tag : Tag)
  | getTagIndex (tag : Tag)
  | unregisterTag (tag : Tag)
  | unregisterAllTags
  deriving DecidableEq, Repr

/-- One call on the applicator and the registry; `none` where the call throws. -/
def TagApplicator.call (a : TagApplicator) (r : TagRegistry) :
    ApplicatorCall → Option (TagApplicator × TagRegistry)
  | .registerTag tag => a.registerTag r tag
  | .getTagIndex tag =>
    match r.getTagIndex tag with
    | (some _, r1) => some (a, r1)
    | (none, _) => none
  | .unregisterTag tag => some (a, r.unregisterTag tag)
  | .unregisterAllTags => some (a, r.unregisterAllTags)

/-- The applicator and the registry reached from the empty ones by a sequence of calls, none of
which throws. -/
def TagApplicator.replay (calls : List ApplicatorCall) : Option (TagApplicator × TagRegistry) :=
  calls.foldl
    (fun state c =>
      match state with
      | some (a, r) => a.call r c
      | none => none)
    (some ({}, {}))

/-- The calls `registerTag<A>()`, `TagRegistry::unregisterAllTags()`, `registerTag<C>()`. -/
def ApplicatorCall.sample : List ApplicatorCall :=
  [.registerTag ⟨"A"⟩, .unregisterAllTags, .registerTag ⟨"C"⟩]

/-! ## `Property` of `Signal.hpp`, and setters called twice -/

/-- Source: `class Property<T>`; the slots of `changed` play no part in `set`. -/
structure Property (T : Type) where
  m_value : T
  deriving DecidableEq, Repr

/-- Source: `Property::set`, with `ne` the operator `!=` of `T`. Returns the property and the
values with which `changed` is notified, in order. -/
def Property.set {T : Type} (ne : T → T → Bool) (p : Property T) (value : T) :
    Property T × List T :=
  if ne value p.m_value then
    let p1 : Property T := { m_value := value }
    (p1, [p1.m_value])
  else (p, [])

/-- The operator `!=` of `double`. -/
def Double.ne (a b : Double) : Bool :=
  !Double.eq a b

/-- The setters of a class (`set`) called twice in a row with a value that equals itself under
`eq`: the first call notifies nothing, or notifies once, with this value, and then the value
stored before was different from it; the second call notifies nothing and leaves the state of
the first. -/
def IdempotentSetters {M P C : Type} (set : M → C → M × List C) (get : M → P → C)
    (property : C → P) (eq : C → C → Bool) : Prop :=
  ∀ (m : M) (c : C), eq c c = true →
    ((set m c).2 = [] ∨ ((set m c).2 = [c] ∧ eq (get m (property c)) c = false)) ∧
      set (set m c).1 c = ((set m c).1, [])

/-! ## Selection in the toolkit's scene, and `NodeEditorScene::mousePressEvent` -/

/-- The button of a pointer press. -/
inductive MouseButton
  | left
  | right
  | middle
  deriving DecidableEq, Repr

/-- The classes of the items of a scene: the views of the repository, and the text item that an
`EditableArrowItemView` creates as its child (`labelItem_`). -/
inductive ItemKind
  | item
  | node
  | port
  | label
  | path
  | connection
  | text
  deriving DecidableEq, Repr

namespace ItemKind

/-- The flag `ItemIsSelectable` as the constructors leave it: set by `AbstractItemView`,
`AbstractPathView`, `ConnectionPathView`, `PortItemView` and `NodeItemView`, cleared by
`EditableArrowItemView`, and off for the toolkit's text item. -/
def isSelectable : ItemKind → Bool
  | .item => true
  | .node => true
  | .port => true
  | .label => false
  | .path => true
  | .connection => true
  | .text => false

/-- The flag `ItemIsMovable` as the constructors leave it: set by `AbstractItemView` and
`NodeItemView`, cleared by `AbstractPathView`, `PortItemView` and `EditableArrowItemView`, and
off for the toolkit's text item. -/
def isMovable : ItemKind → Bool
  | .item => true
  | .node => true
  | .port => false
  | .label => false
  | .path => false
  | .connection => false
  | .text => false

/-- The test `acceptedMouseButtons() & button`: `PortItemView` and `EditableArrowItemView` call
`setAcceptedMouseButtons(Qt::LeftButton)`, the other items accept every button. -/
def acceptsButton : ItemKind → MouseButton → Bool
  | .port, button => button == .left
  | .label, button => button == .left
  | _, _ => true

/-- The item is an `AbstractPathView`. -/
def isPathView : ItemKind → Bool
  | .path => true
  | .connection => true
  | _ => false

end ItemKind

/-- An item of the toolkit's scene. `enabled`: what `isEnabled()` returns; `selected`: what
`isSelected()` returns; `select_`, `pressed_`, `double_clicked_`: the members of that name of an
item view or a path view (a path view has no `double_clicked_`, a text item none of the three). -/
structure QGraphicsItem where
  id : Nat
  kind : ItemKind
  enabled : Bool := true
  selected : Bool := false
  select_ : Bool := false
  pressed_ : Bool := false
  double_clicked_ : Bool := false
  deriving DecidableEq, Repr

/-- The press that the handler receives. `under` stands for `scenePos()`: the visible items of
the scene whose shape contains that point, topmost first. No button is held when the press
arrives, so that no item has grabbed the mouse, and the view has the default drag mode. -/
structure QGraphicsSceneMouseEvent where
  button : MouseButton := .left
  control : Bool := false
  under : List Nat := []
  deriving DecidableEq, Repr

namespace QGraphicsItem

/-- Source: `AbstractItemView::itemChange` and `AbstractPathView::itemChange` at the change
`ItemSelectedHasChanged`, which the toolkit's `setSelected` delivers after it has stored `value`:
they call `set_select(value)`, which returns if `select_` is `value` and otherwise stores it and
calls `setSelected(value)`; that call returns at once, the selection being `value` already. The
notification of `select_changed` reaches the model and comes back through the presenter as
`set_select` with the stored value, which returns. A text item has the toolkit's `itemChange`,
which does nothing. -/
def itemChange (item : QGraphicsItem) (value : Bool) : QGraphicsItem :=
  if item.kind == .text then item
  else if item.select_ == value then item
  else { item with select_ := value }

/-- The toolkit's `QGraphicsItem::setSelected`, which is not code of the repository: an item
without the flag `ItemIsSelectable`, or one that is not enabled, can only be deselected; a call
that does not change the selection returns; otherwise the selection is stored and `itemChange`
is told. -/
def setSelected (item : QGraphicsItem) (selected : Bool) : QGraphicsItem :=
  let selected := selected && item.kind.isSelectable && item.enabled
  if item.selected == selected then item
  else ({ item with selected := selected }).itemChange selected

/-- Source: `AbstractItemView::set_select` and `AbstractPathView::set_select`. -/
def set_select (item : QGraphicsItem) (s : Bool) : QGraphicsItem :=
  if item.select_ == s then item
  else ({ item with select_ := s }).setSelected s

/-- Source: `AbstractItemView::set_pressed` and `AbstractPathView::set_pressed`. -/
def set_pressed (item : QGraphicsItem) (s : Bool) : QGraphicsItem :=
  if item.pressed_ == s then item
  else { item with pressed_ := s }

/-- Source: `AbstractItemView::set_double_clicked`. -/
def set_double_clicked (item : QGraphicsItem) (s : Bool) : QGraphicsItem :=
  if item.double_clicked_ == s then item
  else { item with double_clicked_ := s }

end QGraphicsItem

namespace QGraphicsScene

/-- The toolkit's `QGraphicsScene::clearSelection`: `setSelected(false)` on every selected
item. -/
def clearSelection (items : List QGraphicsItem) : List QGraphicsItem :=
  items.map fun item => if item.selected then item.setSelected false else item

/-- The scene after the item `item` has taken a new state. -/
def update (items : List QGraphicsItem) (item : QGraphicsItem) : List QGraphicsItem :=
  items.map fun other => if other.id == item.id then item else other

end QGraphicsScene

/-- The toolkit's `QGraphicsItem::mousePressEvent`, the handler of every item of the scene (no
view overrides it, and a text item without text interaction calls it), with the scene and
whether the press is accepted as results. A left press on an item with the flag
`ItemIsSelectable` is accepted; unless Control is held or the item is selected already, it
clears the selection of the scene and selects the item. Any other press is accepted by an item
with the flag `ItemIsMovable` and ignored otherwise. -/
def QGraphicsItem.mousePressEvent (items : List QGraphicsItem) (event : QGraphicsSceneMouseEvent)
    (item : QGraphicsItem) : List QGraphicsItem × Bool :=
  if event.button == .left && item.kind.isSelectable then
    if !event.control && !item.selected then
      ((QGraphicsScene.clearSelection items).map fun other =>
        if other.id == item.id then other.setSelected true else other, true)
    else (items, true)
  else (items, item.kind.isMovable)

/-- Source: `AbstractPathView::sceneEvent` and `AbstractItemView::sceneEvent` at an event of type
`GraphicsSceneMousePress`, with the scene and whether the press is accepted as results. The path
view calls `set_pressed(true)` and returns true, which leaves the press accepted. The item view
calls `set_double_clicked(false)`, `set_pressed(true)` and `set_select(true)` and hands the event
to `QGraphicsItem::sceneEvent`, which calls the handler of the press; a text item has the
toolkit's `sceneEvent`, which does the latter only. -/
def QGraphicsItem.sceneEvent (items : List QGraphicsItem) (event : QGraphicsSceneMouseEvent)
    (item : QGraphicsItem) : List QGraphicsItem × Bool :=
  if item.kind.isPathView then (QGraphicsScene.update items (item.set_pressed true), true)
  else if item.kind == .text then QGraphicsItem.mousePressEvent items event item
  else
    let item := ((item.set_double_clicked false).set_pressed true).set_select true
    QGraphicsItem.mousePressEvent (QGraphicsScene.update items item) event item

/-- The delivery of a press by the toolkit's `QGraphicsScene::mousePressEvent`: to the items
under the pointer, topmost first, until one accepts it. An item that does not accept the button
is passed over; an item that is not enabled is sent nothing and ends the delivery, the press
counting as accepted. -/
def QGraphicsScene.deliver (event : QGraphicsSceneMouseEvent) :
    List Nat → List QGraphicsItem → List QGraphicsItem × Bool
  | [], items => (items, false)
  | id :: rest, items =>
    match items.find? fun item => item.id == id with
    | none => QGraphicsScene.deliver event rest items
    | some item =>
      if !item.kind.acceptsButton event.button then QGraphicsScene.deliver event rest items
      else if !item.enabled then (items, true)
      else
        let result := QGraphicsItem.sceneEvent items event item
        if result.2 then result else QGraphicsScene.deliver event rest result.1

/-- The toolkit's `QGraphicsScene::mousePressEvent`, which is not code of the repository: the
press is delivered to the items under the pointer; if no item accepts it, the selection is
cleared, unless Control is held. The hover, focus and mouse-grab events that the toolkit sends
around the press are left out: the views answer them with `set_double_clicked(false)` and
`set_hovered`, which do not touch the selection. -/
def QGraphicsScene.mousePressEvent (items : List QGraphicsItem)
    (event : QGraphicsSceneMouseEvent) : List QGraphicsItem :=
  let result := QGraphicsScene.deliver event event.under items
  if result.2 || event.control then result.1 else QGraphicsScene.clearSelection result.1

/-- Source: `NodeEditorScene::mousePressEvent`, on the items of the scene. `clickedItem` is what
`itemAt(event->scenePos(), QTransform())` returns: the topmost item under the pointer, or null.
The loops run over `selectedItems()`, the items for which `isSelected()` holds. The handler
ends with `QGraphicsScene::mousePressEvent(event)`. -/
def NodeEditorScene.mousePressEvent (items : List QGraphicsItem)
    (event : QGraphicsSceneMouseEvent) : List QGraphicsItem :=
  let items :=
    match event.under.head? with
    | some clickedItem =>
      let items := items.map fun item =>
        if item.selected && item.id != clickedItem then item.setSelected false else item
      items.map fun item => if item.id == clickedItem then item.setSelected true else item
    | none => items.map fun item => if item.selected then item.setSelected false else item
  QGraphicsScene.mousePressEvent items event

/-- A scene with a node view, which is selected, the title label of the node and the text item
of the label, a port view of the node, a connection view, and a node view that is disabled. -/
def QGraphicsItem.sample : List QGraphicsItem :=
  [{ id := 0, kind := .node, selected := true, select_ := true },
    { id := 1, kind := .label },
    { id := 2, kind := .text },
    { id := 3, kind := .port },
    { id := 4, kind := .connection },
    { id := 5, kind := .node, enabled := false }]

/-! ## The presenters derived from `AbstractItemPresenter` -/

/-- The signals of the node, port and editable-label models and views outside the eleven
mirrored ones. -/
inductive DerivedSignal
  | text_changed
  | add_input
  | add_output
  | remove_input
  | remove_output
  | add_parameter
  | remove_parameter
  | name_changed
  | module_name_changed
  | display_name_changed
  | orientation_changed
  deriving DecidableEq, Repr

/-- The closures connected to those signals.
* `toView s`: the closure `[v](...) { v->f(...); }` that a derived presenter connects to the
  signal `s` of the model;
* `toModel s`: the closure `[m](...) { m->f(...); }` that it connects to the signal `s` of the
  view;
* `other`: a slot connected by another party. -/
inductive DerivedSlot
  | toView (signal : DerivedSignal)
  | toModel (signal : DerivedSignal)
  | other (tag : Nat)
  deriving DecidableEq, Repr

/-- A model and a view of classes derived from the generic item classes: the generic part, and
the slot lists of their further signals. -/
structure DerivedItemBinding extends ItemBinding where
  modelExtra : DerivedSignal → Signal DerivedSlot := fun _ => {}
  viewExtra : DerivedSignal → Signal DerivedSlot := fun _ => {}

namespace DerivedItemBinding

/-- The statement `m->signal.connect([v](...) { ... })`. -/
def connectModel (w : DerivedItemBinding) (signal : DerivedSignal) : DerivedItemBinding :=
  { w with
    modelExtra :=
      Function.update w.modelExtra signal ((w.modelExtra signal).connect (.toView signal)).2 }

/-- The statement `v->signal.connect([m](...) { ... })`. -/
def connectView (w : DerivedItemBinding) (signal : DerivedSignal) : DerivedItemBinding :=
  { w with
    viewExtra :=
      Function.update w.viewExtra signal ((w.viewExtra signal).connect (.toModel signal)).2 }

end DerivedItemBinding

/-- Source: `NodeItemPresenter::NodeItemPresenter`: the base class constructor, then seven
relays on signals of the model and one on `text_changed` of the view. -/
def NodeItemPresenter.construct (w : DerivedItemBinding) : DerivedItemBinding :=
  let w := { w with toItemBinding := AbstractItemPresenter.construct w.toItemBinding }
  let w := w.connectModel .text_changed
  let w := w.connectModel .add_input
  let w := w.connectModel .add_output
  let w := w.connectModel .remove_input
  let w := w.connectModel .remove_output
  let w := w.connectModel .add_parameter
  let w := w.connectModel .remove_parameter
  w.connectView .text_changed

/-- Source: `NodeItemPresenter::~NodeItemPresenter`, defaulted: only the base class destructor
runs. -/
def NodeItemPresenter.destruct (w : DerivedItemBinding) : DerivedItemBinding :=
  { w with toItemBinding := AbstractItemPresenter.destruct w.toItemBinding }

/-- Source: `PortItemPresenter::PortItemPresenter`: the base class constructor, then four
relays on signals of the model and four on signals of the view. -/
def PortItemPresenter.construct (w : DerivedItemBinding) : DerivedItemBinding :=
  let w := { w with toItemBinding := AbstractItemPresenter.construct w.toItemBinding }
  let w := w.connectModel .name_changed
  let w := w.connectModel .module_name_changed
  let w := w.connectModel .display_name_changed
  let w := w.connectModel .orientation_changed
  let w := w.connectView .name_changed
  let w := w.connectView .module_name_changed
  let w := w.connectView .display_name_changed
  w.connectView .orientation_changed

/-- Source: `PortItemPresenter::~PortItemPresenter`, defaulted: only the base class destructor
runs. -/
def PortItemPresenter.destruct (w : DerivedItemBinding) : DerivedItemBinding :=
  { w with toItemBinding := AbstractItemPresenter.destruct w.toItemBinding }

/-- Source: `EditableArrowItemPresenter::EditableArrowItemPresenter`: the base class
constructor, then the relays on `text_changed` of the model and of the view. -/
def EditableArrowItemPresenter.construct (w : DerivedItemBinding) : DerivedItemBinding :=
  let w := { w with toItemBinding := AbstractItemPresenter.construct w.toItemBinding }
  let w := w.connectModel .text_changed
  w.connectView .text_changed

/-- Source: `EditableArrowItemPresenter::~EditableArrowItemPresenter`, defaulted: only the base
class destructor runs. -/
def EditableArrowItemPresenter.destruct (w : DerivedItemBinding) : DerivedItemBinding :=
  { w with toItemBinding := AbstractItemPresenter.destruct w.toItemBinding }

/-- The slots of other parties that an execution has invoked, in order, each with the value it
received. -/
def ItemBinding.invocations (w : ItemBinding) : List (Nat × ItemChange) :=
  w.log.filterMap fun e => match e with
    | .other tag c => some (tag, c)
    | _ => none

/-- A statement that calls no setter and no slot itself: a `notify` or an optional callback. -/
def ItemTask.isQuiet : ItemTask → Bool
  | .notify _ _ => true
  | .callback _ => true
  | _ => false

/-- A port view and its model before the presenter is made: on `pos_changed` of the view sits
the slot that the scene's `createConnection` connects (tag 1), as does the slot a node view
connects to its own `pos_changed` (tag 2), and on `name_changed` of the view a slot of another
party (tag 3). -/
def DerivedItemBinding.sample : DerivedItemBinding :=
  { viewSignals := fun p =>
      if p = .pos then { m_slots := [some (.other 1), some (.other 2)] } else {}
    viewExtra := fun s =>
      if s = .name_changed then { m_slots := [some (.other 3)] } else {} }

/-! # Theorems -/

set_option linter.unnecessarySeqFocus false
set_option maxRecDepth 8000

theorem abstractItemModel_setterContract :
    SetterContract AbstractItemModel.set AbstractItemModel.get ItemChange.property
      ItemChange.eq := by
  intro m c
  cases c <;>
    simp only [AbstractItemModel.get, ItemChange.property, ItemChange.eq, AbstractItemModel.set,
      AbstractItemModel.set_rotation, AbstractItemModel.set_scale, AbstractItemModel.set_pos,
      AbstractItemModel.set_rect, AbstractItemModel.set_enable, AbstractItemModel.set_visible,
      AbstractItemModel.set_active, AbstractItemModel.set_select, AbstractItemModel.set_pressed,
      AbstractItemModel.set_double_clicked, AbstractItemModel.set_moving] <;>
    split <;> simp_all <;> intro q <;> cases q <;> simp [AbstractItemModel.get]

theorem abstractPathModel_setterContract :
    SetterContract AbstractPathModel.set AbstractPathModel.get PathChange.property
      PathChange.eq := by
  intro m c
  cases c <;>
    simp only [AbstractPathModel.get, PathChange.property, PathChange.eq, AbstractPathModel.set,
      AbstractPathModel.set_pos, AbstractPathModel.set_rect, AbstractPathModel.set_visible,
      AbstractPathModel.set_select, AbstractPathModel.set_pressed] <;>
    split <;> simp_all <;> intro q <;> cases q <;> simp [AbstractPathModel.get]

theorem nodeItemModel_setterContract :
    SetterContract NodeItemModel.set NodeItemModel.get NodeChange.property NodeChange.eq := by
  intro m c
  cases c with
  | item c =>
    have h := abstractItemModel_setterContract m.toAbstractItemModel c
    simp only [NodeItemModel.get, NodeChange.property, NodeChange.eq, NodeItemModel.set]
    split at h
    · rename_i heq
      simp [heq, h]
    · rename_i heq
      simp only [heq, Bool.false_eq_true, if_false, h.1, List.map, true_and]
      intro q
      cases q with
      | item p =>
        have h2 := h.2 p
        by_cases hp : p = c.property <;> simp_all [NodeItemModel.get]
      | text => simp [NodeItemModel.get]
  | text t =>
    simp only [NodeItemModel.get, NodeChange.property, NodeChange.eq, NodeItemModel.set, NodeItemModel.set_text]
    split <;> simp_all <;> intro q <;> cases q <;> simp [NodeItemModel.get]

theorem editableArrowItemModel_setterContract :
    SetterContract EditableArrowItemModel.set EditableArrowItemModel.get EditableArrowChange.property EditableArrowChange.eq := by
  intro m c
  cases c with
  | item c =>
    have h := abstractItemModel_setterContract m.toAbstractItemModel c
    simp only [EditableArrowItemModel.get, EditableArrowChange.property, EditableArrowChange.eq, EditableArrowItemModel.set]
    split at h
    · rename_i heq
      simp [heq, h]
    · rename_i heq
      simp only [heq, Bool.false_eq_true, if_false, h.1, List.map, true_and]
      intro q
      cases q with
      | item p =>
        have h2 := h.2 p
        by_cases hp : p = c.property <;> simp_all [EditableArrowItemModel.get]
      | text => simp [EditableArrowItemModel.get]
  | text t =>
    simp only [EditableArrowItemModel.get, EditableArrowChange.property, EditableArrowChange.eq, EditableArrowItemModel.set, EditableArrowItemModel.set_text]
    split <;> simp_all <;> intro q <;> cases q <;> simp [EditableArrowItemModel.get]

theorem portItemModel_setterContract :
    SetterContract PortItemModel.set PortItemModel.get PortChange.property PortChange.eq := by
  intro m c
  cases c with
  | item c =>
    have h := abstractItemModel_setterContract m.toAbstractItemModel c
    simp only [PortItemModel.get, PortChange.property, PortChange.eq, PortItemModel.set]
    split at h
    · rename_i heq
      simp [heq, h]
    · rename_i heq
      simp only [heq, Bool.false_eq_true, if_false, h.1, List.map, true_and]
      intro q
      cases q with
      | item p =>
        have h2 := h.2 p
        by_cases hp : p = c.property <;> simp_all [PortItemModel.get]
      | name => simp [PortItemModel.get]
      | module_name => simp [PortItemModel.get]
      | display_name => simp [PortItemModel.get]
      | orientation => simp [PortItemModel.get]
  | name t =>
    simp only [PortItemModel.get, PortChange.property, PortChange.eq, PortItemModel.set, PortItemModel.set_name]
    split <;> simp_all <;> intro q <;> cases q <;> simp [PortItemModel.get]
  | module_name t =>
    simp only [PortItemModel.get, PortChange.property, PortChange.eq, PortItemModel.set, PortItemModel.set_module_name]
    split <;> simp_all <;> intro q <;> cases q <;> simp [PortItemModel.get]
  | display_name t =>
    simp only [PortItemModel.get, PortChange.property, PortChange.eq, PortItemModel.set, PortItemModel.set_display_name]
    split <;> simp_all <;> intro q <;> cases q <;> simp [PortItemModel.get]
  | orientation t =>
    simp only [PortItemModel.get, PortChange.property, PortChange.eq, PortItemModel.set, PortItemModel.set_orientation]
    split <;> simp_all <;> intro q <;> cases q <;> simp [PortItemModel.get]

theorem connectionPathModel_setterContract :
    SetterContract ConnectionPathModel.set ConnectionPathModel.get ConnectionChange.property ConnectionChange.eq := by
  intro m c
  cases c with
  | path c =>
    have h := abstractPathModel_setterContract m.toAbstractPathModel c
    simp only [ConnectionPathModel.get, ConnectionChange.property, ConnectionChange.eq, ConnectionPathModel.set]
    split at h
    · rename_i heq
      simp [heq, h]
    · rename_i heq
      simp only [heq, Bool.false_eq_true, if_false, h.1, List.map, true_and]
      intro q
      cases q with
      | path p =>
        have h2 := h.2 p
        by_cases hp : p = c.property <;> simp_all [ConnectionPathModel.get]
      | compatible => simp [ConnectionPathModel.get]
      | active => simp [ConnectionPathModel.get]
      | input => simp [ConnectionPathModel.get]
      | output => simp [ConnectionPathModel.get]
      | endPoint => simp [ConnectionPathModel.get]
  | compatible t =>
    simp only [ConnectionPathModel.get, ConnectionChange.property, ConnectionChange.eq, ConnectionPathModel.set, ConnectionPathModel.set_compatible]
    split <;> simp_all <;> intro q <;> cases q <;> simp [ConnectionPathModel.get]
  | active t =>
    simp only [ConnectionPathModel.get, ConnectionChange.property, ConnectionChange.eq, ConnectionPathModel.set, ConnectionPathModel.set_active]
    split <;> simp_all <;> intro q <;> cases q <;> simp [ConnectionPathModel.get]
  | input t =>
    simp only [ConnectionPathModel.get, ConnectionChange.property, ConnectionChange.eq, ConnectionPathModel.set, ConnectionPathModel.set_input]
    split <;> simp_all <;> intro q <;> cases q <;> simp [ConnectionPathModel.get]
  | output t =>
    simp only [ConnectionPathModel.get, ConnectionChange.property, ConnectionChange.eq, ConnectionPathModel.set, ConnectionPathModel.set_output]
    split <;> simp_all <;> intro q <;> cases q <;> simp [ConnectionPathModel.get]
  | endPoint t =>
    simp only [ConnectionPathModel.get, ConnectionChange.property, ConnectionChange.eq, ConnectionPathModel.set, ConnectionPathModel.set_endPoint]
    split <;> simp_all <;> intro q <;> cases q <;> simp [ConnectionPathModel.get]

/-- The tolerance of `SPos::operator==` is applied to the difference as the subtraction delivers
it: `2 ^ (-100)` and `1e-6` differ by exactly `1e-6` after rounding, so they are unequal, and
`set_pos` from the one to the other stores the new position and notifies it once. -/
theorem abstractItemModel_set_pos_at_tolerance :
    Double.sub (.finite 1 (-100)) Double.epsilon = .finite (-Double.epsMant) Double.epsExp ∧
      SPos.eq { x := .finite 1 (-100) } { x := Double.epsilon } = false ∧
      AbstractItemModel.set_pos { pos_ := { x := .finite 1 (-100) } } { x := Double.epsilon } =
        ({ pos_ := { x := Double.epsilon } }, [.pos { x := Double.epsilon }]) := by
  refine ⟨by decide, by decide, by decide⟩

/-- C1. Every property setter of the six data models follows the setter contract: called with
a value equal to the stored one (under the equality of the property type) it leaves the model
unchanged and notifies nothing; otherwise it notifies the change signal of the property exactly
once, with the new value, on a model whose getter for the property returns that value and whose
other getters are unchanged. -/
theorem model_setters_follow_contract :
    SetterContract AbstractItemModel.set AbstractItemModel.get ItemChange.property
        ItemChange.eq ∧
      SetterContract AbstractPathModel.set AbstractPathModel.get PathChange.property
        PathChange.eq ∧
      SetterContract ConnectionPathModel.set ConnectionPathModel.get ConnectionChange.property
        ConnectionChange.eq ∧
      SetterContract PortItemModel.set PortItemModel.get PortChange.property PortChange.eq ∧
      SetterContract NodeItemModel.set NodeItemModel.get NodeChange.property NodeChange.eq ∧
      SetterContract EditableArrowItemModel.set EditableArrowItemModel.get
        EditableArrowChange.property EditableArrowChange.eq :=
  ⟨abstractItemModel_setterContract, abstractPathModel_setterContract,
    connectionPathModel_setterContract, portItemModel_setterContract,
    nodeItemModel_setterContract, editableArrowItemModel_setterContract⟩


theorem run_nil {W T : Type} (step : T → W → W × List T) (n : Nat) (w : W) :
    run step n [] w = some w := by
  cases n <;> rfl

theorem run_cons {W T : Type} (step : T → W → W × List T) (n : Nat) (t : T) (ts : List T)
    (w : W) : run step (n + 1) (t :: ts) w = run step n ((step t w).2 ++ ts) (step t w).1 := rfl

@[simp] theorem itemBinding_connect_model (w : ItemBinding) (side : Side) (p : ItemProperty)
    (slot : ItemSlot) : (w.connect side p slot).model = w.model := by
  cases side <;> rfl

@[simp] theorem itemBinding_connect_view (w : ItemBinding) (side : Side) (p : ItemProperty)
    (slot : ItemSlot) : (w.connect side p slot).view = w.view := by
  cases side <;> rfl

@[simp] theorem itemBinding_connect_log (w : ItemBinding) (side : Side) (p : ItemProperty)
    (slot : ItemSlot) : (w.connect side p slot).log = w.log := by
  cases side <;> rfl

theorem signal_disconnectAll_notify {Slot : Type} (s : Signal Slot) :
    s.disconnectAll.notify = [] := by
  unfold Signal.notify Signal.disconnectAll
  split
  · rfl
  · simp

theorem itemBinding_disconnectAll_signal (w : ItemBinding) (side : Side) (p : ItemProperty)
    (side2 : Side) (q : ItemProperty) :
    (w.disconnectAll side p).signal side2 q =
      if side2 = side ∧ q = p then (w.signal side p).disconnectAll else w.signal side2 q := by
  cases side <;> cases side2 <;>
    simp [ItemBinding.disconnectAll, ItemBinding.signal, Function.update_apply]

theorem itemPresenter_destruct_signal (w : ItemBinding) (side : Side) (p : ItemProperty) :
    ((AbstractItemPresenter.destruct w).signal side p).notify = [] := by
  cases side <;> cases p <;>
    simp [AbstractItemPresenter.destruct, ItemProperty.all, itemBinding_disconnectAll_signal,
      signal_disconnectAll_notify]

/-- C3 at a failing input. A path presenter is constructed on a default model and view and then
destroyed. The relay it connected to `pos_changed` of the view is still live, and
`view.set_pos(1, 2)` afterwards runs it: the model's position becomes (1, 2). For a connection
presenter the relays of its own constructor survive on both sides as well: `input_changed` of the
model still calls `set_inputPort` on the view, `active_changed` of the view still calls
`set_active` on the model. -/
theorem path_presenter_destructor_keeps_relays :
    ((AbstractPathPresenter.destruct (AbstractPathPresenter.construct {})).viewSignals
        (.path .pos)).notify = [.toModel (.path .pos)] ∧
      ((AbstractPathPresenter.destruct (AbstractPathPresenter.construct {})).callView 6
          (.path .pos) (.pos ⟨.finite 1 0, .finite 2 0⟩)).map (fun w => w.model.scenePos_) =
        some ⟨.finite 1 0, .finite 2 0⟩ ∧
      ((ConnectionPathPresenter.destruct (ConnectionPathPresenter.construct {})).modelSignals
        .input).notify = [.toView .set_inputPort] ∧
      ((ConnectionPathPresenter.destruct (ConnectionPathPresenter.construct {})).viewSignals
        .active_changed).notify = [.toModel .active] ∧
      ((ConnectionPathPresenter.destruct (ConnectionPathPresenter.construct {})).callModel 6
          .input (.port ⟨"in", "B", false⟩)).map (fun w => w.view.inputIdentity) =
        some ⟨"in", "B", false⟩ := by
  decide

/-- C4 at a failing input. On a connection presenter bound to a default model and view,
`view.set_inputPort(p)` and `view.set_outputPort(p)` with `p = ("in", "B", false)` store `p` in
the view and notify `inputPort_changed` / `outputPort_changed`, on which the presenter connected
nothing (its relays sit on `input_changed` / `output_changed`, which the view never notifies):
the model keeps its default ports. The other direction works: `model.set_input(p)` makes the
view's input port carry `p`. -/
theorem connection_view_port_not_relayed :
    ((ConnectionPathPresenter.construct {}).callView 3 .set_inputPort
        (.port ⟨"in", "B", false⟩)).map
      (fun w => (w.model.inputPort_, w.view.inputIdentity, w.log)) =
      some (⟨"", "", true⟩, ⟨"in", "B", false⟩,
        [.viewNotified .inputPort_changed (.port ⟨"in", "B", false⟩)]) ∧
    ((ConnectionPathPresenter.construct {}).callView 3 .set_outputPort
        (.port ⟨"in", "B", false⟩)).map
      (fun w => (w.model.outputPort_, w.view.outputIdentity, w.log)) =
      some (⟨"", "", true⟩, ⟨"in", "B", false⟩,
        [.viewNotified .outputPort_changed (.port ⟨"in", "B", false⟩)]) ∧
    ((ConnectionPathPresenter.construct {}).viewSignals .inputPort_changed).notify = [] ∧
    ((ConnectionPathPresenter.construct {}).viewSignals .input_changed).notify =
      [.toModel .input] ∧
    ((ConnectionPathPresenter.construct {}).callModel 6 .input
        (.port ⟨"in", "B", false⟩)).map
      (fun w => (w.model.inputPort_, w.view.inputIdentity)) =
      some (⟨"in", "B", false⟩, ⟨"in", "B", false⟩) := by
  decide

/-! ## The scene -/

theorem stringMap_find_insert {β : Type} (m : StringMap β) (key : String) (value : β)
    (k : String) : (m.insert key value).find k = if k = key then some value else m.find k := by
  induction m with
  | nil =>
    by_cases h : k = key
    · simp [StringMap.insert, StringMap.find, h]
    · have h2 : ¬ key = k := fun e => h e.symm
      simp [StringMap.insert, StringMap.find, h, h2]
  | cons e rest ih =>
    unfold StringMap.insert
    by_cases h : k = key
    · subst h
      split
      · simp [StringMap.find]
      · split
        · simp [StringMap.find]
        · rename_i h1 h2
          have h3 : ¬ e.1 = k := fun e2 => h2 e2.symm
          have := ih
          simp only [StringMap.find, if_true] at this
          simp [StringMap.find, List.find?_cons, h3, this]
    · have h2 : ¬ key = k := fun e => h e.symm
      split
      · simp [StringMap.find, List.find?_cons, h2, h]
      · split
        · rename_i h1 h3
          have h4 : ¬ e.1 = k := fun e2 => h2 (h3.trans e2)
          simp [StringMap.find, List.find?_cons, h2, h, h4]
        · have := ih
          simp only [StringMap.find, h, if_false] at this
          simp only [StringMap.find, List.find?_cons, h, if_false]
          split
          · rfl
          · exact this

theorem stringMap_find_erase {β : Type} (m : StringMap β) (key : String) (k : String) :
    (m.erase key).find k = if k = key then none else m.find k := by
  induction m with
  | nil => simp [StringMap.erase, StringMap.find]
  | cons e rest ih =>
    have hcons : StringMap.erase (e :: rest) key =
        if e.1 = key then StringMap.erase rest key else e :: StringMap.erase rest key := by
      by_cases h1 : e.1 = key <;> simp [StringMap.erase, List.filter_cons, h1]
    have hfind : ∀ (l : StringMap β), StringMap.find (e :: l) k =
        if e.1 = k then some e.2 else StringMap.find l k := by
      intro l
      by_cases h2 : e.1 = k <;> simp [StringMap.find, List.find?_cons, h2]
    rw [hcons, hfind]
    by_cases h1 : e.1 = key
    · rw [if_pos h1, ih]
      by_cases h : k = key
      · simp [h]
      · have h2 : ¬ e.1 = k := fun e2 => h (e2.symm.trans h1)
        simp [h, h2]
    · rw [if_neg h1, hfind, ih]
      by_cases h : k = key
      · have h2 : ¬ e.1 = k := fun e2 => h1 (e2.trans h)
        simp [h, h1]
      · simp [h]

theorem removeConnection_nodes (s : NodeEditorScene) (c : Option ConnectionPathPresenter) :
    (s.removeConnection c).2.m_nodes = s.m_nodes := by
  cases c with
  | none => rfl
  | some c =>
    simp only [NodeEditorScene.removeConnection]
    split <;> rfl

theorem removeConnection_connections (s : NodeEditorScene) (c : ConnectionPathPresenter) :
    (s.removeConnection (some c)).2.m_connections =
      s.m_connections.eraseP fun x => x.addr == c.addr := by
  simp only [NodeEditorScene.removeConnection]
  split
  · rfl
  · rename_i h
    symm
    apply List.eraseP_of_forall_not
    intro a ha hq
    exact h (List.any_eq_true.mpr ⟨a, ha, hq⟩)

theorem removeAll_nodes (l : List ConnectionPathPresenter) (s : NodeEditorScene) :
    (l.foldl (fun s cid => (s.removeConnection (some cid)).2) s).m_nodes = s.m_nodes := by
  induction l generalizing s with
  | nil => rfl
  | cons c rest ih => rw [List.foldl_cons, ih, removeConnection_nodes]

theorem removeAll_connections (l : List ConnectionPathPresenter) (s : NodeEditorScene) :
    (l.foldl (fun s cid => (s.removeConnection (some cid)).2) s).m_connections =
      l.foldl (fun cs cid => cs.eraseP fun x => x.addr == cid.addr) s.m_connections := by
  induction l generalizing s with
  | nil => rfl
  | cons c rest ih => rw [List.foldl_cons, ih, removeConnection_connections, List.foldl_cons]

theorem eraseAll_cons_of_ne (a : ConnectionPathPresenter) (r : List ConnectionPathPresenter)
    (h : ∀ c ∈ r, c.addr ≠ a.addr) (t : List ConnectionPathPresenter) :
    r.foldl (fun cs cid => cs.eraseP fun x => x.addr == cid.addr) (a :: t) =
      a :: r.foldl (fun cs cid => cs.eraseP fun x => x.addr == cid.addr) t := by
  induction r generalizing t with
  | nil => rfl
  | cons c rest ih =>
    have hc : ¬ a.addr = c.addr := fun e => h c (List.mem_cons_self _ _) e.symm
    rw [List.foldl_cons, List.foldl_cons, List.eraseP_cons_of_neg (by simpa using hc)]
    exact ih (fun c2 hc2 => h c2 (List.mem_cons_of_mem _ hc2)) _

theorem eraseAll_filter (P : ConnectionPathPresenter → Bool) (l : List ConnectionPathPresenter)
    (hl : (l.map fun c => c.addr).Nodup) :
    (l.filter P).foldl (fun cs cid => cs.eraseP fun x => x.addr == cid.addr) l =
      l.filter fun c => !P c := by
  induction l with
  | nil => rfl
  | cons a t ih =>
    rw [List.map_cons, List.nodup_cons] at hl
    by_cases hp : P a = true
    · rw [List.filter_cons_of_pos hp, List.foldl_cons,
        List.eraseP_cons_of_pos (by simp), ih hl.2, List.filter_cons_of_neg (by simp [hp])]
    · rw [List.filter_cons_of_neg hp, eraseAll_cons_of_ne a _ _ t, ih hl.2,
        List.filter_cons_of_pos (by simpa using hp)]
      intro c hc e
      apply hl.1
      rw [← e]
      exact List.mem_map_of_mem _ (List.mem_of_mem_filter hc)

theorem wellFormed_empty : ({} : NodeEditorScene).WellFormed :=
  ⟨List.nodup_nil, fun _ h => by cases h⟩

theorem wellFormed_createNode (s : NodeEditorScene) (name : String) (pos : QPointF)
    (h : s.WellFormed) : (s.createNode name pos).2.WellFormed :=
  ⟨h.1, fun c hc => Nat.lt_succ_of_lt (h.2 c hc)⟩

theorem wellFormed_addPort (s : NodeEditorScene) (nodeId portName displayName : String)
    (orientation : Orientation) (h : s.WellFormed) :
    (s.addPort nodeId portName displayName orientation).2.WellFormed := by
  unfold NodeEditorScene.addPort
  split
  · exact h
  · exact ⟨h.1, fun c hc => Nat.lt_succ_of_lt (h.2 c hc)⟩

theorem wellFormed_createConnection (s : NodeEditorScene)
    (from_ to_ : Option PortItemPresenter) (h : s.WellFormed) :
    (s.createConnection from_ to_).2.WellFormed := by
  unfold NodeEditorScene.createConnection
  split
  · refine ⟨?_, ?_⟩
    · simp only [NodeEditorScene.DistinctConnections, List.map_append, List.map_cons,
        List.map_nil]
      refine List.Nodup.append h.1 (List.nodup_singleton _) ?_
      intro a ha hb
      rw [List.mem_singleton] at hb
      obtain ⟨c, hc, hca⟩ := List.mem_map.mp ha
      have := h.2 c hc
      omega
    · intro c hc
      rcases List.mem_append.mp hc with hc | hc
      · exact Nat.lt_succ_of_lt (h.2 c hc)
      · rw [List.mem_singleton] at hc
        subst hc
        exact Nat.lt_succ_self _
  · exact h

theorem wellFormed_removeConnection (s : NodeEditorScene)
    (c : Option ConnectionPathPresenter) (h : s.WellFormed) :
    (s.removeConnection c).2.WellFormed := by
  cases c with
  | none => exact h
  | some c =>
    refine ⟨?_, ?_⟩
    · simp only [NodeEditorScene.DistinctConnections, removeConnection_connections]
      exact List.Nodup.sublist ((List.eraseP_sublist _).map _) h.1
    · intro x hx
      rw [removeConnection_connections] at hx
      have hn : (s.removeConnection (some c)).2.nextAddr = s.nextAddr := by
        simp only [NodeEditorScene.removeConnection]
        split <;> rfl
      rw [hn]
      exact h.2 x (List.mem_of_mem_eraseP hx)

theorem wellFormed_removeAll (l : List ConnectionPathPresenter) (s : NodeEditorScene)
    (h : s.WellFormed) :
    (l.foldl (fun s cid => (s.removeConnection (some cid)).2) s).WellFormed := by
  induction l generalizing s with
  | nil => exact h
  | cons c rest ih => exact ih _ (wellFormed_removeConnection s (some c) h)

theorem wellFormed_removeNode (s : NodeEditorScene) (nodeId : String) (h : s.WellFormed) :
    (s.removeNode nodeId).2.WellFormed := by
  unfold NodeEditorScene.removeNode
  split
  · exact h
  · exact wellFormed_removeAll _ s h

theorem wellFormed_createConnectionByName (s : NodeEditorScene)
    (fromNode fromPort toNode toPort : String) (h : s.WellFormed) :
    (s.createConnectionByName fromNode fromPort toNode toPort).2.WellFormed := by
  unfold NodeEditorScene.createConnectionByName
  split
  · exact h
  · split
    · exact h
    · exact wellFormed_createConnection s _ _ h

/-- C5 at a failing input. In the scenario scene, `createConnection` on the input port `"in"`
of `"B"` and the output port `"out"` of `"A"` returns a presenter and registers it. Its model
keeps the default, empty port records, so `removeNode("A")`, which returns true and erases
`"A"`, finds no connection to remove: the connection attached to the port `"out"` of `"A"` is
still in `connections()`. -/
theorem removeNode_keeps_created_connection :
    (NodeEditorScene.scenario.createConnection (NodeEditorScene.scenario.inputPort "B" "in")
        (NodeEditorScene.scenario.outputPort "A" "out")).1.isSome = true ∧
      (NodeEditorScene.connected.connections.map fun c =>
        (c.view.m_inputPort.portName, c.view.m_outputPort.portName,
          c.model.inputPort_.nodeName, c.model.outputPort_.nodeName)) =
        [("in", "out", "", "")] ∧
      (NodeEditorScene.connected.removeNode "A").1 = true ∧
      (NodeEditorScene.connected.removeNode "A").2.nodes.find "A" = none ∧
      (NodeEditorScene.connected.removeNode "A").2.connections =
        NodeEditorScene.connected.connections := by
  decide

/-- C6 as stated fails: in the scenario scene (`"A"` with the output port `"out"`, `"B"` with
the input port `"in"`, no connection) `createConnection("A", "out", "B", "in")` returns true
but `connections()` stays empty, because `"out"` is looked up among the input ports of
`"A"`. -/
theorem createConnectionByName_scenario_creates_nothing :
    (NodeEditorScene.scenario.outputPort "A" "out").isSome = true ∧
      (NodeEditorScene.scenario.inputPort "B" "in").isSome = true ∧
      NodeEditorScene.scenario.connections = [] ∧
      ¬ ((NodeEditorScene.scenario.createConnectionByName "A" "out" "B" "in").1 = true ∧
        (NodeEditorScene.scenario.createConnectionByName "A" "out" "B" "in").2.connections.length
          = 1) := by
  decide

/-- C6 (amended). The overload on names resolves its first port among the input ports of the
first node and its second port among the output ports of the second node: in a scene without
connections where both lookups succeed, it returns true and `connections()` has size 1
afterwards. -/
theorem createConnectionByName_input_to_output (s : NodeEditorScene)
    (fromNode fromPort toNode toPort : String)
    (hfrom : (s.inputPort fromNode fromPort).isSome = true)
    (hto : (s.outputPort toNode toPort).isSome = true) (hnone : s.connections = []) :
    (s.createConnectionByName fromNode fromPort toNode toPort).1 = true ∧
      (s.createConnectionByName fromNode fromPort toNode toPort).2.connections.length = 1 := by
  simp only [NodeEditorScene.inputPort, NodeEditorScene.outputPort, NodeEditorScene.nodes]
    at hfrom hto
  simp only [NodeEditorScene.connections] at hnone
  cases hf : s.m_nodes.find fromNode with
  | none => simp [hf] at hfrom
  | some fromIt =>
    cases ht : s.m_nodes.find toNode with
    | none => simp [ht] at hto
    | some toIt =>
      simp only [hf, ht, Option.bind] at hfrom hto
      cases hp : fromIt.getInputPort fromPort with
      | none => simp [hp] at hfrom
      | some p =>
        cases hq : toIt.getOutputPort toPort with
        | none => simp [hq] at hto
        | some q =>
          simp [NodeEditorScene.createConnectionByName, hf, ht, hp, hq,
            NodeEditorScene.createConnection, NodeEditorScene.connections, hnone]

/-- C6 (amended), on the scenario scene: `createConnection("B", "in", "A", "out")`. -/
theorem createConnectionByName_input_to_output_witness :
    (NodeEditorScene.scenario.createConnectionByName "B" "in" "A" "out").1 = true ∧
      (NodeEditorScene.scenario.createConnectionByName "B" "in" "A" "out").2.connections.length
        = 1 :=
  createConnectionByName_input_to_output NodeEditorScene.scenario "B" "in" "A" "out"
    (by decide) (by decide) (by decide)

/-- C7. `removeNode(nodeId)` for a registered node of a scene whose connection presenters are
distinct objects returns true, erases exactly the entry of `nodeId` from `nodes()`, and leaves in
`connections()` exactly the connections whose model records `nodeId` neither as the node of its
input port nor as the node of its output port, in their original order. -/
theorem removeNode_registered (s : NodeEditorScene) (nodeId : String)
    (hreg : (s.nodes.find nodeId).isSome = true) (hdist : s.DistinctConnections) :
    (s.removeNode nodeId).1 = true ∧
      (∀ k, (s.removeNode nodeId).2.nodes.find k =
        if k = nodeId then none else s.nodes.find k) ∧
      (s.removeNode nodeId).2.connections =
        s.connections.filter fun cp => !cp.recordsNode nodeId := by
  simp only [NodeEditorScene.nodes] at hreg
  cases hf : s.m_nodes.find nodeId with
  | none => simp [hf] at hreg
  | some presenter =>
    simp only [NodeEditorScene.removeNode, hf, NodeEditorScene.nodes,
      NodeEditorScene.connections, true_and]
    constructor
    · intro k
      rw [stringMap_find_erase, removeAll_nodes]
    · rw [removeAll_connections]
      exact eraseAll_filter (fun cp => cp.recordsNode nodeId) s.m_connections hdist

/-- C7, an instance: removing `"A"` from a scene with two connections, of which the first
records `"A"`, leaves the second. -/
theorem removeNode_registered_witness :
    (NodeEditorScene.recorded.removeNode "A").1 = true ∧
      (∀ k, (NodeEditorScene.recorded.removeNode "A").2.nodes.find k =
        if k = "A" then none else NodeEditorScene.recorded.nodes.find k) ∧
      (NodeEditorScene.recorded.removeNode "A").2.connections =
        NodeEditorScene.recorded.connections.filter fun cp => !cp.recordsNode "A" :=
  removeNode_registered NodeEditorScene.recorded "A" (by decide)
    (by unfold NodeEditorScene.DistinctConnections; decide)

/-- C8. After `createNode(n, pos)` the registry maps `n` to the returned presenter, which is not
null; a following `removeNode(n)` returns true, after which `n` is not registered and every other
name is mapped as before the `createNode`. -/
theorem createNode_removeNode_roundtrip (s : NodeEditorScene) (n : String) (pos : QPointF) :
    (s.createNode n pos).1.isSome = true ∧
      (s.createNode n pos).2.nodes.find n = (s.createNode n pos).1 ∧
      ((s.createNode n pos).2.removeNode n).1 = true ∧
      ∀ k, ((s.createNode n pos).2.removeNode n).2.nodes.find k =
        if k = n then none else s.nodes.find k := by
  have hfind : (s.createNode n pos).2.m_nodes.find n = (s.createNode n pos).1 := by
    simp [NodeEditorScene.createNode, stringMap_find_insert]
  refine ⟨rfl, hfind, ?_, ?_⟩
  · simp only [NodeEditorScene.removeNode, hfind]
    rfl
  · intro k
    simp only [NodeEditorScene.removeNode, hfind, NodeEditorScene.nodes]
    show StringMap.find (StringMap.erase _ n) k = _
    rw [stringMap_find_erase, removeAll_nodes]
    by_cases hk : k = n
    · simp [hk]
    · simp [hk, NodeEditorScene.createNode, stringMap_find_insert]

/-- C9 as stated fails: in the scenario scene `"A"` is registered with one output port, yet
`createNode("A", (0, 0))` returns a presenter, not null, and `nodes()` changes: `"A"` is then
mapped to the new presenter, which has no port. -/
theorem createNode_duplicate_overwrites :
    (NodeEditorScene.scenario.nodes.find "A").map (fun n => n.ports.length) = some 1 ∧
      (NodeEditorScene.scenario.createNode "A" ⟨.finite 0 0, .finite 0 0⟩).1 ≠ none ∧
      (NodeEditorScene.scenario.createNode "A" ⟨.finite 0 0, .finite 0 0⟩).2.nodes ≠
        NodeEditorScene.scenario.nodes ∧
      ((NodeEditorScene.scenario.createNode "A" ⟨.finite 0 0, .finite 0 0⟩).2.nodes.find
        "A").map (fun n => n.ports.length) = some 0 := by
  decide

/-- C9 (amended). `createNode(name, pos)`, also when `name` is already registered, does not
fail: it returns a new presenter without ports and registers it under `name`, in place of any
presenter registered there before; every other entry of `nodes()` and `connections()` are
unchanged. -/
theorem createNode_registers_new_presenter (s : NodeEditorScene) (name : String)
    (pos : QPointF) :
    ∃ p : NodeItemPresenter, (s.createNode name pos).1 = some p ∧ p.addr = s.nextAddr ∧
      p.ports = [] ∧
      (∀ k, (s.createNode name pos).2.nodes.find k =
        if k = name then some p else s.nodes.find k) ∧
      (s.createNode name pos).2.connections = s.connections := by
  refine ⟨_, rfl, rfl, rfl, ?_, rfl⟩
  intro k
  simp [NodeEditorScene.createNode, NodeEditorScene.nodes, stringMap_find_insert]

/-- C10 at a failing input. In the scenario scene neither `"A"` has an input port `"nothing"`
nor `"B"` an output port `"missing"`, so both port lookups miss and no connection is created,
yet the overload on names returns true, with the scene unchanged. -/
theorem createConnectionByName_missing_port_returns_true :
    NodeEditorScene.scenario.inputPort "A" "nothing" = none ∧
      NodeEditorScene.scenario.outputPort "B" "missing" = none ∧
      NodeEditorScene.scenario.createConnectionByName "A" "nothing" "B" "missing" =
        (true, NodeEditorScene.scenario) := by
  decide

theorem eraseP_eq_filter_of_nodup (l : List ConnectionPathPresenter) (a : Nat)
    (hl : (l.map fun c => c.addr).Nodup) :
    (l.eraseP fun x => x.addr == a) = l.filter fun x => x.addr != a := by
  induction l with
  | nil => rfl
  | cons x t ih =>
    rw [List.map_cons, List.nodup_cons] at hl
    by_cases hx : x.addr = a
    · rw [List.eraseP_cons_of_pos (by simpa using hx), List.filter_cons_of_neg (by simpa using hx)]
      symm
      rw [List.filter_eq_self]
      intro y hy
      have : y.addr ≠ a := by
        intro e
        apply hl.1
        rw [hx, ← e]
        exact List.mem_map_of_mem _ hy
      simpa using this
    · rw [List.eraseP_cons_of_neg (by simpa using hx), List.filter_cons_of_pos (by simpa using hx),
        ih hl.2]

/-- C11. `createConnection(from, to)` on port presenters returns null and leaves the scene as it
is when `from` or `to` is null; on two presenters it returns a presenter, `connections()` is
then the previous list followed by that presenter, and `nodes()` is unchanged. -/
theorem createConnection_on_presenters (s : NodeEditorScene)
    (from_ to_ : Option PortItemPresenter) (f t : PortItemPresenter) :
    s.createConnection none to_ = (none, s) ∧
      s.createConnection from_ none = (none, s) ∧
      ∃ c : ConnectionPathPresenter,
        (s.createConnection (some f) (some t)).1 = some c ∧
          (s.createConnection (some f) (some t)).2.connections = s.connections ++ [c] ∧
          (s.createConnection (some f) (some t)).2.nodes = s.nodes := by
  refine ⟨?_, ?_, _, rfl, rfl, rfl⟩
  · cases to_ <;> rfl
  · cases from_ <;> rfl

/-- C12. `removeConnection(c)` returns false and leaves the scene as it is when `c` is null or
no element of `connections()`; otherwise it returns true and `connections()` is the previous
list without that presenter, the others in the same order. `nodes()` is unchanged in every
case. Stated for scenes whose connection presenters are distinct objects. -/
theorem removeConnection_contract (s : NodeEditorScene) (c : ConnectionPathPresenter)
    (hdist : s.DistinctConnections) :
    s.removeConnection none = (false, s) ∧
      (s.removeConnection (some c)).2.nodes = s.nodes ∧
      s.removeConnection (some c) =
        if s.holds c then
          (true, { s with m_connections := s.connections.filter fun x => x.addr != c.addr })
        else (false, s) := by
  refine ⟨rfl, removeConnection_nodes s (some c), ?_⟩
  simp only [NodeEditorScene.removeConnection, NodeEditorScene.holds,
    NodeEditorScene.connections]
  rw [eraseP_eq_filter_of_nodup s.m_connections c.addr hdist]

/-- C12, an instance: removing the first of the two connections of a scene. -/
theorem removeConnection_contract_witness :
    NodeEditorScene.recorded.removeConnection none = (false, NodeEditorScene.recorded) ∧
      (NodeEditorScene.recorded.removeConnection (some { addr := 4 })).2.nodes =
        NodeEditorScene.recorded.nodes ∧
      NodeEditorScene.recorded.removeConnection (some { addr := 4 }) =
        if NodeEditorScene.recorded.holds { addr := 4 } then
          (true, { NodeEditorScene.recorded with
            m_connections := NodeEditorScene.recorded.connections.filter fun x => x.addr != 4 })
        else (false, NodeEditorScene.recorded) :=
  removeConnection_contract NodeEditorScene.recorded { addr := 4 }
    (by unfold NodeEditorScene.DistinctConnections; decide)

theorem stringMap_find_insert_self {β : Type} (m : StringMap β) (key : String) (value : β) :
    (m.insert key value).find key = some value := by
  rw [stringMap_find_insert, if_pos rfl]

theorem portModel_after_setters (portName nodeId displayName : String)
    (orientation : Orientation) :
    (((((({} : PortItemModel).set_name portName).1.set_module_name nodeId).1.set_display_name
      displayName).1.set_orientation orientation).1) =
      { name_ := portName
        moduleName_ := nodeId
        displayName_ := displayName
        orientation_ := orientation } := by
  simp only [PortItemModel.set_name, PortItemModel.set_module_name,
    PortItemModel.set_display_name, PortItemModel.set_orientation]
  by_cases h1 : ("" : String) = portName <;> by_cases h2 : ("" : String) = nodeId <;>
    by_cases h3 : ("" : String) = displayName <;> cases orientation <;>
    simp_all

theorem addPort_registered (s : NodeEditorScene) (nodeId portName displayName : String)
    (orientation : Orientation) (n : NodeItemPresenter) (hreg : s.nodes.find nodeId = some n) :
    s.addPort nodeId portName displayName orientation =
      (some (s.newPortPresenter n.view nodeId portName displayName orientation),
        { s with
          m_nodes := s.m_nodes.insert nodeId
            (n.addPortPresenter (s.newPortPresenter n.view nodeId portName displayName orientation))
          nextAddr := s.nextAddr + 1 }) := by
  simp only [NodeEditorScene.nodes] at hreg
  simp only [NodeEditorScene.addPort, hreg, portModel_after_setters,
    NodeEditorScene.newPortPresenter]

/-- C14. For a registered node, `addInputPort(nodeId, portName, displayName)` returns a presenter
`p` whose model has the name `portName`, the module name `nodeId`, the display name
`displayName` and the orientation `Input`; afterwards the node's `getInputPort(portName)` is
`p`, every other input port lookup is as before, and the output and parameter collections of
the node are unchanged. `addOutputPort` does the same with the output collection. -/
theorem addInputPort_addOutputPort_register (s : NodeEditorScene)
    (nodeId portName displayName : String) (n : NodeItemPresenter)
    (hreg : s.nodes.find nodeId = some n) :
    (∃ (p : PortItemPresenter) (n1 : NodeItemPresenter),
      (s.addInputPort nodeId portName displayName).1 = some p ∧
        p.model.name_ = portName ∧ p.model.moduleName_ = nodeId ∧
        p.model.displayName_ = displayName ∧ p.model.orientation_ = Orientation.Input ∧
        (s.addInputPort nodeId portName displayName).2.nodes.find nodeId = some n1 ∧
        (∀ k, n1.getInputPort k = if k = portName then some p else n.getInputPort k) ∧
        n1.outputPortPresenters = n.outputPortPresenters ∧
        n1.parameterPortPresenters = n.parameterPortPresenters) ∧
    (∃ (p : PortItemPresenter) (n1 : NodeItemPresenter),
      (s.addOutputPort nodeId portName displayName).1 = some p ∧
        p.model.name_ = portName ∧ p.model.moduleName_ = nodeId ∧
        p.model.displayName_ = displayName ∧ p.model.orientation_ = Orientation.Output ∧
        (s.addOutputPort nodeId portName displayName).2.nodes.find nodeId = some n1 ∧
        (∀ k, n1.getOutputPort k = if k = portName then some p else n.getOutputPort k) ∧
        n1.inputPortPresenters = n.inputPortPresenters ∧
        n1.parameterPortPresenters = n.parameterPortPresenters) := by
  have hin := addPort_registered s nodeId portName displayName .Input n hreg
  have hout := addPort_registered s nodeId portName displayName .Output n hreg
  constructor
  · rw [NodeEditorScene.addInputPort, hin]
    refine ⟨s.newPortPresenter n.view nodeId portName displayName .Input,
      n.addPortPresenter (s.newPortPresenter n.view nodeId portName displayName .Input),
      rfl, rfl, rfl, rfl, rfl, stringMap_find_insert_self _ _ _, ?_, rfl, rfl⟩
    intro k
    simp only [NodeItemPresenter.addPortPresenter, NodeItemPresenter.getInputPort,
      NodeEditorScene.newPortPresenter, stringMap_find_insert]
  · rw [NodeEditorScene.addOutputPort, hout]
    refine ⟨s.newPortPresenter n.view nodeId portName displayName .Output,
      n.addPortPresenter (s.newPortPresenter n.view nodeId portName displayName .Output),
      rfl, rfl, rfl, rfl, rfl, stringMap_find_insert_self _ _ _, ?_, rfl, rfl⟩
    intro k
    simp only [NodeItemPresenter.addPortPresenter, NodeItemPresenter.getOutputPort,
      NodeEditorScene.newPortPresenter, stringMap_find_insert]

/-- C14, an instance: adding the port `"p"` with the display name `"P"` to node `"A"` of the
scenario scene, as an input port and as an output port. -/
theorem addInputPort_addOutputPort_register_witness :
    (∃ (p : PortItemPresenter) (n1 : NodeItemPresenter),
      (NodeEditorScene.scenario.addInputPort "A" "p" "P").1 = some p ∧
        p.model.name_ = "p" ∧ p.model.moduleName_ = "A" ∧
        p.model.displayName_ = "P" ∧ p.model.orientation_ = Orientation.Input ∧
        (NodeEditorScene.scenario.addInputPort "A" "p" "P").2.nodes.find "A" = some n1 ∧
        (∀ k, n1.getInputPort k =
          if k = "p" then some p else NodeEditorScene.scenarioA.getInputPort k) ∧
        n1.outputPortPresenters = NodeEditorScene.scenarioA.outputPortPresenters ∧
        n1.parameterPortPresenters = NodeEditorScene.scenarioA.parameterPortPresenters) ∧
    (∃ (p : PortItemPresenter) (n1 : NodeItemPresenter),
      (NodeEditorScene.scenario.addOutputPort "A" "p" "P").1 = some p ∧
        p.model.name_ = "p" ∧ p.model.moduleName_ = "A" ∧
        p.model.displayName_ = "P" ∧ p.model.orientation_ = Orientation.Output ∧
        (NodeEditorScene.scenario.addOutputPort "A" "p" "P").2.nodes.find "A" = some n1 ∧
        (∀ k, n1.getOutputPort k =
          if k = "p" then some p else NodeEditorScene.scenarioA.getOutputPort k) ∧
        n1.inputPortPresenters = NodeEditorScene.scenarioA.inputPortPresenters ∧
        n1.parameterPortPresenters = NodeEditorScene.scenarioA.parameterPortPresenters) :=
  addInputPort_addOutputPort_register NodeEditorScene.scenario "A" "p" "P"
    NodeEditorScene.scenarioA (by decide)

/-- C15. Called with a node id that is not registered, `removeNode` and `removePort` return
false, `addInputPort` and `addOutputPort` return null, and the `createConnection` on names
returns false, whether the id is given as its first or as its second node; each leaves the
scene, hence `nodes()` and `connections()`, as it is. -/
theorem unregistered_node_is_reported (s : NodeEditorScene)
    (nodeId portName displayName otherNode otherPort : String)
    (hnone : s.nodes.find nodeId = none) :
    s.removeNode nodeId = (false, s) ∧
      s.removePort nodeId portName = (false, s) ∧
      s.addInputPort nodeId portName displayName = (none, s) ∧
      s.addOutputPort nodeId portName displayName = (none, s) ∧
      s.createConnectionByName nodeId portName otherNode otherPort = (false, s) ∧
      s.createConnectionByName otherNode otherPort nodeId portName = (false, s) := by
  simp only [NodeEditorScene.nodes] at hnone
  refine ⟨?_, ?_, ?_, ?_, ?_, ?_⟩
  · simp only [NodeEditorScene.removeNode, hnone]
  · simp only [NodeEditorScene.removePort, hnone]
  · simp only [NodeEditorScene.addInputPort, NodeEditorScene.addPort, hnone]
  · simp only [NodeEditorScene.addOutputPort, NodeEditorScene.addPort, hnone]
  · simp only [NodeEditorScene.createConnectionByName, hnone]
  · simp only [NodeEditorScene.createConnectionByName, hnone]
    split <;> rfl

/-- C15, an instance: the node `"C"` is not registered in the scenario scene. -/
theorem unregistered_node_is_reported_witness :
    NodeEditorScene.scenario.removeNode "C" = (false, NodeEditorScene.scenario) ∧
      NodeEditorScene.scenario.removePort "C" "in" = (false, NodeEditorScene.scenario) ∧
      NodeEditorScene.scenario.addInputPort "C" "in" "In" = (none, NodeEditorScene.scenario) ∧
      NodeEditorScene.scenario.addOutputPort "C" "in" "In" = (none, NodeEditorScene.scenario) ∧
      NodeEditorScene.scenario.createConnectionByName "C" "in" "A" "out" =
        (false, NodeEditorScene.scenario) ∧
      NodeEditorScene.scenario.createConnectionByName "A" "out" "C" "in" =
        (false, NodeEditorScene.scenario) :=
  unregistered_node_is_reported NodeEditorScene.scenario "C" "in" "In" "A" "out" (by decide)

theorem values_find_of_keyedByName (m : StringMap PortItemPresenter) (o : Orientation)
    (h : PortsKeyedByName m o) (k : String) :
    m.values.find? (fun pp => pp.view.m_portName == k) = m.find k := by
  induction m with
  | nil => rfl
  | cons e rest ih =>
    have he := (h e (List.mem_cons_self _ _)).2.1
    have ih2 := ih (fun e2 h2 => h e2 (List.mem_cons_of_mem _ h2))
    simp only [StringMap.values, StringMap.find] at ih2 ⊢
    simp only [List.map_cons, List.find?_cons, he]
    by_cases hk : e.1 = k
    · have hb : (e.1 == k) = true := by simpa using hk
      rw [hb]
      rfl
    · have hb : (e.1 == k) = false := by simpa using hk
      rw [hb]
      exact ih2

theorem find_some_of_keyedByName (m : StringMap PortItemPresenter) (o : Orientation)
    (h : PortsKeyedByName m o) (k : String) (p : PortItemPresenter) (hf : m.find k = some p) :
    p.model.name_ = k ∧ p.model.orientation_ = o := by
  unfold StringMap.find at hf
  cases he : List.find? (fun e => e.1 == k) m with
  | none => rw [he] at hf; cases hf
  | some e =>
  rw [he] at hf
  have hp : e.2 = p := by simpa using hf
  subst hp
  have hmem := List.mem_of_find?_eq_some he
  have hkey := List.find?_some he
  simp only [beq_iff_eq] at hkey
  have := h e hmem
  exact ⟨this.1.trans hkey, this.2.2⟩

theorem ports_find_of_keyedByName (n : NodeItemPresenter) (h : n.PortsKeyedByName)
    (k : String) :
    n.ports.find? (fun pp => pp.view.m_portName == k) =
      ((n.getInputPort k).or (n.getOutputPort k)).or (n.getParameterPort k) := by
  simp only [NodeItemPresenter.ports, List.find?_append, NodeItemPresenter.getInputPort,
    NodeItemPresenter.getOutputPort, NodeItemPresenter.getParameterPort,
    values_find_of_keyedByName _ _ h.1, values_find_of_keyedByName _ _ h.2.1,
    values_find_of_keyedByName _ _ h.2.2]

theorem removeAll_nextAddr (l : List ConnectionPathPresenter) (s : NodeEditorScene) :
    (l.foldl (fun s cid => (s.removeConnection (some cid)).2) s).nextAddr = s.nextAddr := by
  induction l generalizing s with
  | nil => rfl
  | cons c rest ih =>
    rw [List.foldl_cons, ih]
    simp only [NodeEditorScene.removeConnection]
    split <;> rfl

theorem removePort_of_found (s : NodeEditorScene) (nodeId portName : String)
    (n : NodeItemPresenter) (p : PortItemPresenter) (hreg : s.m_nodes.find nodeId = some n)
    (hp : n.ports.find? (fun pp => pp.view.m_portName == portName) = some p)
    (hdist : s.DistinctConnections) :
    s.removePort nodeId portName =
      (true,
        { m_nodes := s.m_nodes.insert nodeId (n.removePortPresenter p)
          m_connections := s.m_connections.filter fun cp => !cp.recordsPort nodeId portName
          nextAddr := s.nextAddr }) := by
  simp only [NodeEditorScene.removePort, hreg, hp]
  congr 1
  have h1 := removeAll_nodes (s.m_connections.filter fun cp => cp.recordsPort nodeId portName) s
  have h2 := removeAll_connections
    (s.m_connections.filter fun cp => cp.recordsPort nodeId portName) s
  have h3 := removeAll_nextAddr
    (s.m_connections.filter fun cp => cp.recordsPort nodeId portName) s
  rw [eraseAll_filter (fun cp => cp.recordsPort nodeId portName) s.m_connections hdist] at h2
  simp only [ConnectionPathPresenter.recordsPort] at h1 h2 h3 ⊢
  rw [h1, ← h2, ← h3]

/-- C13 as stated fails: in the scene built by `createNode("A", (0, 0))`,
`addInputPort("A", "x", "X")` and `set_name("y")` on the model of the port, node `"A"` has a
port named `"y"` (in its model and in its view), and `removePort("A", "y")` returns true while
it removes nothing: the scene is as before, the port included. -/
theorem removePort_renamed_port_survives :
    (NodeEditorScene.renamed.nodes.find "A").map
        (fun n => n.ports.map fun p => (p.model.name_, p.view.m_portName)) =
      some [("y", "y")] ∧
      NodeEditorScene.renamed.removePort "A" "y" = (true, NodeEditorScene.renamed) := by
  decide

/-- C13 (amended). For a registered node whose port collections hold every port presenter under
the name of its model and of its view and in the collection of its orientation, in a scene whose
connection presenters are distinct objects: `removePort(nodeId, portName)` returns false and
changes nothing when none of the three collections has `portName`; otherwise it returns true,
erases `portName` from the first of the input, output and parameter collections that has it, and
from no other, leaves every other port of the node and every other node as they are, and leaves
in `connections()` exactly the connections whose model records the port neither as its input nor
as its output port, in their order. -/
theorem removePort_ports_keyed_by_name (s : NodeEditorScene) (nodeId portName : String)
    (n : NodeItemPresenter) (hreg : s.nodes.find nodeId = some n)
    (hkeys : n.PortsKeyedByName) (hdist : s.DistinctConnections) :
    (n.getInputPort portName = none ∧ n.getOutputPort portName = none ∧
        n.getParameterPort portName = none →
      s.removePort nodeId portName = (false, s)) ∧
    (¬ (n.getInputPort portName = none ∧ n.getOutputPort portName = none ∧
        n.getParameterPort portName = none) →
      ∃ n1 : NodeItemPresenter,
        (s.removePort nodeId portName).1 = true ∧
        (∀ k, (s.removePort nodeId portName).2.nodes.find k =
          if k = nodeId then some n1 else s.nodes.find k) ∧
        (s.removePort nodeId portName).2.connections =
          s.connections.filter (fun cp => !cp.recordsPort nodeId portName) ∧
        n1.addr = n.addr ∧ n1.model = n.model ∧ n1.view = n.view ∧
        if (n.getInputPort portName).isSome then
          (∀ k, n1.getInputPort k = if k = portName then none else n.getInputPort k) ∧
            n1.outputPortPresenters = n.outputPortPresenters ∧
            n1.parameterPortPresenters = n.parameterPortPresenters
        else if (n.getOutputPort portName).isSome then
          (∀ k, n1.getOutputPort k = if k = portName then none else n.getOutputPort k) ∧
            n1.inputPortPresenters = n.inputPortPresenters ∧
            n1.parameterPortPresenters = n.parameterPortPresenters
        else
          (∀ k, n1.getParameterPort k =
              if k = portName then none else n.getParameterPort k) ∧
            n1.inputPortPresenters = n.inputPortPresenters ∧
            n1.outputPortPresenters = n.outputPortPresenters) := by
  simp only [NodeEditorScene.nodes] at hreg
  have hfind := ports_find_of_keyedByName n hkeys portName
  constructor
  · rintro ⟨h1, h2, h3⟩
    rw [h1, h2, h3] at hfind
    simp only [NodeEditorScene.removePort, hreg, hfind]
    rfl
  · intro hsome
    cases hi : n.getInputPort portName with
    | some p =>
      rw [hi] at hfind
      have hp := find_some_of_keyedByName _ _ hkeys.1 portName p hi
      rw [removePort_of_found s nodeId portName n p hreg hfind hdist]
      refine ⟨n.removePortPresenter p, rfl, ?_, rfl, ?_⟩
      · intro k
        simp only [NodeEditorScene.nodes, stringMap_find_insert]
      · simp only [NodeItemPresenter.removePortPresenter, hp.1, hp.2, Option.isSome_some,
          if_true, NodeItemPresenter.getInputPort, stringMap_find_erase]
        simp
    | none =>
      cases ho : n.getOutputPort portName with
      | some p =>
        rw [hi, ho] at hfind
        have hp := find_some_of_keyedByName _ _ hkeys.2.1 portName p ho
        rw [removePort_of_found s nodeId portName n p hreg hfind hdist]
        refine ⟨n.removePortPresenter p, rfl, ?_, rfl, ?_⟩
        · intro k
          simp only [NodeEditorScene.nodes, stringMap_find_insert]
        · simp only [NodeItemPresenter.removePortPresenter, hp.1, hp.2, Option.isSome_some,
            if_true, NodeItemPresenter.getOutputPort, stringMap_find_erase]
          simp
      | none =>
        cases hq : n.getParameterPort portName with
        | some p =>
          rw [hi, ho, hq] at hfind
          have hp := find_some_of_keyedByName _ _ hkeys.2.2 portName p hq
          rw [removePort_of_found s nodeId portName n p hreg hfind hdist]
          refine ⟨n.removePortPresenter p, rfl, ?_, rfl, ?_⟩
          · intro k
            simp only [NodeEditorScene.nodes, stringMap_find_insert]
          · simp only [NodeItemPresenter.removePortPresenter, hp.1, hp.2, Option.isSome_some,
              if_true, NodeItemPresenter.getParameterPort, stringMap_find_erase]
            simp
        | none => exact absurd ⟨hi, ho, hq⟩ hsome

/-- C13 (amended), an instance: removing the input port `"in"` of node `"B"` from a scene with
two connections, of which the first records that port. -/
theorem removePort_ports_keyed_by_name_witness :
    (NodeEditorScene.scenarioB.getInputPort "in" = none ∧
        NodeEditorScene.scenarioB.getOutputPort "in" = none ∧
        NodeEditorScene.scenarioB.getParameterPort "in" = none →
      NodeEditorScene.recorded.removePort "B" "in" = (false, NodeEditorScene.recorded)) ∧
    (¬ (NodeEditorScene.scenarioB.getInputPort "in" = none ∧
        NodeEditorScene.scenarioB.getOutputPort "in" = none ∧
        NodeEditorScene.scenarioB.getParameterPort "in" = none) →
      ∃ n1 : NodeItemPresenter,
        (NodeEditorScene.recorded.removePort "B" "in").1 = true ∧
        (∀ k, (NodeEditorScene.recorded.removePort "B" "in").2.nodes.find k =
          if k = "B" then some n1 else NodeEditorScene.recorded.nodes.find k) ∧
        (NodeEditorScene.recorded.removePort "B" "in").2.connections =
          NodeEditorScene.recorded.connections.filter (fun cp => !cp.recordsPort "B" "in") ∧
        n1.addr = NodeEditorScene.scenarioB.addr ∧ n1.model = NodeEditorScene.scenarioB.model ∧
        n1.view = NodeEditorScene.scenarioB.view ∧
        if (NodeEditorScene.scenarioB.getInputPort "in").isSome then
          (∀ k, n1.getInputPort k =
              if k = "in" then none else NodeEditorScene.scenarioB.getInputPort k) ∧
            n1.outputPortPresenters = NodeEditorScene.scenarioB.outputPortPresenters ∧
            n1.parameterPortPresenters = NodeEditorScene.scenarioB.parameterPortPresenters
        else if (NodeEditorScene.scenarioB.getOutputPort "in").isSome then
          (∀ k, n1.getOutputPort k =
              if k = "in" then none else NodeEditorScene.scenarioB.getOutputPort k) ∧
            n1.inputPortPresenters = NodeEditorScene.scenarioB.inputPortPresenters ∧
            n1.parameterPortPresenters = NodeEditorScene.scenarioB.parameterPortPresenters
        else
          (∀ k, n1.getParameterPort k =
              if k = "in" then none else NodeEditorScene.scenarioB.getParameterPort k) ∧
            n1.inputPortPresenters = NodeEditorScene.scenarioB.inputPortPresenters ∧
            n1.outputPortPresenters = NodeEditorScene.scenarioB.outputPortPresenters) :=
  removePort_ports_keyed_by_name NodeEditorScene.recorded "B" "in" NodeEditorScene.scenarioB
    (by decide)
    (by unfold NodeItemPresenter.PortsKeyedByName NodeEditor.PortsKeyedByName; decide)
    (by unfold NodeEditorScene.DistinctConnections; decide)

theorem removePort_recorded_evaluates :
    (NodeEditorScene.recorded.removePort "B" "in").1 = true ∧
      (NodeEditorScene.recorded.removePort "B" "in").2.connections.map (fun c => c.addr) = [5] ∧
      ((NodeEditorScene.recorded.removePort "B" "in").2.nodes.find "B").map
        (fun n => n.ports.length) = some 0 := by
  decide

theorem stringMap_mem_insert {β : Type} (m : StringMap β) (key : String) (value : β)
    (e : String × β) (he : e ∈ m.insert key value) : e = (key, value) ∨ e ∈ m := by
  induction m with
  | nil =>
    simp only [StringMap.insert, List.mem_singleton] at he
    exact Or.inl he
  | cons x rest ih =>
    unfold StringMap.insert at he
    split at he
    · rcases List.mem_cons.mp he with h | h
      · exact Or.inl h
      · exact Or.inr h
    · split at he
      · rcases List.mem_cons.mp he with h | h
        · exact Or.inl h
        · exact Or.inr (List.mem_cons_of_mem _ h)
      · rcases List.mem_cons.mp he with h | h
        · exact Or.inr (h ▸ List.mem_cons_self _ _)
        · rcases ih h with h2 | h2
          · exact Or.inl h2
          · exact Or.inr (List.mem_cons_of_mem _ h2)

theorem keyedByName_insert (m : StringMap PortItemPresenter) (o : Orientation)
    (p : PortItemPresenter) (h : PortsKeyedByName m o)
    (hp : p.view.m_portName = p.model.name_) (ho : p.model.orientation_ = o) :
    PortsKeyedByName (m.insert p.model.name_ p) o := by
  intro e he
  rcases stringMap_mem_insert m _ _ e he with h1 | h1
  · subst h1
    exact ⟨rfl, hp, ho⟩
  · exact h e h1

theorem keyedByName_erase (m : StringMap PortItemPresenter) (o : Orientation) (k : String)
    (h : PortsKeyedByName m o) : PortsKeyedByName (m.erase k) o :=
  fun e he => h e (List.mem_of_mem_filter he)

/-- The state in which the scene leaves its nodes: a node created by `createNode` holds its
ports under their names, and `addInputPort`, `addOutputPort` and `removePortPresenter` keep it
so. -/
theorem portsKeyedByName_of_scene_operations (s : NodeEditorScene) (name : String)
    (pos : QPointF) (n : NodeItemPresenter) (nodeId portName displayName : String)
    (o : Orientation) (p : PortItemPresenter) (h : n.PortsKeyedByName) :
    (∀ c ∈ (s.createNode name pos).1, NodeItemPresenter.PortsKeyedByName c) ∧
      (n.addPortPresenter
        (s.newPortPresenter n.view nodeId portName displayName o)).PortsKeyedByName ∧
      (n.removePortPresenter p).PortsKeyedByName := by
  refine ⟨?_, ?_, ?_⟩
  · intro c hc
    simp only [NodeEditorScene.createNode, Option.mem_def, Option.some.injEq] at hc
    subst hc
    exact ⟨(fun _ he => nomatch he), (fun _ he => nomatch he), (fun _ he => nomatch he)⟩
  · cases o
    · exact ⟨keyedByName_insert _ _ (s.newPortPresenter n.view nodeId portName displayName .Input)
        h.1 rfl rfl, h.2.1, h.2.2⟩
    · exact ⟨h.1, h.2.1, keyedByName_insert _ _
        (s.newPortPresenter n.view nodeId portName displayName .Parameter) h.2.2 rfl rfl⟩
    · exact ⟨h.1, keyedByName_insert _ _
        (s.newPortPresenter n.view nodeId portName displayName .Output) h.2.1 rfl rfl, h.2.2⟩
  · unfold NodeItemPresenter.removePortPresenter
    split
    · exact ⟨keyedByName_erase _ _ _ h.1, h.2.1, h.2.2⟩
    · exact ⟨h.1, keyedByName_erase _ _ _ h.2.1, h.2.2⟩
    · exact ⟨h.1, h.2.1, keyedByName_erase _ _ _ h.2.2⟩

/-! ## The signal against its reference semantics -/

theorem signal_replay_snoc {Slot : Type} (calls : List (SignalCall Slot))
    (c : SignalCall Slot) :
    Signal.replay (calls ++ [c]) =
      ((Signal.replay calls).1 ++ ((Signal.replay calls).2.call c).1,
        ((Signal.replay calls).2.call c).2) := by
  simp only [Signal.replay, List.foldl_append, List.foldl_cons, List.foldl_nil]

theorem signal_liveFrom_map_snd {Slot : Type} (l : List (Option Slot)) (n : Nat) :
    (Signal.liveFrom n l).map (fun e => e.2) = l.filterMap id := by
  induction l generalizing n with
  | nil => rfl
  | cons x t ih =>
    cases x with
    | none => simpa [Signal.liveFrom] using ih (n + 1)
    | some a => simpa [Signal.liveFrom] using ih (n + 1)

theorem signal_liveFrom_ge {Slot : Type} (l : List (Option Slot)) (n : Nat) :
    ∀ e ∈ Signal.liveFrom n l, n ≤ e.1 := by
  induction l generalizing n with
  | nil => intro e he; cases he
  | cons x t ih =>
    intro e he
    cases x with
    | none =>
      have := ih (n + 1) e he
      omega
    | some a =>
      simp only [Signal.liveFrom, List.mem_cons] at he
      rcases he with h | h
      · subst h
        exact Nat.le_refl _
      · have := ih (n + 1) e h
        omega

theorem signal_liveFrom_snoc {Slot : Type} (l : List (Option Slot)) (n : Nat) (slot : Slot) :
    Signal.liveFrom n (l ++ [some slot]) = Signal.liveFrom n l ++ [(n + l.length, slot)] := by
  induction l generalizing n with
  | nil => rfl
  | cons x t ih =>
    cases x with
    | none =>
      show Signal.liveFrom (n + 1) (t ++ [some slot]) = _
      rw [ih, List.length_cons, show n + 1 + t.length = n + (t.length + 1) by omega]
      rfl
    | some a =>
      show (n, a) :: Signal.liveFrom (n + 1) (t ++ [some slot]) = _
      rw [ih, List.length_cons, show n + 1 + t.length = n + (t.length + 1) by omega]
      rfl

theorem signal_liveFrom_set {Slot : Type} (l : List (Option Slot)) (n id : Nat) :
    Signal.liveFrom n (l.set id none) =
      (Signal.liveFrom n l).filter fun e => e.1 != n + id := by
  induction l generalizing n id with
  | nil => rfl
  | cons x t ih =>
    have hrest : ∀ m, m ≤ n → (Signal.liveFrom (n + 1) t).filter (fun e => e.1 != m) =
        Signal.liveFrom (n + 1) t := by
      intro m hm
      rw [List.filter_eq_self]
      intro e he
      have := signal_liveFrom_ge t (n + 1) e he
      have hne : e.1 ≠ m := by omega
      simpa using hne
    cases id with
    | zero =>
      cases x with
      | none => simp only [List.set_cons_zero, Signal.liveFrom, Nat.add_zero, hrest n (Nat.le_refl _)]
      | some a =>
        simp only [List.set_cons_zero, Signal.liveFrom, Nat.add_zero]
        rw [List.filter_cons_of_neg (by simp), hrest n (Nat.le_refl _)]
    | succ j =>
      have hj : n + (j + 1) = n + 1 + j := by omega
      cases x with
      | none => simp only [List.set_cons_succ, Signal.liveFrom, ih, hj]
      | some a =>
        simp only [List.set_cons_succ, Signal.liveFrom, ih, hj]
        rw [List.filter_cons_of_pos]
        have : n ≠ n + 1 + j := by omega
        simpa using this

theorem signal_liveFrom_map_none {Slot : Type} (l : List (Option Slot)) (n : Nat) :
    Signal.liveFrom n (l.map fun _ => (none : Option Slot)) = [] := by
  induction l generalizing n with
  | nil => rfl
  | cons x t ih =>
    rw [List.map_cons]
    exact ih (n + 1)

theorem signal_disconnect_eq_set {Slot : Type} (s : Signal Slot) (id : Nat) :
    s.disconnect id = { s with m_slots := s.m_slots.set id none } := by
  unfold Signal.disconnect
  split
  · rfl
  · rename_i h
    rw [List.set_eq_of_length_le (Nat.le_of_not_lt h)]

theorem signalReference_disconnects_connect {Slot : Type} (slot : Slot) (k : Nat) :
    SignalReference.disconnects (SignalCall.connect slot) k = false := rfl

theorem signalReference_disconnects_disconnect {Slot : Type} (i k : Nat) :
    SignalReference.disconnects (SignalCall.disconnect i : SignalCall Slot) k = (i == k) := rfl

theorem signalReference_disconnects_disconnectAll {Slot : Type} (k : Nat) :
    SignalReference.disconnects (SignalCall.disconnectAll : SignalCall Slot) k = true := rfl

theorem signalReference_disconnects_blockSignals {Slot : Type} (b : Bool) (k : Nat) :
    SignalReference.disconnects (SignalCall.blockSignals b : SignalCall Slot) k = false := rfl

theorem signalReference_connects_snoc {Slot : Type} (calls : List (SignalCall Slot))
    (c : SignalCall Slot) :
    SignalReference.connects (calls ++ [c]) =
      SignalReference.connects calls + SignalReference.connects [c] := by
  induction calls with
  | nil => simp [SignalReference.connects]
  | cons x rest ih =>
    cases x <;> simp only [List.cons_append, List.append_eq, SignalReference.connects, ih] <;> omega

theorem signalReference_live_snoc_connect {Slot : Type} (calls : List (SignalCall Slot))
    (slot : Slot) (k : Nat) :
    SignalReference.live (calls ++ [.connect slot]) k =
      SignalReference.live calls k ++ [(k + SignalReference.connects calls, slot)] := by
  induction calls generalizing k with
  | nil => simp [SignalReference.live, SignalReference.connects]
  | cons x rest ih =>
    cases x with
    | connect s2 =>
      have hk : k + 1 + SignalReference.connects rest =
          k + (SignalReference.connects rest + 1) := by omega
      simp only [List.cons_append, List.append_eq, SignalReference.live, List.any_append, List.any_cons,
        List.any_nil, signalReference_disconnects_connect, signalReference_disconnects_disconnect,
        signalReference_disconnects_disconnectAll, signalReference_disconnects_blockSignals,
        Bool.or_false, ih, SignalReference.connects,
        hk]
      split <;> simp
    | disconnect i => simp only [List.cons_append, List.append_eq, SignalReference.live, ih,
        SignalReference.connects]
    | disconnectAll => simp only [List.cons_append, List.append_eq, SignalReference.live, ih,
        SignalReference.connects]
    | blockSignals b => simp only [List.cons_append, List.append_eq, SignalReference.live, ih,
        SignalReference.connects]

theorem signalReference_live_snoc_block {Slot : Type} (calls : List (SignalCall Slot))
    (b : Bool) (k : Nat) :
    SignalReference.live (calls ++ [.blockSignals b]) k = SignalReference.live calls k := by
  induction calls generalizing k with
  | nil => rfl
  | cons x rest ih =>
    cases x <;>
      simp only [List.cons_append, List.append_eq, SignalReference.live, List.any_append, List.any_cons,
        List.any_nil, signalReference_disconnects_connect, signalReference_disconnects_disconnect,
        signalReference_disconnects_disconnectAll, signalReference_disconnects_blockSignals,
        Bool.or_false, ih]

theorem signalReference_live_snoc_disconnectAll {Slot : Type}
    (calls : List (SignalCall Slot)) (k : Nat) :
    SignalReference.live (calls ++ [.disconnectAll]) k = [] := by
  induction calls generalizing k with
  | nil => rfl
  | cons x rest ih =>
    cases x <;>
      simp only [List.cons_append, List.append_eq, SignalReference.live, List.any_append, List.any_cons,
        List.any_nil, signalReference_disconnects_connect, signalReference_disconnects_disconnect,
        signalReference_disconnects_disconnectAll, signalReference_disconnects_blockSignals,
        Bool.or_false, Bool.or_true, ih, if_true]

theorem signalReference_live_ge {Slot : Type} (calls : List (SignalCall Slot)) (k : Nat) :
    ∀ e ∈ SignalReference.live calls k, k ≤ e.1 := by
  induction calls generalizing k with
  | nil => intro e he; cases he
  | cons x rest ih =>
    intro e he
    cases x with
    | connect s2 =>
      simp only [SignalReference.live] at he
      split at he
      · have := ih (k + 1) e he
        omega
      · rcases List.mem_cons.mp he with h | h
        · subst h
          exact Nat.le_refl _
        · have := ih (k + 1) e h
          omega
    | disconnect i => exact ih k e he
    | disconnectAll => exact ih k e he
    | blockSignals b => exact ih k e he

theorem signalReference_live_snoc_disconnect {Slot : Type} (calls : List (SignalCall Slot))
    (id : Nat) (k : Nat) :
    SignalReference.live (calls ++ [.disconnect id]) k =
      (SignalReference.live calls k).filter fun e => e.1 != id := by
  induction calls generalizing k with
  | nil => rfl
  | cons x rest ih =>
    cases x with
    | connect s2 =>
      simp only [List.cons_append, List.append_eq, SignalReference.live, List.any_append, List.any_cons,
        List.any_nil, signalReference_disconnects_connect, signalReference_disconnects_disconnect,
        signalReference_disconnects_disconnectAll, signalReference_disconnects_blockSignals,
        Bool.or_false, ih]
      by_cases hany : (rest.any fun c => SignalReference.disconnects c k) = true
      · simp only [hany, Bool.true_or, if_true]
      · simp only [hany, Bool.false_or, beq_iff_eq, if_false]
        by_cases hid : id = k
        · subst hid
          simp only [if_true, Bool.false_eq_true, if_false]
          rw [List.filter_cons_of_neg (by simp)]
        · simp only [hid, if_false, Bool.false_eq_true]
          rw [List.filter_cons_of_pos]
          have : k ≠ id := fun e => hid e.symm
          simpa using this
    | disconnect i => simp only [List.cons_append, List.append_eq, SignalReference.live, ih]
    | disconnectAll => simp only [List.cons_append, List.append_eq, SignalReference.live, ih]
    | blockSignals b => simp only [List.cons_append, List.append_eq, SignalReference.live, ih]

theorem signalReference_blocked_snoc {Slot : Type} (calls : List (SignalCall Slot))
    (c : SignalCall Slot) :
    SignalReference.blocked (calls ++ [c]) =
      match c with
      | .blockSignals b => b
      | _ => SignalReference.blocked calls := by
  cases c <;>
    simp [SignalReference.blocked, List.reverse_append, List.findSome?_cons]

theorem signal_replay_invariant {Slot : Type} (calls : List (SignalCall Slot)) :
    (Signal.replay calls).1 = List.range (SignalReference.connects calls) ∧
      (Signal.replay calls).2.m_slots.length = SignalReference.connects calls ∧
      Signal.liveFrom 0 (Signal.replay calls).2.m_slots = SignalReference.live calls 0 ∧
      (Signal.replay calls).2.m_blocked = SignalReference.blocked calls := by
  induction calls using List.reverseRecOn with
  | nil => exact ⟨rfl, rfl, rfl, rfl⟩
  | append_singleton calls c ih =>
    obtain ⟨h1, h2, h3, h4⟩ := ih
    rw [signal_replay_snoc, signalReference_connects_snoc, signalReference_blocked_snoc]
    cases c with
    | connect slot =>
      rw [signalReference_live_snoc_connect]
      simp only [Signal.call, Signal.connect, SignalReference.connects, List.length_append,
        List.length_singleton, Nat.add_sub_cancel, h1, h2, h4, List.range_succ,
        signal_liveFrom_snoc, h3, Nat.zero_add, and_self]
    | disconnect id =>
      rw [signalReference_live_snoc_disconnect]
      simp only [Signal.call, signal_disconnect_eq_set, SignalReference.connects,
        List.append_nil, List.length_set, Nat.add_zero, h1, h2, h4, signal_liveFrom_set, h3,
        Nat.zero_add, and_self]
    | disconnectAll =>
      rw [signalReference_live_snoc_disconnectAll]
      simp only [Signal.call, Signal.disconnectAll, SignalReference.connects,
        List.append_nil, List.length_map, Nat.add_zero, h1, h2, h4, signal_liveFrom_map_none,
        and_self]
    | blockSignals b =>
      rw [signalReference_live_snoc_block]
      simp only [Signal.call, Signal.blockSignals, SignalReference.connects,
        List.append_nil, Nat.add_zero, h1, h2, h3, and_self]

theorem signalReference_live_increasing {Slot : Type} (calls : List (SignalCall Slot))
    (k : Nat) : ((SignalReference.live calls k).map fun e => e.1).Pairwise (fun a b => a < b) := by
  induction calls generalizing k with
  | nil => exact List.Pairwise.nil
  | cons x rest ih =>
    cases x with
    | connect s2 =>
      simp only [SignalReference.live]
      split
      · exact ih (k + 1)
      · rw [List.map_cons, List.pairwise_cons]
        refine ⟨?_, ih (k + 1)⟩
        intro a ha
        obtain ⟨e, he, rfl⟩ := List.mem_map.mp ha
        have := signalReference_live_ge rest (k + 1) e he
        show k < e.1
        omega
    | disconnect i => exact ih k
    | disconnectAll => exact ih k
    | blockSignals b => exact ih k

/-- C16. The signal refines its reference semantics. For every history of `connect`,
`disconnect`, `disconnectAll` and `blockSignals` calls on a new signal: the ids returned by the
`connect` calls are 0, 1, 2, ... in call order; a following `notify` invokes exactly the slots
of the reference, in its order, which is none if the last `blockSignals` call was
`blockSignals(true)` and otherwise the slots connected and not disconnected since, each once
and in increasing id order; `blockSignals` leaves the subscriptions as they are; and `disconnect`
with an id that no `connect` has returned changes nothing. -/
theorem signal_refines_reference {Slot : Type} (calls : List (SignalCall Slot)) :
    (Signal.replay calls).1 = List.range (SignalReference.connects calls) ∧
      (Signal.replay calls).2.notify = SignalReference.invoked calls ∧
      ((SignalReference.live calls 0).map fun e => e.1).Pairwise (fun a b => a < b) ∧
      (∀ b : Bool, ((Signal.replay calls).2.blockSignals b).m_slots =
        (Signal.replay calls).2.m_slots) ∧
      (∀ b : Bool, Signal.replay (calls ++ [.blockSignals b, .blockSignals false]) =
        Signal.replay (calls ++ [.blockSignals false])) ∧
      ∀ id : Nat, SignalReference.connects calls ≤ id →
        (Signal.replay calls).2.disconnect id = (Signal.replay calls).2 := by
  obtain ⟨h1, h2, h3, h4⟩ := signal_replay_invariant calls
  refine ⟨h1, ?_, signalReference_live_increasing calls 0, fun _ => rfl, ?_, ?_⟩
  · simp only [Signal.notify, SignalReference.invoked, h4, ← h3, signal_liveFrom_map_snd]
  · intro b
    simp only [Signal.replay, List.foldl_append, List.foldl_cons, List.foldl_nil, Signal.call,
      Signal.blockSignals, List.append_nil]
  · intro id hid
    unfold Signal.disconnect
    rw [if_neg]
    omega

/-- C16, an instance: the sample history of four connects. -/
theorem signal_refines_reference_witness :
    (Signal.replay SignalCall.sample).1 = [0, 1, 2, 3] ∧
      (Signal.replay SignalCall.sample).2.notify = ["a", "c", "d"] ∧
      SignalReference.invoked SignalCall.sample = ["a", "c", "d"] ∧
      (Signal.replay SignalCall.sample).2.disconnect 4 = (Signal.replay SignalCall.sample).2 :=
  ⟨(signal_refines_reference SignalCall.sample).1.trans (by decide),
    (signal_refines_reference SignalCall.sample).2.1.trans (by decide), by decide,
    (signal_refines_reference SignalCall.sample).2.2.2.2.2 4 (by decide)⟩

/-! ## The tag registry -/

/-- C17 at a failing input. After `getTagIndex<A>()`, `getTagIndex<B>()`, `unregisterTag<A>()`
and `getTagIndex<C>()` on the empty registry, the distinct registered tags `B` and `C` both have
the index 1, the name recorded for index 1 is that of `C`, and `A` is not registered. -/
theorem getTagIndex_reuses_index_after_unregisterTag :
    (TagRegistry.replay [.getTagIndex ⟨"A"⟩, .getTagIndex ⟨"B"⟩, .unregisterTag ⟨"A"⟩,
        .getTagIndex ⟨"C"⟩]).tagIndices.find ⟨"B"⟩ = some 1 ∧
      (TagRegistry.replay [.getTagIndex ⟨"A"⟩, .getTagIndex ⟨"B"⟩, .unregisterTag ⟨"A"⟩,
        .getTagIndex ⟨"C"⟩]).tagIndices.find ⟨"C"⟩ = some 1 ∧
      (TagRegistry.replay [.getTagIndex ⟨"A"⟩, .getTagIndex ⟨"B"⟩, .unregisterTag ⟨"A"⟩,
        .getTagIndex ⟨"C"⟩]).tagIndices.find ⟨"A"⟩ = none ∧
      (TagRegistry.replay [.getTagIndex ⟨"A"⟩, .getTagIndex ⟨"B"⟩, .unregisterTag ⟨"A"⟩,
        .getTagIndex ⟨"C"⟩]).getTagNameByIndex 1 = "C" ∧
      ((TagRegistry.replay [.getTagIndex ⟨"A"⟩, .getTagIndex ⟨"B"⟩,
        .unregisterTag ⟨"A"⟩]).getTagIndex ⟨"C"⟩).1 = some 1 := by
  decide

theorem unorderedMap_find_cons {κ β : Type} [DecidableEq κ] (e : κ × β)
    (l : UnorderedMap κ β) (k : κ) :
    UnorderedMap.find (e :: l) k = if e.1 = k then some e.2 else UnorderedMap.find l k := by
  by_cases h : e.1 = k <;> simp [UnorderedMap.find, List.find?_cons, h]

theorem unorderedMap_any_eq_false {κ β : Type} [DecidableEq κ] (m : UnorderedMap κ β) (k : κ)
    (h : m.find k = none) : m.any (fun e => e.1 == k) = false := by
  induction m with
  | nil => rfl
  | cons e rest ih =>
    rw [unorderedMap_find_cons] at h
    by_cases hk : e.1 = k
    · simp [hk] at h
    · rw [if_neg hk] at h
      simp [List.any_cons, hk, ih h]

theorem unorderedMap_insert_of_find_none {κ β : Type} [DecidableEq κ] (m : UnorderedMap κ β)
    (k : κ) (v : β) (h : m.find k = none) : m.insert k v = m ++ [(k, v)] := by
  simp [UnorderedMap.insert, unorderedMap_any_eq_false m k h]

theorem unorderedMap_find_append_singleton {κ β : Type} [DecidableEq κ]
    (m : UnorderedMap κ β) (k : κ) (v : β) (k2 : κ) (h : m.find k = none) :
    UnorderedMap.find (m ++ [(k, v)]) k2 = if k2 = k then some v else m.find k2 := by
  induction m with
  | nil =>
    rw [List.nil_append, unorderedMap_find_cons]
    by_cases hk : k2 = k
    · simp [hk]
    · have : ¬ k = k2 := fun e => hk e.symm
      simp [hk, this, UnorderedMap.find]
  | cons e rest ih =>
    rw [unorderedMap_find_cons] at h
    by_cases he : e.1 = k
    · simp [he] at h
    · rw [if_neg he] at h
      rw [List.cons_append, unorderedMap_find_cons, unorderedMap_find_cons, ih h]
      by_cases hk : e.1 = k2
      · have : ¬ k2 = k := fun e2 => he (hk.trans e2)
        simp [hk, this]
      · simp [hk]

theorem unorderedMap_find_insert {κ β : Type} [DecidableEq κ] (m : UnorderedMap κ β)
    (k : κ) (v : β) (k2 : κ) :
    (m.insert k v).find k2 = if k2 = k then some v else m.find k2 := by
  induction m with
  | nil =>
    by_cases hk : k2 = k
    · simp [UnorderedMap.insert, UnorderedMap.find, hk]
    · have : ¬ k = k2 := fun e => hk e.symm
      simp [UnorderedMap.insert, UnorderedMap.find, hk, this]
  | cons e rest ih =>
    by_cases he : e.1 = k
    · have h1 : UnorderedMap.insert (e :: rest) k v =
          (k, v) :: rest.map fun x => if x.1 == k then (k, v) else x := by
        simp [UnorderedMap.insert, he]
      have h2 : ∀ l : UnorderedMap κ β,
          UnorderedMap.find (l.map fun x => if x.1 == k then (k, v) else x) k2 =
            if k2 = k then (l.find k).map (fun _ => v) else l.find k2 := by
        intro l
        induction l with
        | nil => simp [UnorderedMap.find]
        | cons x t iht =>
          rw [List.map_cons, unorderedMap_find_cons, iht, unorderedMap_find_cons,
            unorderedMap_find_cons]
          by_cases hx : x.1 = k
          · by_cases hk : k2 = k
            · simp [hx, hk]
            · have : ¬ k = k2 := fun e => hk e.symm
              simp [hx, hk, this]
          · by_cases hk : k2 = k
            · subst hk
              simp [hx]
            · simp [hx, hk]
      rw [h1, unorderedMap_find_cons, h2, unorderedMap_find_cons]
      by_cases hk : k2 = k
      · simp [hk]
      · have h3 : ¬ k = k2 := fun e => hk e.symm
        have h4 : ¬ e.1 = k2 := fun e2 => h3 (he.symm.trans e2)
        simp [hk, h3, h4]
    · by_cases hany : rest.any (fun x => x.1 == k) = true
      · have h1 : UnorderedMap.insert (e :: rest) k v = e :: UnorderedMap.insert rest k v := by
          simp only [UnorderedMap.insert, List.any_cons, hany, Bool.or_true, if_true,
            List.map_cons]
          simp [he]
        rw [h1, unorderedMap_find_cons, ih, unorderedMap_find_cons]
        by_cases hk : e.1 = k2
        · have : ¬ k2 = k := fun e2 => he (hk.trans e2)
          simp [hk, this]
        · simp [hk]
      · have h1 : UnorderedMap.insert (e :: rest) k v = e :: UnorderedMap.insert rest k v := by
          have hb : (e.1 == k) = false := by simpa using he
          simp only [UnorderedMap.insert, List.any_cons, hany, hb, Bool.or_false,
            Bool.false_eq_true, if_false, List.cons_append]
        rw [h1, unorderedMap_find_cons, ih, unorderedMap_find_cons]
        by_cases hk : e.1 = k2
        · have : ¬ k2 = k := fun e2 => he (hk.trans e2)
          simp [hk, this]
        · simp [hk]

theorem unorderedMap_find_erase {κ β : Type} [DecidableEq κ] (m : UnorderedMap κ β)
    (k k2 : κ) : (m.erase k).find k2 = if k2 = k then none else m.find k2 := by
  induction m with
  | nil => simp [UnorderedMap.erase, UnorderedMap.find]
  | cons e rest ih =>
    have hcons : UnorderedMap.erase (e :: rest) k =
        if e.1 = k then UnorderedMap.erase rest k else e :: UnorderedMap.erase rest k := by
      by_cases h1 : e.1 = k <;> simp [UnorderedMap.erase, List.filter_cons, h1]
    rw [hcons, unorderedMap_find_cons]
    by_cases h1 : e.1 = k
    · rw [if_pos h1, ih]
      by_cases h : k2 = k
      · simp [h]
      · have h2 : ¬ e.1 = k2 := fun e2 => h (e2.symm.trans h1)
        simp [h, h2]
    · rw [if_neg h1, unorderedMap_find_cons, ih]
      by_cases h : k2 = k
      · subst h
        simp [h1]
      · simp [h]

theorem getTagIndex_of_unregistered (r : TagRegistry) (T : Tag)
    (hnone : r.tagIndices.find T = none) (hroom : r.tagCount < MaxTags) :
    r.getTagIndex T =
      (some r.tagCount,
        { tagIndices := r.tagIndices ++ [(T, r.tagCount)]
          indexToName := r.indexToName.insert r.tagCount T.name }) := by
  have h : ¬ r.tagIndices.size ≥ MaxTags := by
    simp only [TagRegistry.tagCount] at hroom
    omega
  simp only [TagRegistry.getTagIndex, hnone, h, if_false, TagRegistry.tagCount,
    unorderedMap_insert_of_find_none _ _ _ hnone]

theorem getTagIndex_of_registered (r : TagRegistry) (T : Tag) (i : Nat)
    (hsome : r.tagIndices.find T = some i) : r.getTagIndex T = (some i, r) := by
  simp only [TagRegistry.getTagIndex, hsome]

theorem getTagIndex_of_full (r : TagRegistry) (T : Tag)
    (hnone : r.tagIndices.find T = none) (hfull : MaxTags ≤ r.tagCount) :
    r.getTagIndex T = (none, r) := by
  have h : r.tagIndices.size ≥ MaxTags := hfull
  simp only [TagRegistry.getTagIndex, hnone, h, if_true]

/-- C18. `getTagIndex<T>` registers on first use and is stable. When `T` is not registered and
fewer than 32 tags are, the call returns the new index of `T`, which is the previous tag count;
afterwards the tag count is one more, `T` has that index, every other tag has the index it had
(or none), and every index other than the new one has the name it had. When `T` is registered
the call returns its recorded index and leaves the registry as it is. In every case a second
call right after the first returns what the first returned and changes nothing further. -/
theorem getTagIndex_registers_on_first_use (r : TagRegistry) (T : Tag) :
    (r.tagIndices.find T = none → r.tagCount < MaxTags →
      (r.getTagIndex T).1 = some r.tagCount ∧
        (r.getTagIndex T).2.tagCount = r.tagCount + 1 ∧
        (∀ U, (r.getTagIndex T).2.tagIndices.find U =
          if U = T then some r.tagCount else r.tagIndices.find U) ∧
        ∀ j, (r.getTagIndex T).2.getTagNameByIndex j =
          if j = r.tagCount then T.name else r.getTagNameByIndex j) ∧
      (∀ i, r.tagIndices.find T = some i → r.getTagIndex T = (some i, r)) ∧
      (r.getTagIndex T).2.getTagIndex T = ((r.getTagIndex T).1, (r.getTagIndex T).2) := by
  refine ⟨?_, getTagIndex_of_registered r T, ?_⟩
  · intro hnone hroom
    rw [getTagIndex_of_unregistered r T hnone hroom]
    refine ⟨rfl, ?_, ?_, ?_⟩
    · simp [TagRegistry.tagCount, UnorderedMap.size]
    · intro U
      exact unorderedMap_find_append_singleton _ _ _ _ hnone
    · intro j
      simp only [TagRegistry.getTagNameByIndex, unorderedMap_find_insert]
      by_cases hj : j = r.tagCount <;> simp [hj]
  · cases hf : r.tagIndices.find T with
    | some i =>
      rw [getTagIndex_of_registered r T i hf]
      exact getTagIndex_of_registered r T i hf
    | none =>
      by_cases hroom : r.tagCount < MaxTags
      · rw [getTagIndex_of_unregistered r T hf hroom]
        apply getTagIndex_of_registered
        rw [unorderedMap_find_append_singleton _ _ _ _ hf, if_pos rfl]
      · rw [getTagIndex_of_full r T hf (Nat.le_of_not_lt hroom)]
        exact getTagIndex_of_full r T hf (Nat.le_of_not_lt hroom)

/-- C18, an instance: the tag `C` on the registry that holds `A` and `B`, and then `C` again. -/
theorem getTagIndex_registers_on_first_use_witness :
    ((TagRegistry.replay [.getTagIndex ⟨"A"⟩, .getTagIndex ⟨"B"⟩]).getTagIndex ⟨"C"⟩).1 =
        some 2 ∧
      ((TagRegistry.replay [.getTagIndex ⟨"A"⟩, .getTagIndex ⟨"B"⟩]).getTagIndex
        ⟨"C"⟩).2.tagCount = 3 ∧
      (TagRegistry.replay [.getTagIndex ⟨"A"⟩, .getTagIndex ⟨"B"⟩]).getTagIndex ⟨"B"⟩ =
        (some 1, TagRegistry.replay [.getTagIndex ⟨"A"⟩, .getTagIndex ⟨"B"⟩]) :=
  ⟨((getTagIndex_registers_on_first_use
      (TagRegistry.replay [.getTagIndex ⟨"A"⟩, .getTagIndex ⟨"B"⟩]) ⟨"C"⟩).1
      (by decide) (by decide)).1,
    ((getTagIndex_registers_on_first_use
      (TagRegistry.replay [.getTagIndex ⟨"A"⟩, .getTagIndex ⟨"B"⟩]) ⟨"C"⟩).1
      (by decide) (by decide)).2.1,
    (getTagIndex_registers_on_first_use
      (TagRegistry.replay [.getTagIndex ⟨"A"⟩, .getTagIndex ⟨"B"⟩]) ⟨"B"⟩).2.1 1 (by decide)⟩

theorem getTagIndices_snoc (r : TagRegistry) (l : List Tag) (t : Tag) :
    r.getTagIndices (l ++ [t]) =
      ((r.getTagIndices l).1 ++ [((r.getTagIndices l).2.getTagIndex t).1],
        ((r.getTagIndices l).2.getTagIndex t).2) := by
  simp only [TagRegistry.getTagIndices, List.foldl_append, List.foldl_cons, List.foldl_nil]

theorem getTagIndices_of_nodup (tags : List Tag) (hnodup : tags.Nodup)
    (hlen : tags.length ≤ MaxTags) :
    (TagRegistry.getTagIndices {} tags).1 = (List.range tags.length).map some ∧
      (TagRegistry.getTagIndices {} tags).2.tagCount = tags.length ∧
      ∀ T, (TagRegistry.getTagIndices {} tags).2.tagIndices.find T =
        if T ∈ tags then some (tags.indexOf T) else none := by
  induction tags using List.reverseRecOn with
  | nil => exact ⟨rfl, rfl, fun T => by simp [TagRegistry.getTagIndices, UnorderedMap.find]⟩
  | append_singleton l t ih =>
    rw [List.nodup_append] at hnodup
    have htl : t ∉ l := fun h => hnodup.2.2 h (List.mem_singleton_self t)
    rw [List.length_append, List.length_singleton] at hlen
    obtain ⟨h1, h2, h3⟩ := ih hnodup.1 (by omega)
    have hnone : (TagRegistry.getTagIndices {} l).2.tagIndices.find t = none := by
      rw [h3, if_neg htl]
    have hroom : (TagRegistry.getTagIndices {} l).2.tagCount < MaxTags := by omega
    rw [getTagIndices_snoc, getTagIndex_of_unregistered _ t hnone hroom]
    refine ⟨?_, ?_, ?_⟩
    · simp only [h1, h2, List.length_append, List.length_singleton, List.range_succ,
        List.map_append, List.map_cons, List.map_nil]
    · simp only [TagRegistry.tagCount, UnorderedMap.size, List.length_append,
        List.length_singleton] at h2 ⊢
      rw [h2]
    · intro T
      show UnorderedMap.find ((TagRegistry.getTagIndices {} l).2.tagIndices ++ [(t, _)]) T = _
      rw [unorderedMap_find_append_singleton _ _ _ _ hnone, h3, h2]
      by_cases hT : T = t
      · subst hT
        rw [if_pos rfl, if_pos (List.mem_append_right _ (List.mem_singleton_self T)),
          List.indexOf_append_of_not_mem htl, List.indexOf_cons_self]
        rfl
      · rw [if_neg hT]
        by_cases hm : T ∈ l
        · rw [if_pos hm, if_pos (List.mem_append_left _ hm), List.indexOf_append_of_mem hm]
        · rw [if_neg hm, if_neg]
          intro h
          rcases List.mem_append.mp h with h | h
          · exact hm h
          · exact hT (List.mem_singleton.mp h)

/-- C19. Starting from the empty registry, the indices of 32 pairwise distinct tags are requested
in order: every request succeeds and the indices returned are 0, 1, ..., 31 in request order,
after which 32 tags are registered. On that registry the request for a further tag returns no
index (the source throws) and leaves the registry as it is, and the request for one of the 32
tags returns its index, its position in the order of the requests, and leaves the registry as it
is. -/
theorem registry_capacity (tags : List Tag) (T : Tag) (hnodup : tags.Nodup)
    (hlen : tags.length = 32) :
    (TagRegistry.getTagIndices {} tags).1 = (List.range 32).map some ∧
      (TagRegistry.getTagIndices {} tags).2.tagCount = 32 ∧
      (T ∉ tags →
        (TagRegistry.getTagIndices {} tags).2.getTagIndex T =
          (none, (TagRegistry.getTagIndices {} tags).2)) ∧
      (T ∈ tags →
        (TagRegistry.getTagIndices {} tags).2.getTagIndex T =
          (some (tags.indexOf T), (TagRegistry.getTagIndices {} tags).2)) := by
  obtain ⟨h1, h2, h3⟩ := getTagIndices_of_nodup tags hnodup (by rw [hlen]; decide)
  rw [hlen] at h1 h2
  refine ⟨h1, h2, ?_, ?_⟩
  · intro hT
    apply getTagIndex_of_full
    · rw [h3, if_neg hT]
    · rw [h2]
      decide
  · intro hT
    apply getTagIndex_of_registered
    rw [h3, if_pos hT]

/-- C19, an instance: the tags `t0`, ..., `t31`, then `t32`, which is refused, and `t5`
again. -/
theorem registry_capacity_witness :
    (TagRegistry.getTagIndices {} Tag.sample).1 = (List.range 32).map some ∧
      (TagRegistry.getTagIndices {} Tag.sample).2.tagCount = 32 ∧
      (TagRegistry.getTagIndices {} Tag.sample).2.getTagIndex ⟨"t32"⟩ =
        (none, (TagRegistry.getTagIndices {} Tag.sample).2) ∧
      (TagRegistry.getTagIndices {} Tag.sample).2.getTagIndex ⟨"t5"⟩ =
        (some 5, (TagRegistry.getTagIndices {} Tag.sample).2) :=
  ⟨(registry_capacity Tag.sample ⟨"t32"⟩ (by decide) (by decide)).1,
    (registry_capacity Tag.sample ⟨"t32"⟩ (by decide) (by decide)).2.1,
    (registry_capacity Tag.sample ⟨"t32"⟩ (by decide) (by decide)).2.2.1 (by decide),
    (registry_capacity Tag.sample ⟨"t5"⟩ (by decide) (by decide)).2.2.2 (by decide)⟩

/-! ## Taggable objects -/

theorem unorderedMap_mem_of_find {κ β : Type} [DecidableEq κ] (m : UnorderedMap κ β) (k : κ)
    (v : β) (h : m.find k = some v) : (k, v) ∈ m := by
  induction m with
  | nil => simp [UnorderedMap.find] at h
  | cons e rest ih =>
    rw [unorderedMap_find_cons] at h
    by_cases hk : e.1 = k
    · rw [if_pos hk] at h
      have hv : e.2 = v := by simpa using h
      have : e = (k, v) := by
        cases e
        simp_all
      rw [this]
      exact List.mem_cons_self _ _
    · rw [if_neg hk] at h
      exact List.mem_cons_of_mem _ (ih h)

theorem unorderedMap_mem_insert {κ β : Type} [DecidableEq κ] (m : UnorderedMap κ β) (k : κ)
    (v : β) (e : κ × β) (he : e ∈ m.insert k v) : e = (k, v) ∨ e ∈ m := by
  unfold UnorderedMap.insert at he
  split at he
  · obtain ⟨x, hx, hxe⟩ := List.mem_map.mp he
    by_cases hk : (x.1 == k) = true
    · rw [if_pos hk] at hxe
      exact Or.inl hxe.symm
    · rw [if_neg hk] at hxe
      exact Or.inr (hxe ▸ hx)
  · rcases List.mem_append.mp he with h | h
    · exact Or.inr h
    · exact Or.inl (List.mem_singleton.mp h)

theorem indicesInRange_call (r : TagRegistry) (c : RegistryCall) (h : r.IndicesInRange) :
    (r.call c).IndicesInRange := by
  cases c with
  | getTagIndex tag =>
    simp only [TagRegistry.call, TagRegistry.getTagIndex]
    split
    · exact h
    · split
      · exact h
      · rename_i hsize
        intro e he
        rcases unorderedMap_mem_insert _ _ _ e he with h1 | h1
        · rw [h1]
          exact Nat.lt_of_not_le hsize
        · exact h e h1
  | unregisterTag tag =>
    simp only [TagRegistry.call, TagRegistry.unregisterTag]
    split
    · exact fun e he => h e (List.mem_of_mem_filter he)
    · exact h
  | unregisterAllTags => exact fun e he => nomatch he

/-- In every registry reached from the empty one, each index is the position of a bit of the
bitmask. -/
theorem indicesInRange_replay (calls : List RegistryCall) :
    (TagRegistry.replay calls).IndicesInRange := by
  have hgen : ∀ (l : List RegistryCall) (r : TagRegistry), r.IndicesInRange →
      (l.foldl TagRegistry.call r).IndicesInRange := by
    intro l
    induction l with
    | nil => exact fun r h => h
    | cons c rest ih => exact fun r h => ih _ (indicesInRange_call r c h)
  exact hgen calls {} (fun e he => nomatch he)

theorem tagBitMask_set_test_self (m i : Nat) : Nat.testBit (m ||| 2 ^ i) i = true := by
  rw [Nat.testBit_or, Nat.testBit_two_pow_self, Bool.or_true]

theorem tagBitMask_set_test_other (m i j : Nat) (h : i ≠ j) :
    Nat.testBit (m ||| 2 ^ i) j = Nat.testBit m j := by
  rw [Nat.testBit_or, Nat.testBit_two_pow_of_ne h, Bool.or_false]

theorem tagBitMask_reset_test_self (m i : Nat) :
    Nat.testBit (m ^^^ (m &&& 2 ^ i)) i = false := by
  rw [Nat.testBit_xor, Nat.testBit_and, Nat.testBit_two_pow_self, Bool.and_true]
  cases Nat.testBit m i <;> rfl

theorem tagBitMask_reset_test_other (m i j : Nat) (h : i ≠ j) :
    Nat.testBit (m ^^^ (m &&& 2 ^ i)) j = Nat.testBit m j := by
  rw [Nat.testBit_xor, Nat.testBit_and, Nat.testBit_two_pow_of_ne h, Bool.and_false]
  cases Nat.testBit m j <;> rfl

theorem taggable_hasTag_of_registered (x : Taggable) (r : TagRegistry) (T : Tag) (i : Nat)
    (hT : r.tagIndices.find T = some i) (hi : i < MaxTags) :
    x.hasTag r T = some (Nat.testBit x.tagMask i, r) := by
  simp only [Taggable.hasTag, getTagIndex_of_registered r T i hT, TagBitMask.test, hi, if_true]

theorem taggable_addTag_of_registered (x : Taggable) (r : TagRegistry) (T : Tag) (i : Nat)
    (hT : r.tagIndices.find T = some i) (hi : i < MaxTags) :
    x.addTag r T = some ({ tagMask := x.tagMask ||| 2 ^ i }, r) := by
  simp only [Taggable.addTag, getTagIndex_of_registered r T i hT, TagBitMask.set, hi, if_true]

theorem taggable_removeTag_of_registered (x : Taggable) (r : TagRegistry) (T : Tag) (i : Nat)
    (hT : r.tagIndices.find T = some i) (hi : i < MaxTags) :
    x.removeTag r T = some ({ tagMask := x.tagMask ^^^ (x.tagMask &&& 2 ^ i) }, r) := by
  simp only [Taggable.removeTag, getTagIndex_of_registered r T i hT, TagBitMask.reset, hi,
    if_true]

/-- C20. For every object `x` and tags `T` and `U` registered with distinct indices, in a
registry whose indices are bit positions (as in every registry reached from the empty one), none
of the calls fails or changes the registry, and: after `x.addTag<T>()` `hasTag<T>()` is true,
after `x.removeTag<T>()` it is false, after `x.toggleTag<T>()` it is the negation of what it was,
and after each of the three `hasTag<U>()` is what it was. -/
theorem taggable_membership (x : Taggable) (r : TagRegistry) (T U : Tag) (i j : Nat)
    (hrange : r.IndicesInRange) (hT : r.tagIndices.find T = some i)
    (hU : r.tagIndices.find U = some j) (hij : i ≠ j) :
    ∃ b c : Bool, x.hasTag r T = some (b, r) ∧ x.hasTag r U = some (c, r) ∧
      (∃ x1, x.addTag r T = some (x1, r) ∧ x1.hasTag r T = some (true, r) ∧
        x1.hasTag r U = some (c, r)) ∧
      (∃ x2, x.removeTag r T = some (x2, r) ∧ x2.hasTag r T = some (false, r) ∧
        x2.hasTag r U = some (c, r)) ∧
      ∃ x3, x.toggleTag r T = some (x3, r) ∧ x3.hasTag r T = some (!b, r) ∧
        x3.hasTag r U = some (c, r) := by
  have hi : i < MaxTags := hrange _ (unorderedMap_mem_of_find _ _ _ hT)
  have hj : j < MaxTags := hrange _ (unorderedMap_mem_of_find _ _ _ hU)
  refine ⟨Nat.testBit x.tagMask i, Nat.testBit x.tagMask j,
    taggable_hasTag_of_registered x r T i hT hi, taggable_hasTag_of_registered x r U j hU hj,
    ⟨_, taggable_addTag_of_registered x r T i hT hi, ?_, ?_⟩,
    ⟨_, taggable_removeTag_of_registered x r T i hT hi, ?_, ?_⟩, ?_⟩
  · rw [taggable_hasTag_of_registered _ r T i hT hi, tagBitMask_set_test_self]
  · rw [taggable_hasTag_of_registered _ r U j hU hj, tagBitMask_set_test_other _ _ _ hij]
  · rw [taggable_hasTag_of_registered _ r T i hT hi, tagBitMask_reset_test_self]
  · rw [taggable_hasTag_of_registered _ r U j hU hj, tagBitMask_reset_test_other _ _ _ hij]
  · simp only [Taggable.toggleTag, taggable_hasTag_of_registered x r T i hT hi]
    cases hb : Nat.testBit x.tagMask i with
    | false =>
      refine ⟨_, taggable_addTag_of_registered x r T i hT hi, ?_, ?_⟩
      · rw [taggable_hasTag_of_registered _ r T i hT hi, tagBitMask_set_test_self]
        rfl
      · rw [taggable_hasTag_of_registered _ r U j hU hj, tagBitMask_set_test_other _ _ _ hij]
    | true =>
      refine ⟨_, taggable_removeTag_of_registered x r T i hT hi, ?_, ?_⟩
      · rw [taggable_hasTag_of_registered _ r T i hT hi, tagBitMask_reset_test_self]
        rfl
      · rw [taggable_hasTag_of_registered _ r U j hU hj, tagBitMask_reset_test_other _ _ _ hij]

/-- C20, an instance: an object that carries `B` only, in the registry that holds `A` with
index 0 and `B` with index 1; the tag `A` is added, removed and toggled. -/
theorem taggable_membership_witness :
    ∃ b c : Bool,
      Taggable.hasTag { tagMask := 2 }
          (TagRegistry.replay [.getTagIndex ⟨"A"⟩, .getTagIndex ⟨"B"⟩]) ⟨"A"⟩ =
        some (b, TagRegistry.replay [.getTagIndex ⟨"A"⟩, .getTagIndex ⟨"B"⟩]) ∧
      Taggable.hasTag { tagMask := 2 }
          (TagRegistry.replay [.getTagIndex ⟨"A"⟩, .getTagIndex ⟨"B"⟩]) ⟨"B"⟩ =
        some (c, TagRegistry.replay [.getTagIndex ⟨"A"⟩, .getTagIndex ⟨"B"⟩]) ∧
      (∃ x1, Taggable.addTag { tagMask := 2 }
            (TagRegistry.replay [.getTagIndex ⟨"A"⟩, .getTagIndex ⟨"B"⟩]) ⟨"A"⟩ =
          some (x1, TagRegistry.replay [.getTagIndex ⟨"A"⟩, .getTagIndex ⟨"B"⟩]) ∧
        x1.hasTag (TagRegistry.replay [.getTagIndex ⟨"A"⟩, .getTagIndex ⟨"B"⟩]) ⟨"A"⟩ =
          some (true, TagRegistry.replay [.getTagIndex ⟨"A"⟩, .getTagIndex ⟨"B"⟩]) ∧
        x1.hasTag (TagRegistry.replay [.getTagIndex ⟨"A"⟩, .getTagIndex ⟨"B"⟩]) ⟨"B"⟩ =
          some (c, TagRegistry.replay [.getTagIndex ⟨"A"⟩, .getTagIndex ⟨"B"⟩])) ∧
      (∃ x2, Taggable.removeTag { tagMask := 2 }
            (TagRegistry.replay [.getTagIndex ⟨"A"⟩, .getTagIndex ⟨"B"⟩]) ⟨"A"⟩ =
          some (x2, TagRegistry.replay [.getTagIndex ⟨"A"⟩, .getTagIndex ⟨"B"⟩]) ∧
        x2.hasTag (TagRegistry.replay [.getTagIndex ⟨"A"⟩, .getTagIndex ⟨"B"⟩]) ⟨"A"⟩ =
          some (false, TagRegistry.replay [.getTagIndex ⟨"A"⟩, .getTagIndex ⟨"B"⟩]) ∧
        x2.hasTag (TagRegistry.replay [.getTagIndex ⟨"A"⟩, .getTagIndex ⟨"B"⟩]) ⟨"B"⟩ =
          some (c, TagRegistry.replay [.getTagIndex ⟨"A"⟩, .getTagIndex ⟨"B"⟩])) ∧
      ∃ x3, Taggable.toggleTag { tagMask := 2 }
            (TagRegistry.replay [.getTagIndex ⟨"A"⟩, .getTagIndex ⟨"B"⟩]) ⟨"A"⟩ =
          some (x3, TagRegistry.replay [.getTagIndex ⟨"A"⟩, .getTagIndex ⟨"B"⟩]) ∧
        x3.hasTag (TagRegistry.replay [.getTagIndex ⟨"A"⟩, .getTagIndex ⟨"B"⟩]) ⟨"A"⟩ =
          some (!b, TagRegistry.replay [.getTagIndex ⟨"A"⟩, .getTagIndex ⟨"B"⟩]) ∧
        x3.hasTag (TagRegistry.replay [.getTagIndex ⟨"A"⟩, .getTagIndex ⟨"B"⟩]) ⟨"B"⟩ =
          some (c, TagRegistry.replay [.getTagIndex ⟨"A"⟩, .getTagIndex ⟨"B"⟩]) :=
  taggable_membership { tagMask := 2 }
    (TagRegistry.replay [.getTagIndex ⟨"A"⟩, .getTagIndex ⟨"B"⟩]) ⟨"A"⟩ ⟨"B"⟩ 0 1
    (indicesInRange_replay _) (by decide) (by decide) (by decide)

theorem taggable_sample_evaluates :
    Taggable.toggleTag { tagMask := 2 }
        (TagRegistry.replay [.getTagIndex ⟨"A"⟩, .getTagIndex ⟨"B"⟩]) ⟨"A"⟩ =
      some ({ tagMask := 3 }, TagRegistry.replay [.getTagIndex ⟨"A"⟩, .getTagIndex ⟨"B"⟩]) ∧
      Taggable.removeTag { tagMask := 3 }
        (TagRegistry.replay [.getTagIndex ⟨"A"⟩, .getTagIndex ⟨"B"⟩]) ⟨"B"⟩ =
      some ({ tagMask := 1 }, TagRegistry.replay [.getTagIndex ⟨"A"⟩, .getTagIndex ⟨"B"⟩]) := by
  decide

/-! ## Tag queries, moves and merges -/

/-- C21 as stated fails. On the empty registry `hasTag<A>()` on an object without tags returns
false and registers `A`: the tag count goes from 0 to 1 and `A` gets the index 0; `hasTags`,
`hasAnyOfTags` and `hasNoneOfTags` with the pack `A` do the same. On the registry that holds
`t0`, ..., `t31`, `hasTag<t32>()` does not return: `getTagIndex` throws inside the `noexcept`
member. -/
theorem hasTag_registers_unseen_tag :
    (Taggable.hasTag {} {} ⟨"A"⟩).map (fun res => (res.1, res.2.tagCount)) = some (false, 1) ∧
      (Taggable.hasTag {} {} ⟨"A"⟩).map (fun res => res.2.tagIndices.find ⟨"A"⟩) =
        some (some 0) ∧
      (Taggable.hasTags {} {} [⟨"A"⟩]).map (fun res => (res.1, res.2.tagCount)) =
        some (false, 1) ∧
      (Taggable.hasAnyOfTags {} {} [⟨"A"⟩]).map (fun res => (res.1, res.2.tagCount)) =
        some (false, 1) ∧
      (Taggable.hasNoneOfTags {} {} [⟨"A"⟩]).map (fun res => (res.1, res.2.tagCount)) =
        some (true, 1) ∧
      Taggable.hasTag {} (TagRegistry.getTagIndices {} Tag.sample).2 ⟨"t32"⟩ = none := by
  decide

theorem taggable_hasTag_some_of_registered (x : Taggable) (r : TagRegistry) (T : Tag)
    (hrange : r.IndicesInRange) (hT : (r.tagIndices.find T).isSome = true) :
    ∃ b : Bool, x.hasTag r T = some (b, r) := by
  cases hf : r.tagIndices.find T with
  | none => simp [hf] at hT
  | some i =>
    exact ⟨_, taggable_hasTag_of_registered x r T i hf
      (hrange _ (unorderedMap_mem_of_find _ _ _ hf))⟩

theorem taggable_hasTags_of_registered (x : Taggable) (r : TagRegistry) (tags : List Tag)
    (hrange : r.IndicesInRange) (htags : ∀ U ∈ tags, (r.tagIndices.find U).isSome = true) :
    x.hasTags r tags = some (tags.all fun U => x.hasTag r U == some (true, r), r) := by
  induction tags with
  | nil => rfl
  | cons U rest ih =>
    obtain ⟨b, hb⟩ := taggable_hasTag_some_of_registered x r U hrange
      (htags U (List.mem_cons_self _ _))
    have ih2 := ih (fun V hV => htags V (List.mem_cons_of_mem _ hV))
    cases b with
    | true => simp [Taggable.hasTags, hb, ih2]
    | false => simp [Taggable.hasTags, hb]

theorem taggable_hasAnyOfTags_of_registered (x : Taggable) (r : TagRegistry)
    (tags : List Tag) (hrange : r.IndicesInRange)
    (htags : ∀ U ∈ tags, (r.tagIndices.find U).isSome = true) :
    x.hasAnyOfTags r tags = some (tags.any fun U => x.hasTag r U == some (true, r), r) := by
  induction tags with
  | nil => rfl
  | cons U rest ih =>
    obtain ⟨b, hb⟩ := taggable_hasTag_some_of_registered x r U hrange
      (htags U (List.mem_cons_self _ _))
    have ih2 := ih (fun V hV => htags V (List.mem_cons_of_mem _ hV))
    cases b with
    | true => simp [Taggable.hasAnyOfTags, hb]
    | false => simp [Taggable.hasAnyOfTags, hb, ih2]

/-- C21 (amended). For every object, every registry whose indices are bit positions and all tags
that are registered in it, `hasTag`, `hasTags`, `hasAnyOfTags` and `hasNoneOfTags` return and
leave the registry as it is (the object is `const` to them): `hasTags` is true when `hasTag` is
true for every tag of the pack, `hasAnyOfTags` when it is for some tag, and `hasNoneOfTags` is
the negation of `hasAnyOfTags`. -/
theorem tag_queries_of_registered_tags (x : Taggable) (r : TagRegistry) (T : Tag)
    (tags : List Tag) (hrange : r.IndicesInRange)
    (hT : (r.tagIndices.find T).isSome = true)
    (htags : ∀ U ∈ tags, (r.tagIndices.find U).isSome = true) :
    (∃ b : Bool, x.hasTag r T = some (b, r)) ∧
      x.hasTags r tags = some (tags.all fun U => x.hasTag r U == some (true, r), r) ∧
      x.hasAnyOfTags r tags = some (tags.any fun U => x.hasTag r U == some (true, r), r) ∧
      x.hasNoneOfTags r tags =
        some (!tags.any fun U => x.hasTag r U == some (true, r), r) := by
  refine ⟨taggable_hasTag_some_of_registered x r T hrange hT,
    taggable_hasTags_of_registered x r tags hrange htags,
    taggable_hasAnyOfTags_of_registered x r tags hrange htags, ?_⟩
  simp only [Taggable.hasNoneOfTags, taggable_hasAnyOfTags_of_registered x r tags hrange htags]

/-- C21 (amended), an instance: an object that carries `A` only, in the registry that holds `A`
with index 0 and `B` with index 1, queried for `A` and for the pack `A`, `B`. -/
theorem tag_queries_of_registered_tags_witness :
    Taggable.hasTags { tagMask := 1 }
        (TagRegistry.replay [.getTagIndex ⟨"A"⟩, .getTagIndex ⟨"B"⟩]) [⟨"A"⟩, ⟨"B"⟩] =
      some (false, TagRegistry.replay [.getTagIndex ⟨"A"⟩, .getTagIndex ⟨"B"⟩]) ∧
      Taggable.hasAnyOfTags { tagMask := 1 }
        (TagRegistry.replay [.getTagIndex ⟨"A"⟩, .getTagIndex ⟨"B"⟩]) [⟨"A"⟩, ⟨"B"⟩] =
      some (true, TagRegistry.replay [.getTagIndex ⟨"A"⟩, .getTagIndex ⟨"B"⟩]) ∧
      Taggable.hasNoneOfTags { tagMask := 1 }
        (TagRegistry.replay [.getTagIndex ⟨"A"⟩, .getTagIndex ⟨"B"⟩]) [⟨"A"⟩, ⟨"B"⟩] =
      some (false, TagRegistry.replay [.getTagIndex ⟨"A"⟩, .getTagIndex ⟨"B"⟩]) :=
  ⟨(tag_queries_of_registered_tags { tagMask := 1 }
      (TagRegistry.replay [.getTagIndex ⟨"A"⟩, .getTagIndex ⟨"B"⟩]) ⟨"A"⟩ [⟨"A"⟩, ⟨"B"⟩]
      (indicesInRange_replay _) (by decide) (by decide)).2.1.trans (by decide),
    (tag_queries_of_registered_tags { tagMask := 1 }
      (TagRegistry.replay [.getTagIndex ⟨"A"⟩, .getTagIndex ⟨"B"⟩]) ⟨"A"⟩ [⟨"A"⟩, ⟨"B"⟩]
      (indicesInRange_replay _) (by decide) (by decide)).2.2.1.trans (by decide),
    (tag_queries_of_registered_tags { tagMask := 1 }
      (TagRegistry.replay [.getTagIndex ⟨"A"⟩, .getTagIndex ⟨"B"⟩]) ⟨"A"⟩ [⟨"A"⟩, ⟨"B"⟩]
      (indicesInRange_replay _) (by decide) (by decide)).2.2.2.trans (by decide)⟩

/-- C22 at a failing input. The registry holds `A` with index 0 and `B` with index 1, the source
carries `B` and the destination nothing. The free function `moveTagsFrom(destination, source)`
copies the bitmask and clears the source, and it empties the registry: afterwards no tag is
registered, and `destination.hasTag<B>()` registers `B` anew with index 0 and is false, so the
tag that was moved is lost. The member `destination.MoveTagsFrom(source)` leaves the same
bitmasks and does not touch the registry, in which `destination.hasTag<B>()` is true. -/
theorem moveTagsFrom_resets_registry :
    (TagRegistry.replay [.getTagIndex ⟨"A"⟩, .getTagIndex ⟨"B"⟩]).tagCount = 2 ∧
      (moveTagsFrom {} { tagMask := 2 }
        (TagRegistry.replay [.getTagIndex ⟨"A"⟩, .getTagIndex ⟨"B"⟩])).1 = { tagMask := 2 } ∧
      (moveTagsFrom {} { tagMask := 2 }
        (TagRegistry.replay [.getTagIndex ⟨"A"⟩, .getTagIndex ⟨"B"⟩])).2.1 = { tagMask := 0 } ∧
      (moveTagsFrom {} { tagMask := 2 }
        (TagRegistry.replay [.getTagIndex ⟨"A"⟩, .getTagIndex ⟨"B"⟩])).2.2.tagCount = 0 ∧
      ((moveTagsFrom {} { tagMask := 2 }
        (TagRegistry.replay [.getTagIndex ⟨"A"⟩, .getTagIndex ⟨"B"⟩])).1.hasTag
          (moveTagsFrom {} { tagMask := 2 }
            (TagRegistry.replay [.getTagIndex ⟨"A"⟩, .getTagIndex ⟨"B"⟩])).2.2 ⟨"B"⟩).map
        (fun res => (res.1, res.2.tagIndices.find ⟨"B"⟩)) = some (false, some 0) ∧
      Taggable.MoveTagsFrom {} { tagMask := 2 } = ({ tagMask := 2 }, { tagMask := 0 }) ∧
      (Taggable.MoveTagsFrom {} { tagMask := 2 }).1.hasTag
          (TagRegistry.replay [.getTagIndex ⟨"A"⟩, .getTagIndex ⟨"B"⟩]) ⟨"B"⟩ =
        some (true, TagRegistry.replay [.getTagIndex ⟨"A"⟩, .getTagIndex ⟨"B"⟩]) := by
  decide

theorem tagBitMask_or_and_self (a b : Nat) : (a ||| b) &&& b = b := by
  apply Nat.eq_of_testBit_eq
  intro i
  rw [Nat.testBit_and, Nat.testBit_or]
  cases Nat.testBit a i <;> cases Nat.testBit b i <;> rfl

/-- C23. For all tag sets `a` and `b`: `hasAllTagsOf(a, a)` and `haveSameTags(a, a)` are true;
after `a.mergeTagsFrom(b)` the object carries bit `i` exactly when `a` or `b` carried it, and
`hasAllTagsOf` of the result and `b` is true; the free function `mergeTagsFrom(a, b)` gives the
same object. Both take `b` as `const` and leave it as it is. -/
theorem tag_bitmask_laws (a b : Taggable) :
    hasAllTagsOf a a = true ∧ haveSameTags a a = true ∧
      (∀ i, Nat.testBit (a.mergeTagsFrom b).getTagBitMask i =
        (Nat.testBit a.getTagBitMask i || Nat.testBit b.getTagBitMask i)) ∧
      hasAllTagsOf (a.mergeTagsFrom b) b = true ∧
      mergeTagsFrom a b = a.mergeTagsFrom b := by
  refine ⟨?_, ?_, ?_, ?_, rfl⟩
  · simp [hasAllTagsOf, Taggable.getTagBitMask]
  · simp [haveSameTags]
  · intro i
    simp only [Taggable.mergeTagsFrom, Taggable.getTagBitMask, Nat.testBit_or]
  · simp only [hasAllTagsOf, Taggable.mergeTagsFrom, Taggable.getTagBitMask,
      tagBitMask_or_and_self, beq_self_eq_true]

/-- C26 at a failing input. `registerTag<A>()`, then `TagRegistry::unregisterAllTags()`, then
`registerTag<C>()`: `C` takes the index 0 that `A` had, and its closure replaces the closure of
`A` in `indexToApply`. `apply("A", t)` on an object without tags then returns true and adds `C`:
afterwards `t.hasTag<C>()` is true, while `t.hasTag<A>()` registers `A` with index 1 and is
false. -/
theorem apply_adds_another_tag_after_unregisterAllTags :
    (TagApplicator.replay ApplicatorCall.sample).map (fun st => st.1.nameToIndex.find "A") =
        some (some 0) ∧
      (TagApplicator.replay ApplicatorCall.sample).map (fun st => st.1.indexToApply.find 0) =
        some (some ⟨"C"⟩) ∧
      (TagApplicator.replay ApplicatorCall.sample).map
          (fun st => (st.2.tagIndices.find ⟨"A"⟩, st.2.tagIndices.find ⟨"C"⟩)) =
        some (none, some 0) ∧
      ((TagApplicator.replay ApplicatorCall.sample).bind
          fun st => st.1.apply st.2 "A" {}).map (fun res => (res.1, res.2.1)) =
        some (true, { tagMask := 1 }) ∧
      ((TagApplicator.replay ApplicatorCall.sample).bind
          fun st => (st.1.apply st.2 "A" {}).bind
            fun res => res.2.1.hasTag res.2.2 ⟨"C"⟩).map (fun h => h.1) = some true ∧
      ((TagApplicator.replay ApplicatorCall.sample).bind
          fun st => (st.1.apply st.2 "A" {}).bind
            fun res => res.2.1.hasTag res.2.2 ⟨"A"⟩).map
          (fun h => (h.1, h.2.tagIndices.find ⟨"A"⟩)) = some (false, some 1) := by
  decide

/-- C27 at a failing input. The registry holds `A` with index 0 and `B` with index 1, and the
object carries `B` (bit 1). After `unregisterTag<A>()` the tag count is 1, so the loop of
`tags()` visits index 0 only and returns no name, although `B` is registered with index 1 and
`hasTag<B>()` is true. -/
theorem tags_misses_index_beyond_tagCount :
    ((TagRegistry.replay [.getTagIndex ⟨"A"⟩, .getTagIndex ⟨"B"⟩]).unregisterTag
        ⟨"A"⟩).tagCount = 1 ∧
      ((TagRegistry.replay [.getTagIndex ⟨"A"⟩, .getTagIndex ⟨"B"⟩]).unregisterTag
        ⟨"A"⟩).tagIndices.find ⟨"B"⟩ = some 1 ∧
      (Taggable.hasTag { tagMask := 2 }
        ((TagRegistry.replay [.getTagIndex ⟨"A"⟩, .getTagIndex ⟨"B"⟩]).unregisterTag ⟨"A"⟩)
        ⟨"B"⟩).map (fun res => res.1) = some true ∧
      Taggable.tags { tagMask := 2 }
        ((TagRegistry.replay [.getTagIndex ⟨"A"⟩, .getTagIndex ⟨"B"⟩]).unregisterTag ⟨"A"⟩) =
        some [] ∧
      Taggable.tags { tagMask := 2 }
        (TagRegistry.replay [.getTagIndex ⟨"A"⟩, .getTagIndex ⟨"B"⟩]) = some ["B"] := by
  decide

theorem getTagIndex_lt_maxTags (r : TagRegistry) (hr : r.IndicesInRange) (T : Tag) (i : Nat)
    (r1 : TagRegistry) (h : r.getTagIndex T = (some i, r1)) : i < MaxTags := by
  cases hf : r.tagIndices.find T with
  | some j =>
    rw [getTagIndex_of_registered r T j hf] at h
    have hij : j = i := by simpa using congrArg (fun p => p.1) h
    rw [← hij]
    exact hr _ (unorderedMap_mem_of_find _ _ _ hf)
  | none =>
    by_cases hroom : r.tagCount < MaxTags
    · rw [getTagIndex_of_unregistered r T hf hroom] at h
      have hij : r.tagCount = i := by simpa using congrArg (fun p => p.1) h
      rw [← hij]
      exact hroom
    · rw [getTagIndex_of_full r T hf (Nat.le_of_not_lt hroom)] at h
      have : (none : Option Nat) = some i := congrArg (fun p => p.1) h
      cases this

theorem tagCount_le_call (r : TagRegistry) (c : RegistryCall) (h : r.tagCount ≤ MaxTags) :
    (r.call c).tagCount ≤ MaxTags := by
  cases c with
  | getTagIndex tag =>
    simp only [TagRegistry.call]
    cases hf : r.tagIndices.find tag with
    | some j =>
      rw [getTagIndex_of_registered r tag j hf]
      exact h
    | none =>
      by_cases hroom : r.tagCount < MaxTags
      · rw [getTagIndex_of_unregistered r tag hf hroom]
        simp only [TagRegistry.tagCount, UnorderedMap.size, List.length_append,
          List.length_singleton] at hroom ⊢
        omega
      · rw [getTagIndex_of_full r tag hf (Nat.le_of_not_lt hroom)]
        exact h
  | unregisterTag tag =>
    simp only [TagRegistry.call, TagRegistry.unregisterTag]
    split
    · simp only [TagRegistry.tagCount, UnorderedMap.size, UnorderedMap.erase] at h ⊢
      exact Nat.le_trans (List.length_filter_le _ _) h
    · exact h
  | unregisterAllTags => exact Nat.zero_le _

theorem tagCount_le_replay (calls : List RegistryCall) :
    (TagRegistry.replay calls).tagCount ≤ MaxTags := by
  have hgen : ∀ (l : List RegistryCall) (r : TagRegistry), r.tagCount ≤ MaxTags →
      (l.foldl TagRegistry.call r).tagCount ≤ MaxTags := by
    intro l
    induction l with
    | nil => exact fun r h => h
    | cons c rest ih => exact fun r h => ih _ (tagCount_le_call r c h)
  exact hgen calls {} (Nat.zero_le _)

theorem tagBitMask_access_of_lt (m i : Nat) (hi : i < MaxTags) :
    TagBitMask.set m i = some (m ||| 2 ^ i) ∧
      TagBitMask.reset m i = some (m ^^^ (m &&& 2 ^ i)) ∧
      TagBitMask.test m i = some (Nat.testBit m i) := by
  simp only [TagBitMask.set, TagBitMask.reset, TagBitMask.test, hi, if_true, and_self]

/-- C29. In every registry reached from the empty one by `getTagIndex`, `unregisterTag` and
`unregisterAllTags` calls: `tagCount()` is at most 32; every index recorded for a tag is below
32; every index that `getTagIndex` returns is below 32, so that `set`, `reset` and `test` of the
bitmask at that index do not throw; and `addTag`, `removeTag` and `hasTag` fail exactly when
`getTagIndex` returns no index. -/
theorem registry_indices_in_range (calls : List RegistryCall) (x : Taggable) (T : Tag) :
    (TagRegistry.replay calls).tagCount ≤ 32 ∧
      (∀ U i, (TagRegistry.replay calls).tagIndices.find U = some i → i < 32) ∧
      (∀ i r1, (TagRegistry.replay calls).getTagIndex T = (some i, r1) →
        i < 32 ∧ (TagBitMask.set x.tagMask i).isSome = true ∧
          (TagBitMask.reset x.tagMask i).isSome = true ∧
          (TagBitMask.test x.tagMask i).isSome = true) ∧
      (x.addTag (TagRegistry.replay calls) T).isSome =
        ((TagRegistry.replay calls).getTagIndex T).1.isSome ∧
      (x.removeTag (TagRegistry.replay calls) T).isSome =
        ((TagRegistry.replay calls).getTagIndex T).1.isSome ∧
      (x.hasTag (TagRegistry.replay calls) T).isSome =
        ((TagRegistry.replay calls).getTagIndex T).1.isSome := by
  have hr := indicesInRange_replay calls
  have hacc : ∀ i r1, (TagRegistry.replay calls).getTagIndex T = (some i, r1) →
      i < MaxTags := fun i r1 h => getTagIndex_lt_maxTags _ hr T i r1 h
  refine ⟨tagCount_le_replay calls,
    fun U i h => hr _ (unorderedMap_mem_of_find _ _ _ h), ?_, ?_, ?_, ?_⟩
  · intro i r1 h
    have hi := hacc i r1 h
    have ha := tagBitMask_access_of_lt x.tagMask i hi
    exact ⟨hi, by rw [ha.1]; rfl, by rw [ha.2.1]; rfl, by rw [ha.2.2]; rfl⟩
  · cases hg : (TagRegistry.replay calls).getTagIndex T with
    | mk res r1 =>
      cases res with
      | none => simp [Taggable.addTag, hg]
      | some i =>
        have ha := tagBitMask_access_of_lt x.tagMask i (hacc i r1 hg)
        simp [Taggable.addTag, hg, ha.1]
  · cases hg : (TagRegistry.replay calls).getTagIndex T with
    | mk res r1 =>
      cases res with
      | none => simp [Taggable.removeTag, hg]
      | some i =>
        have ha := tagBitMask_access_of_lt x.tagMask i (hacc i r1 hg)
        simp [Taggable.removeTag, hg, ha.2.1]
  · cases hg : (TagRegistry.replay calls).getTagIndex T with
    | mk res r1 =>
      cases res with
      | none => simp [Taggable.hasTag, hg]
      | some i =>
        have ha := tagBitMask_access_of_lt x.tagMask i (hacc i r1 hg)
        simp [Taggable.hasTag, hg, ha.2.2]

/-- C29, an instance: the registry after `A`, `B`, the removal of `A`, and `C`. -/
theorem registry_indices_in_range_witness :
    (TagRegistry.replay [.getTagIndex ⟨"A"⟩, .getTagIndex ⟨"B"⟩, .unregisterTag ⟨"A"⟩,
        .getTagIndex ⟨"C"⟩]).tagCount ≤ 32 ∧
      (1 < 32 ∧ (TagBitMask.set 0 1).isSome = true ∧ (TagBitMask.reset 0 1).isSome = true ∧
        (TagBitMask.test 0 1).isSome = true) :=
  ⟨(registry_indices_in_range [.getTagIndex ⟨"A"⟩, .getTagIndex ⟨"B"⟩, .unregisterTag ⟨"A"⟩,
      .getTagIndex ⟨"C"⟩] {} ⟨"C"⟩).1,
    (registry_indices_in_range [.getTagIndex ⟨"A"⟩, .getTagIndex ⟨"B"⟩, .unregisterTag ⟨"A"⟩,
      .getTagIndex ⟨"C"⟩] {} ⟨"C"⟩).2.2.1 1 _ rfl⟩

/-! ## Setters called twice -/

theorem idempotentSetters_of_setterContract {M P C : Type} [DecidableEq P]
    (set : M → C → M × List C) (get : M → P → C) (property : C → P) (eq : C → C → Bool)
    (h : SetterContract set get property eq) : IdempotentSetters set get property eq := by
  intro m c hc
  have h1 := h m c
  by_cases he : eq (get m (property c)) c = true
  · rw [if_pos he] at h1
    rw [h1]
    exact ⟨Or.inl rfl, h1⟩
  · rw [if_neg he] at h1
    have hget : get (set m c).1 (property c) = c := by
      rw [h1.2 (property c), if_pos rfl]
    have h2 := h (set m c).1 c
    rw [hget, if_pos hc] at h2
    exact ⟨Or.inr ⟨h1.1, by simpa using he⟩, h2⟩

/-- C24 as stated fails: `set_rotation(NaN)` called twice on a new item model notifies
`rotation_changed` in both calls, as the guard `rotation_ == r` is false for NaN also after NaN
is stored; so does `Property<double>::set(NaN)`, whose guard is `value != m_value`. -/
theorem set_rotation_nan_notifies_twice :
    ((({} : AbstractItemModel).set (.rotation .nan)).2 = [.rotation .nan]) ∧
      (((({} : AbstractItemModel).set (.rotation .nan)).1.set (.rotation .nan)).2 =
        [.rotation .nan]) ∧
      (Property.set Double.ne ⟨Double.zero⟩ .nan).2 = [.nan] ∧
      (Property.set Double.ne (Property.set Double.ne ⟨Double.zero⟩ .nan).1 .nan).2 =
        [.nan] := by
  decide

/-- C24 (amended). For every property of the six data models, every model state and every value
that equals itself under the equality of the property type: of two calls of the setter in a row
with that value, the first notifies the change signal at most once, and only when the value
stored before differs from it, the second notifies nothing, and the state after the second call
is the state after the first. `Property<T>::set` behaves so for every value `v` for which
`v != v` is false. -/
theorem setters_idempotent_on_reflexive_values :
    IdempotentSetters AbstractItemModel.set AbstractItemModel.get ItemChange.property
        ItemChange.eq ∧
      IdempotentSetters AbstractPathModel.set AbstractPathModel.get PathChange.property
        PathChange.eq ∧
      IdempotentSetters ConnectionPathModel.set ConnectionPathModel.get
        ConnectionChange.property ConnectionChange.eq ∧
      IdempotentSetters PortItemModel.set PortItemModel.get PortChange.property
        PortChange.eq ∧
      IdempotentSetters NodeItemModel.set NodeItemModel.get NodeChange.property
        NodeChange.eq ∧
      IdempotentSetters EditableArrowItemModel.set EditableArrowItemModel.get
        EditableArrowChange.property EditableArrowChange.eq ∧
      ∀ (T : Type) (ne : T → T → Bool) (p : Property T) (v : T), ne v v = false →
        ((Property.set ne p v).2 = [] ∨
          ((Property.set ne p v).2 = [v] ∧ ne v p.m_value = true)) ∧
        Property.set ne (Property.set ne p v).1 v = ((Property.set ne p v).1, []) := by
  refine ⟨idempotentSetters_of_setterContract _ _ _ _ abstractItemModel_setterContract,
    idempotentSetters_of_setterContract _ _ _ _ abstractPathModel_setterContract,
    idempotentSetters_of_setterContract _ _ _ _ connectionPathModel_setterContract,
    idempotentSetters_of_setterContract _ _ _ _ portItemModel_setterContract,
    idempotentSetters_of_setterContract _ _ _ _ nodeItemModel_setterContract,
    idempotentSetters_of_setterContract _ _ _ _ editableArrowItemModel_setterContract, ?_⟩
  intro T ne p v hv
  by_cases hne : ne v p.m_value = true
  · simp [Property.set, hne, hv]
  · simp [Property.set, hne]

/-- C24 (amended), an instance: `set_pos((1, 2))` twice on a new item model, and
`set_name("in")` twice on a new port model. -/
theorem setters_idempotent_on_reflexive_values_witness :
    (({} : AbstractItemModel).set (.pos ⟨.finite 1 0, .finite 2 0⟩)).2 =
        [.pos ⟨.finite 1 0, .finite 2 0⟩] ∧
      ((({} : AbstractItemModel).set (.pos ⟨.finite 1 0, .finite 2 0⟩)).1.set
          (.pos ⟨.finite 1 0, .finite 2 0⟩)) =
        ((({} : AbstractItemModel).set (.pos ⟨.finite 1 0, .finite 2 0⟩)).1, []) ∧
      ((({} : PortItemModel).set (.name "in")).1.set (.name "in")) =
        ((({} : PortItemModel).set (.name "in")).1, []) :=
  ⟨by decide,
    (setters_idempotent_on_reflexive_values.1 {} (.pos ⟨.finite 1 0, .finite 2 0⟩)
      (by decide)).2,
    (setters_idempotent_on_reflexive_values.2.2.2.1 {} (.name "in") (by decide)).2⟩

/-! ## Selection on a pointer press -/

theorem setSelected_id (item : QGraphicsItem) (b : Bool) : (item.setSelected b).id = item.id := by
  simp only [QGraphicsItem.setSelected, QGraphicsItem.itemChange]
  split <;> [rfl; skip]
  split <;> [rfl; skip]
  split <;> rfl

theorem run_add_fuel {W T : Type} (step : T → W → W × List T) (n k : Nat) (ts : List T)
    (w w1 : W) (h : run step n ts w = some w1) : run step (n + k) ts w = some w1 := by
  induction n generalizing ts w with
  | zero =>
    cases ts with
    | nil =>
      rw [run_nil] at h ⊢
      exact h
    | cons t rest => cases h
  | succ n ih =>
    cases ts with
    | nil =>
      rw [run_nil] at h ⊢
      exact h
    | cons t rest =>
      rw [run_cons] at h
      rw [show n + 1 + k = (n + k) + 1 by omega, run_cons]
      exact ih _ _ h

theorem run_map_add_fuel {W T α : Type} (step : T → W → W × List T) (f : W → α) (n k : Nat)
    (ts : List T) (w : W) (a : α) (h : (run step n ts w).map f = some a) :
    (run step (n + k) ts w).map f = some a := by
  cases hr : run step n ts w with
  | none =>
    rw [hr] at h
    cases h
  | some w1 =>
    rw [hr] at h
    rw [run_add_fuel step n k ts w w1 hr]
    exact h

/-- C28 at a failing input. On a connection presenter bound to a default model and view (both
flags false), `view.setIsActive(true)` stores the flag and calls `set_active(true)`, whose guard
`active_ == a` now holds, so it returns at once: `active_changed` is not notified and the model's
`active()` stays false. `setIsCompatible(true)` does the same with `set_compatible`. Called
directly, `set_active(true)` and `set_compatible(true)` notify once and the model follows. -/
theorem connection_view_flag_setters_notify_nothing :
    (∀ fuel, ((ConnectionPathPresenter.construct {}).callView (fuel + 2) .setIsActive
        (.bool true)).map (fun w => (w.view.active_, w.model.active_, w.log)) =
      some (true, false, [])) ∧
    (∀ fuel, ((ConnectionPathPresenter.construct {}).callView (fuel + 2) .setIsCompatible
        (.bool true)).map (fun w => (w.view.compatible_, w.model.compatible_, w.log)) =
      some (true, false, [])) ∧
    ((ConnectionPathPresenter.construct {}).callView 10 .set_active (.bool true)).map
        (fun w => (w.view.active_, w.model.active_, w.log)) =
      some (true, true, [.viewNotified .active_changed (.bool true),
        .modelNotified .active (.bool true)]) ∧
    ((ConnectionPathPresenter.construct {}).callView 10 .set_compatible (.bool true)).map
        (fun w => (w.view.compatible_, w.model.compatible_, w.log)) =
      some (true, true, [.viewNotified .compatible_changed (.bool true),
        .modelNotified .compatible (.bool true)]) := by
  refine ⟨fun fuel => ?_, fun fuel => ?_, by decide, by decide⟩
  · rw [Nat.add_comm]
    exact run_map_add_fuel _ _ 2 fuel _ _ _ (by decide)
  · rw [Nat.add_comm]
    exact run_map_add_fuel _ _ 2 fuel _ _ _ (by decide)

/-! ## Destruction of an item presenter -/

theorem itemPresenter_destruct_disconnects (w : ItemBinding) (side : Side) (p : ItemProperty) :
    (AbstractItemPresenter.destruct w).signal side p = (w.signal side p).disconnectAll := by
  cases side <;> cases p <;>
    simp [AbstractItemPresenter.destruct, ItemProperty.all, itemBinding_disconnectAll_signal]

theorem itemPresenter_destruct_data (w : ItemBinding) :
    (AbstractItemPresenter.destruct w).model = w.model ∧
      (AbstractItemPresenter.destruct w).view = w.view ∧
      (AbstractItemPresenter.destruct w).log = w.log := by
  simp [AbstractItemPresenter.destruct, ItemProperty.all, ItemBinding.disconnectAll]

theorem itemBinding_invocations_append (w : ItemBinding) (e : ItemEvent)
    (he : ∀ tag c, e ≠ .other tag c) :
    ItemBinding.invocations { w with log := w.log ++ [e] } = w.invocations := by
  simp only [ItemBinding.invocations, List.filterMap_append, List.filterMap_cons,
    List.filterMap_nil]
  cases e with
  | notified side c => simp
  | callback c => simp
  | other tag c => exact absurd rfl (he tag c)

theorem itemTask_step_quiet (t : ItemTask) (w : ItemBinding) (ht : t.isQuiet = true)
    (hno : ∀ side p, (w.signal side p).notify = []) :
    (ItemTask.step t w).2 = [] ∧ (ItemTask.step t w).1.model = w.model ∧
      (ItemTask.step t w).1.view = w.view ∧
      (ItemTask.step t w).1.modelSignals = w.modelSignals ∧
      (ItemTask.step t w).1.viewSignals = w.viewSignals ∧
      (ItemTask.step t w).1.invocations = w.invocations := by
  cases t with
  | call side c => cases ht
  | invoke slot side p => cases ht
  | notify side p =>
    simp only [ItemTask.step, hno side p, List.map_nil, true_and]
    exact itemBinding_invocations_append w _ (fun tag c h => by cases h)
  | callback p =>
    simp only [ItemTask.step]
    split
    · simp only [true_and]
      exact itemBinding_invocations_append w _ (fun tag c h => by cases h)
    · simp

theorem run_quiet_tasks (ts : List ItemTask) (hq : ∀ t ∈ ts, t.isQuiet = true)
    (w : ItemBinding) (hno : ∀ side p, (w.signal side p).notify = []) :
    ∃ w2, run ItemTask.step ts.length ts w = some w2 ∧ w2.model = w.model ∧
      w2.view = w.view ∧ w2.invocations = w.invocations := by
  induction ts generalizing w with
  | nil => exact ⟨w, rfl, rfl, rfl, rfl⟩
  | cons t rest ih =>
    obtain ⟨h1, h2, h3, h4, h5, h6⟩ :=
      itemTask_step_quiet t w (hq t (List.mem_cons_self _ _)) hno
    have hno2 : ∀ side p, ((ItemTask.step t w).1.signal side p).notify = [] := by
      intro side p
      have := hno side p
      cases side <;> simpa [ItemBinding.signal, h4, h5] using this
    obtain ⟨w2, hr, hm, hv, hi⟩ :=
      ih (fun t2 ht2 => hq t2 (List.mem_cons_of_mem _ ht2)) (ItemTask.step t w).1 hno2
    refine ⟨w2, ?_, hm.trans h2, hv.trans h3, hi.trans h6⟩
    rw [List.length_cons, run_cons, h1, List.nil_append]
    exact hr

theorem itemBinding_set_without_slots (w : ItemBinding)
    (hno : ∀ side p, (w.signal side p).notify = []) (side : Side) (c : ItemChange) :
    ∃ (n : Nat) (w2 : ItemBinding), (∀ fuel, w.set (fuel + n) side c = some w2) ∧
      w2.model = (match side with
        | .model => (w.model.set c).1
        | .view => w.model) ∧
      w2.view = (match side with
        | .model => w.view
        | .view => (w.view.set c).1) ∧
      w2.invocations = w.invocations := by
  have hstep : (ItemTask.step (.call side c) w).1.model = (match side with
        | .model => (w.model.set c).1
        | .view => w.model) ∧
      (ItemTask.step (.call side c) w).1.view = (match side with
        | .model => w.view
        | .view => (w.view.set c).1) ∧
      (ItemTask.step (.call side c) w).1.modelSignals = w.modelSignals ∧
      (ItemTask.step (.call side c) w).1.viewSignals = w.viewSignals ∧
      (ItemTask.step (.call side c) w).1.log = w.log ∧
      ∀ t ∈ (ItemTask.step (.call side c) w).2, t.isQuiet = true := by
    cases side with
    | model =>
      refine ⟨rfl, rfl, rfl, rfl, rfl, ?_⟩
      intro t ht
      simp only [ItemTask.step, List.mem_map] at ht
      obtain ⟨n, _, rfl⟩ := ht
      rfl
    | view =>
      refine ⟨rfl, rfl, rfl, rfl, rfl, ?_⟩
      intro t ht
      simp only [ItemTask.step, List.mem_map] at ht
      obtain ⟨e, _, rfl⟩ := ht
      cases e <;> rfl
  obtain ⟨hm, hv, hms, hvs, hlog, hq⟩ := hstep
  have hno2 : ∀ side2 p, ((ItemTask.step (.call side c) w).1.signal side2 p).notify = [] := by
    intro side2 p
    have := hno side2 p
    cases side2 <;> simpa [ItemBinding.signal, hms, hvs] using this
  obtain ⟨w2, hr, hm2, hv2, hi2⟩ :=
    run_quiet_tasks (ItemTask.step (.call side c) w).2 hq (ItemTask.step (.call side c) w).1 hno2
  refine ⟨(ItemTask.step (.call side c) w).2.length + 1, w2, ?_, hm2.trans hm, hv2.trans hv, ?_⟩
  · intro fuel
    simp only [ItemBinding.set]
    rw [show fuel + ((ItemTask.step (.call side c) w).2.length + 1) =
      ((ItemTask.step (.call side c) w).2.length + fuel) + 1 by omega, run_cons,
      List.append_nil]
    exact run_add_fuel _ _ fuel _ _ _ hr
  · rw [hi2]
    simp only [ItemBinding.invocations, hlog]

/-- C30. The destructors of the node, port and editable-label presenters run the destructor of
the generic item presenter and nothing else. It sets every entry of the slot lists of the eleven
mirrored signals of the model and of the view to null, whoever connected the slot, so that
`notify` on them invokes nothing; a setter called afterwards on either side returns, changes its
own side only, and invokes no slot of another party. The slot lists of the signals outside the
eleven are as they were. -/
theorem item_presenter_destructor_silences_mirrored_signals (w : DerivedItemBinding)
    (side : Side) (p : ItemProperty) (c : ItemChange) (s : DerivedSignal) :
    (NodeItemPresenter.destruct w).toItemBinding =
        AbstractItemPresenter.destruct w.toItemBinding ∧
      (PortItemPresenter.destruct w).toItemBinding =
        AbstractItemPresenter.destruct w.toItemBinding ∧
      (EditableArrowItemPresenter.destruct w).toItemBinding =
        AbstractItemPresenter.destruct w.toItemBinding ∧
      ((AbstractItemPresenter.destruct w.toItemBinding).signal side p).m_slots =
        (w.toItemBinding.signal side p).m_slots.map (fun _ => none) ∧
      ((AbstractItemPresenter.destruct w.toItemBinding).signal side p).notify = [] ∧
      (∃ (n : Nat) (w2 : ItemBinding),
        (∀ fuel, (AbstractItemPresenter.destruct w.toItemBinding).set (fuel + n) side c =
          some w2) ∧
        w2.model = (match side with
          | .model => (w.model.set c).1
          | .view => w.model) ∧
        w2.view = (match side with
          | .model => w.view
          | .view => (w.view.set c).1) ∧
        w2.invocations = w.toItemBinding.invocations) ∧
      ((NodeItemPresenter.destruct w).modelExtra s = w.modelExtra s ∧
        (NodeItemPresenter.destruct w).viewExtra s = w.viewExtra s) ∧
      ((PortItemPresenter.destruct w).modelExtra s = w.modelExtra s ∧
        (PortItemPresenter.destruct w).viewExtra s = w.viewExtra s) ∧
      ((EditableArrowItemPresenter.destruct w).modelExtra s = w.modelExtra s ∧
        (EditableArrowItemPresenter.destruct w).viewExtra s = w.viewExtra s) := by
  obtain ⟨hm, hv, hl⟩ := itemPresenter_destruct_data w.toItemBinding
  refine ⟨rfl, rfl, rfl, ?_, itemPresenter_destruct_signal _ side p, ?_,
    ⟨rfl, rfl⟩, ⟨rfl, rfl⟩, ⟨rfl, rfl⟩⟩
  · rw [itemPresenter_destruct_disconnects]
    rfl
  · obtain ⟨n, w2, hrun, h1, h2, h3⟩ :=
      itemBinding_set_without_slots (AbstractItemPresenter.destruct w.toItemBinding)
        (itemPresenter_destruct_signal _) side c
    refine ⟨n, w2, hrun, ?_, ?_, ?_⟩
    · rw [h1, hm]
    · rw [h2, hv]
    · rw [h3]
      simp only [ItemBinding.invocations, hl]

/-- C30, an instance: a port presenter is made on a view whose `pos_changed` holds the slot of
the scene's `createConnection` and a second foreign slot, and is destroyed. Before the
destruction `pos_changed` of the view invokes the two slots and the relay of the presenter,
afterwards nothing, and `view.set_pos((1, 2))` invokes no slot; `name_changed` of the view keeps
its foreign slot and the relay of the presenter. -/
theorem item_presenter_destructor_silences_mirrored_signals_witness :
    ((PortItemPresenter.construct DerivedItemBinding.sample).toItemBinding.signal .view
        .pos).notify = [.other 1, .other 2, .toModel] ∧
      ((AbstractItemPresenter.destruct
        (PortItemPresenter.construct DerivedItemBinding.sample).toItemBinding).signal .view
          .pos).notify = [] ∧
      ((AbstractItemPresenter.destruct
        (PortItemPresenter.construct DerivedItemBinding.sample).toItemBinding).set 3 .view
          (.pos ⟨.finite 1 0, .finite 2 0⟩)).map (fun w2 => (w2.invocations, w2.model.pos_)) =
        some ([], {}) ∧
      ((PortItemPresenter.destruct
        (PortItemPresenter.construct DerivedItemBinding.sample)).viewExtra
          .name_changed).notify = [.other 3, .toModel .name_changed] :=
  ⟨by decide,
    (item_presenter_destructor_silences_mirrored_signals
      (PortItemPresenter.construct DerivedItemBinding.sample) .view .pos
      (.pos ⟨.finite 1 0, .finite 2 0⟩) .name_changed).2.2.2.2.1,
    by decide, by decide⟩

end NodeEditor
